import Mathlib

/-!
# wazero: verification development

Shallow embedding of parts of the wazero WebAssembly runtime and theorems about them.

* Part A: the arm64 Go entry preamble built by
  `internal/engine/wazevo/backend/isa/arm64/abi_entry_preamble.go`.
* Part B: the arm64 assembler encodings asserted by `internal/asm/arm64/impl_4_test.go`.
* Part C: the lowered code asserted by `internal/engine/wazevo/backend/backend_test.go`.
* Part D: the exit codes of `wazevoapi` and the branch inversion of `ssa`.
* Part E: `decodeLimitsType` of `internal/wasm/binary/limits.go` and the memory accessors
  asserted by `internal/wasm/memory_test.go`.
* Parts F and G: the stack areas of the entry preamble and the locations of arguments and
  results.
* Part H: `unlink` of `internal/sysfs/unlink.go`, the register mask of
  `internal/engine/compiler/arch_amd64.go` and `encodeConstantExpression` of
  `internal/testing/binaryencoding/const_expr.go`.
* Parts I, J and K: growing a memory instance, reinterpretation in the compiler, and closing
  a module while calls are in flight, as asserted by the tests.
* Part L: staging registers, slot widths and links of the entry preamble.
-/

namespace Wazero

/-! ## Part A: data model of the arm64 backend -/

/-- The value types of `ssa.Type`. -/
inductive ssaType
  | TypeI32
  | TypeI64
  | TypeF32
  | TypeF64
  | TypeV128
deriving DecidableEq, Repr

/-- The method `ssa.Type.Bits`: the width of a value of the type. -/
def ssaType.Bits : ssaType → Nat
  | .TypeI32 => 32
  | .TypeI64 => 64
  | .TypeF32 => 32
  | .TypeF64 => 64
  | .TypeV128 => 128

/-- The registers of `regalloc.VReg` that the preamble names: the integer registers `xN`, the
float/vector registers `vN`, and the stack pointer. -/
inductive VReg
  | x (n : Nat)
  | v (n : Nat)
  | sp
deriving DecidableEq, Repr

def x0VReg : VReg := .x 0
def x15VReg : VReg := .x 15
def v15VReg : VReg := .v 15
def x19VReg : VReg := .x 19
def x20VReg : VReg := .x 20
def x24VReg : VReg := .x 24
def x25VReg : VReg := .x 25
def x26VReg : VReg := .x 26
def spVReg : VReg := .sp
/-- The frame pointer is x29 on arm64. -/
def fpVReg : VReg := .x 29
/-- The link register is x30 on arm64. -/
def lrVReg : VReg := .x 30
/-- The temporary register reserved by the backend is x27. -/
def tmpRegVReg : VReg := .x 27

def executionContextPtrReg : VReg := x0VReg
def paramResultSlicePtr : VReg := x19VReg
def savedExecutionContextPtr : VReg := x20VReg
def goAllocatedStackPtr : VReg := x26VReg
def paramResultSliceCopied : VReg := x25VReg
def functionExecutable : VReg := x24VReg

/-- The kinds of `addressMode` (spec 3.2). -/
inductive addressModeKind
  | RegUnsignedImm12
  | RegSignedImm9
  | RegReg
  | PostIndex
  | PreIndex
  | Literal
deriving DecidableEq, Repr

/-- The struct `addressMode`: kind, base register `rn`, index register `rm`, immediate. -/
structure addressMode where
  kind : addressModeKind
  rn : VReg
  rm : Option VReg := none
  imm : Int := 0
deriving DecidableEq, Repr

/-- The payload of an `instruction` after one of its `asXxx` setters ran. `zero` is the state
of a freshly allocated instruction; `lowerConstantI64 dst c` stands for the instructions that
materialise the constant `c` in `dst`. -/
inductive instrData
  | zero
  | nop0
  | mov64 (rd rn : VReg)
  | store (src : VReg) (amode : addressMode) (bits : Nat)
  | uLoad (dst : VReg) (amode : addressMode) (bits : Nat)
  | fpuLoad (dst : VReg) (amode : addressMode) (bits : Nat)
  | callIndirect (ptr : VReg)
  | ret
  | lowerConstantI64 (dst : VReg) (c : Int)
deriving DecidableEq, Repr

/-- The struct `instruction`: an intrusive doubly-linked node. The pointers `prev` and `next`
are indices into the instruction pool of the machine; `none` is the nil pointer. -/
structure instruction where
  prev : Option Nat := none
  next : Option Nat := none
  data : instrData := .zero
deriving DecidableEq, Repr

/-- The part of `machine` the preamble uses: the pool that `allocateInstr` allocates from. -/
structure machine where
  instrs : List instruction
deriving DecidableEq, Repr

/-- The kinds of `backend.ABIArgKind`. -/
inductive ABIArgKind
  | ABIArgKindReg
  | ABIArgKindStack
deriving DecidableEq, Repr

/-- The struct `backend.ABIArg`; its field `Type` is named `Typ` here. -/
structure ABIArg where
  Index : Nat
  Kind : ABIArgKind
  Reg : VReg
  Offset : Int
  Typ : ssaType
deriving DecidableEq, Repr

/-- The fields of `abiImpl` the preamble reads. -/
structure abiImpl where
  args : List ABIArg
  rets : List ABIArg
  argStackSize : Int
  retStackSize : Int
deriving DecidableEq, Repr

/-- The three `wazevoapi.ExecutionContextOffset...` constants the preamble uses; their
declaration is not part of the sources at hand, so they are taken as parameters. -/
structure ExecutionContextOffsets where
  OriginalFramePointer : Int
  OriginalStackPointer : Int
  GoReturnAddress : Int
deriving DecidableEq, Repr

/-- The type of the offset resolver behind `resolveAddressModeForOffsetAndInsert`: from the
offset, the access width and the base register it gives the instructions to insert and the
address mode to use. -/
abbrev OffsetResolver := Int → Nat → VReg → List instrData × addressMode

/-- Wrap-around of Go `int64` arithmetic. -/
def int64 (z : Int) : Int := (z + 2 ^ 63) % 2 ^ 64 - 2 ^ 63

/-! ### The instruction pool -/

/-- The method `machine.allocateInstr`: a fresh zeroed instruction, returned by pointer. -/
def machine.allocateInstr (m : machine) : machine × Nat :=
  (⟨m.instrs ++ [{ data := .zero }]⟩, m.instrs.length)

/-- A write through an instruction pointer. -/
def machine.modify (m : machine) (p : Nat) (f : instruction → instruction) : machine :=
  ⟨m.instrs.modify f p⟩

def instruction.asNop0 (i : instruction) : instruction := { i with data := .nop0 }

def instruction.asMove64 (i : instruction) (dst src : VReg) : instruction :=
  { i with data := .mov64 dst src }

def instruction.asStore (i : instruction) (src : VReg) (amode : addressMode) (bits : Nat) :
    instruction :=
  { i with data := .store src amode bits }

def instruction.asULoad (i : instruction) (dst : VReg) (amode : addressMode) (bits : Nat) :
    instruction :=
  { i with data := .uLoad dst amode bits }

def instruction.asFpuLoad (i : instruction) (dst : VReg) (amode : addressMode) (bits : Nat) :
    instruction :=
  { i with data := .fpuLoad dst amode bits }

def instruction.asCallIndirect (i : instruction) (ptr : VReg) : instruction :=
  { i with data := .callIndirect ptr }

def instruction.asRet (i : instruction) : instruction := { i with data := .ret }

/-- The state of an instruction the offset resolver has prepared. -/
def instruction.asPending (i : instruction) (d : instrData) : instruction :=
  { i with data := d }

/-- The method `machine.allocateNop`. -/
def machine.allocateNop (m : machine) : machine × Nat :=
  let (m, instr) := m.allocateInstr
  (m.modify instr (·.asNop0), instr)

/-- The function `linkInstr`: `prev.next = next; next.prev = prev; return next`. -/
def linkInstr (m : machine) (prev next : Nat) : machine × Nat :=
  let m := m.modify prev (fun i => { i with next := some next })
  let m := m.modify next (fun i => { i with prev := some prev })
  (m, next)

/-- The method `abiImpl.move64`. -/
def move64 (m : machine) (dst src : VReg) (prev : Nat) : machine × Nat :=
  let (m, instr) := m.allocateInstr
  let m := m.modify instr (·.asMove64 dst src)
  linkInstr m prev instr

/-- The method `abiImpl.loadOrStoreAtExecutionContext`. -/
def loadOrStoreAtExecutionContext (m : machine) (d : VReg) (offset : Int) (store : Bool)
    (prev : Nat) : machine × Nat :=
  let (m, instr) := m.allocateInstr
  let mode : addressMode :=
    { kind := .RegUnsignedImm12, rn := savedExecutionContextPtr, imm := offset }
  let m := if store then m.modify instr (·.asStore d mode 64)
    else m.modify instr (·.asULoad d mode 64)
  linkInstr m prev instr

/-- Modelled from the spec: `resolveAddressModeForOffsetAndInsert` is not part of the sources
at hand. It resolves the address mode for `offset` from the base `rn` (spec 4.1: scaled
unsigned imm12, unscaled signed imm9, or an offset held in a register) and links the
instructions this needs after `cur`. The choice of the mode and of the instructions is the
parameter `resolve`; the linking is done here. -/
def resolveAddressModeForOffsetAndInsert (resolve : OffsetResolver) (m : machine) (cur : Nat)
    (offset : Int) (dstBits : Nat) (rn : VReg) : machine × Nat × addressMode :=
  let (pending, mode) := resolve offset dstBits rn
  let (m, cur) := pending.foldl
    (fun (mc : machine × Nat) d =>
      let (m, instr) := mc.1.allocateInstr
      let m := m.modify instr (·.asPending d)
      linkInstr m mc.2 instr)
    (m, cur)
  (m, cur, mode)

/-- The method `machine.goEntryPreamblePassArg`. -/
def goEntryPreamblePassArg (resolve : OffsetResolver) (m : machine) (cur : Nat)
    (paramSlicePtr : VReg) (arg : ABIArg) (argStartOffsetFromSP : Int) : machine × Nat :=
  let typ := arg.Typ
  let bits := typ.Bits
  let isStackArg := arg.Kind == .ABIArgKindStack
  let loadTargetReg : VReg :=
    if !isStackArg then arg.Reg
    else match typ with
      | .TypeI32 | .TypeI64 => x15VReg
      | .TypeF32 | .TypeF64 | .TypeV128 => v15VReg
  let postIndexImm : Int := if typ = .TypeV128 then 16 else 8
  let loadMode : addressMode := { kind := .PostIndex, rn := paramSlicePtr, imm := postIndexImm }
  let (m, instr) := m.allocateInstr
  let m := match typ with
    | .TypeI32 => m.modify instr (·.asULoad loadTargetReg loadMode 32)
    | .TypeI64 => m.modify instr (·.asULoad loadTargetReg loadMode 64)
    | .TypeF32 => m.modify instr (·.asFpuLoad loadTargetReg loadMode 32)
    | .TypeF64 => m.modify instr (·.asFpuLoad loadTargetReg loadMode 64)
    | .TypeV128 => m.modify instr (·.asFpuLoad loadTargetReg loadMode 128)
  let (m, cur) := linkInstr m cur instr
  if isStackArg then
    let (m, cur, storeMode) := resolveAddressModeForOffsetAndInsert resolve m cur
      (int64 (argStartOffsetFromSP + arg.Offset)) bits spVReg
    let (m, toStack) := m.allocateInstr
    let m := m.modify toStack (·.asStore loadTargetReg storeMode bits)
    linkInstr m cur toStack
  else (m, cur)

/-- The method `machine.goEntryPreamblePassResult`. -/
def goEntryPreamblePassResult (resolve : OffsetResolver) (m : machine) (cur : Nat)
    (resultSlicePtr : VReg) (result : ABIArg) (resultStartOffsetFromSP : Int) : machine × Nat :=
  let isStackArg := result.Kind == .ABIArgKindStack
  let typ := result.Typ
  let bits := typ.Bits
  let storeTargetReg : VReg :=
    if !isStackArg then result.Reg
    else match typ with
      | .TypeI32 | .TypeI64 => x15VReg
      | .TypeF32 | .TypeF64 | .TypeV128 => v15VReg
  let postIndexImm : Int := if typ = .TypeV128 then 16 else 8
  let (m, cur) :=
    if isStackArg then
      let (m, cur, loadMode) := resolveAddressModeForOffsetAndInsert resolve m cur
        (int64 (resultStartOffsetFromSP + result.Offset)) bits spVReg
      let (m, toReg) := m.allocateInstr
      let m := match typ with
        | .TypeI32 | .TypeI64 => m.modify toReg (·.asULoad storeTargetReg loadMode bits)
        | .TypeF32 | .TypeF64 | .TypeV128 => m.modify toReg (·.asFpuLoad storeTargetReg loadMode bits)
      linkInstr m cur toReg
    else (m, cur)
  let mode : addressMode := { kind := .PostIndex, rn := resultSlicePtr, imm := postIndexImm }
  let (m, instr) := m.allocateInstr
  let m := m.modify instr (·.asStore storeTargetReg mode bits)
  linkInstr m cur instr

/-- Modelled from the spec: `alignedArgResultStackSlotSize` is not part of the sources at hand;
it is the size of the argument and result stack areas together, aligned up to 16 bytes
(spec 4.5). -/
def abiImpl.alignedArgResultStackSlotSize (a : abiImpl) : Int :=
  let stackSlotSize := int64 (a.retStackSize + a.argStackSize)
  int64 (stackSlotSize + 15) / 16 * 16

/-- The loop `for i := range a.args` of `constructEntryPreamble`, from index `i` on. -/
def passArgsLoop (resolve : OffsetResolver) (prReg : VReg) (stackSlotSize : Int) :
    Nat → List ABIArg → machine × Nat → machine × Nat
  | _, [], mc => mc
  | i, arg :: rest, mc =>
    if i < 2 then passArgsLoop resolve prReg stackSlotSize (i + 1) rest mc
    else passArgsLoop resolve prReg stackSlotSize (i + 1) rest
      (goEntryPreamblePassArg resolve mc.1 mc.2 prReg arg (int64 (-stackSlotSize)))

/-- The loop `for i := range a.rets` of `constructEntryPreamble`. -/
def passResultsLoop (resolve : OffsetResolver) (resultStart : Int) :
    List ABIArg → machine × Nat → machine × Nat
  | [], mc => mc
  | r :: rest, mc =>
    passResultsLoop resolve resultStart rest
      (goEntryPreamblePassResult resolve mc.1 mc.2 paramResultSlicePtr r resultStart)

/-- The method `abiImpl.constructEntryPreamble`; it returns the machine with the instructions
it allocated and the pointer `root`. -/
def constructEntryPreamble (resolve : OffsetResolver) (offs : ExecutionContextOffsets)
    (m : machine) (a : abiImpl) : machine × Nat :=
  let (m, root) := m.allocateNop
  let (m, cur) := move64 m savedExecutionContextPtr executionContextPtrReg root
  let (m, cur) := loadOrStoreAtExecutionContext m fpVReg offs.OriginalFramePointer true cur
  let (m, cur) := move64 m tmpRegVReg spVReg cur
  let (m, cur) := loadOrStoreAtExecutionContext m tmpRegVReg offs.OriginalStackPointer true cur
  let (m, cur) := loadOrStoreAtExecutionContext m lrVReg offs.GoReturnAddress true cur
  let (m, cur) := move64 m spVReg goAllocatedStackPtr cur
  let (m, cur, prReg) :=
    if a.args.length > 2 ∧ a.rets.length > 0 then
      let (m, cur) := move64 m paramResultSliceCopied paramResultSlicePtr cur
      (m, cur, paramResultSliceCopied)
    else (m, cur, paramResultSlicePtr)
  let stackSlotSize := a.alignedArgResultStackSlotSize
  let (m, cur) := passArgsLoop resolve prReg stackSlotSize 0 a.args (m, cur)
  let (m, bl) := m.allocateInstr
  let m := m.modify bl (·.asCallIndirect functionExecutable)
  let (m, cur) := linkInstr m cur bl
  let (m, cur) := passResultsLoop resolve (int64 (a.argStackSize - stackSlotSize)) a.rets (m, cur)
  let (m, cur) := loadOrStoreAtExecutionContext m fpVReg offs.OriginalFramePointer false cur
  let (m, cur) := loadOrStoreAtExecutionContext m tmpRegVReg offs.OriginalStackPointer false cur
  let (m, cur) := move64 m spVReg tmpRegVReg cur
  let (m, cur) := loadOrStoreAtExecutionContext m lrVReg offs.GoReturnAddress false cur
  let (m, retInst) := m.allocateInstr
  let m := m.modify retInst (·.asRet)
  let (m, _) := linkInstr m cur retInst
  (m, root)

/-- The instructions reached from the pointer `p` by following `next`, at most `fuel` of them. -/
def machine.listFrom (m : machine) : Nat → Option Nat → List instrData
  | 0, _ => []
  | _ + 1, none => []
  | fuel + 1, some p =>
    match m.instrs[p]? with
    | none => []
    | some i => i.data :: m.listFrom fuel i.next

/-- The instruction list that starts at `root`: what `machine.encode(root)` walks. -/
def machine.instructionsFrom (m : machine) (root : Nat) : List instrData :=
  m.listFrom m.instrs.length (some root)

/-- Modelled from the spec: the offset resolver `resolveAddressModeForOffset` is not part of
the sources at hand. Spec 4.1: the scaled unsigned-imm12 form when the offset is non-negative,
a multiple of the access size and at most 4095 units; else the signed-imm9 form when
`-256 ≤ offset ≤ 255`; else the offset is put in the temporary register and the
register-offset form is used. -/
def resolveAddressModeForOffset : OffsetResolver := fun offset dstBits rn =>
  let size : Int := dstBits / 8
  if 0 ≤ offset ∧ offset % size = 0 ∧ offset / size ≤ 4095 then
    ([], { kind := .RegUnsignedImm12, rn := rn, imm := offset })
  else if -256 ≤ offset ∧ offset ≤ 255 then
    ([], { kind := .RegSignedImm9, rn := rn, imm := offset })
  else
    ([.lowerConstantI64 tmpRegVReg offset], { kind := .RegReg, rn := rn, rm := some tmpRegVReg })

/-! ### List-level description of the preamble -/

/-- The register an argument or result is loaded to or stored from: its ABI register, or
the staging register x15 or v15 when it is passed on the stack. -/
def stagingReg (arg : ABIArg) : VReg :=
  if arg.Kind = .ABIArgKindStack then
    match arg.Typ with
    | .TypeI32 | .TypeI64 => x15VReg
    | .TypeF32 | .TypeF64 | .TypeV128 => v15VReg
  else arg.Reg

/-- The increment of the slice cursor for a value of the type: 16 for V128, else 8. -/
def sliceSlotSize (t : ssaType) : Int := if t = .TypeV128 then 16 else 8

/-- The load of one argument from the param slice through the cursor `paramSlicePtr`. -/
def argLoad (paramSlicePtr : VReg) (arg : ABIArg) : instrData :=
  let mode : addressMode :=
    { kind := .PostIndex, rn := paramSlicePtr, imm := sliceSlotSize arg.Typ }
  match arg.Typ with
  | .TypeI32 => .uLoad (stagingReg arg) mode 32
  | .TypeI64 => .uLoad (stagingReg arg) mode 64
  | .TypeF32 => .fpuLoad (stagingReg arg) mode 32
  | .TypeF64 => .fpuLoad (stagingReg arg) mode 64
  | .TypeV128 => .fpuLoad (stagingReg arg) mode 128

/-- The instructions `goEntryPreamblePassArg` links for one argument, in order. -/
def passArgInstrs (resolve : OffsetResolver) (paramSlicePtr : VReg) (argStart : Int)
    (arg : ABIArg) : List instrData :=
  argLoad paramSlicePtr arg ::
    (if arg.Kind = .ABIArgKindStack then
      let r := resolve (int64 (argStart + arg.Offset)) arg.Typ.Bits spVReg
      r.1 ++ [.store (stagingReg arg) r.2 arg.Typ.Bits]
    else [])

/-- The store of one result to the result slice through the cursor `resultSlicePtr`. -/
def resultStore (resultSlicePtr : VReg) (result : ABIArg) : instrData :=
  .store (stagingReg result)
    { kind := .PostIndex, rn := resultSlicePtr, imm := sliceSlotSize result.Typ }
    result.Typ.Bits

/-- The load of a stack-passed result into its staging register. -/
def resultStackLoad (mode : addressMode) (result : ABIArg) : instrData :=
  match result.Typ with
  | .TypeI32 | .TypeI64 => .uLoad (stagingReg result) mode result.Typ.Bits
  | .TypeF32 | .TypeF64 | .TypeV128 => .fpuLoad (stagingReg result) mode result.Typ.Bits

/-- The instructions `goEntryPreamblePassResult` links for one result, in order. -/
def passResultInstrs (resolve : OffsetResolver) (resultSlicePtr : VReg) (resultStart : Int)
    (result : ABIArg) : List instrData :=
  (if result.Kind = .ABIArgKindStack then
      let r := resolve (int64 (resultStart + result.Offset)) result.Typ.Bits spVReg
      r.1 ++ [resultStackLoad r.2 result]
    else []) ++ [resultStore resultSlicePtr result]

/-- The register the argument loads advance: the copy x25 when there are results to store
through x19 later, else x19 itself. -/
def paramCursorReg (a : abiImpl) : VReg :=
  if a.args.length > 2 ∧ a.rets.length > 0 then paramResultSliceCopied else paramResultSlicePtr

/-- The instruction list of the entry preamble, in order. -/
def entryPreambleInstrs (resolve : OffsetResolver) (offs : ExecutionContextOffsets)
    (a : abiImpl) : List instrData :=
  let ctx (o : Int) : addressMode :=
    { kind := .RegUnsignedImm12, rn := savedExecutionContextPtr, imm := o }
  [ .nop0,
    .mov64 savedExecutionContextPtr executionContextPtrReg,
    .store fpVReg (ctx offs.OriginalFramePointer) 64,
    .mov64 tmpRegVReg spVReg,
    .store tmpRegVReg (ctx offs.OriginalStackPointer) 64,
    .store lrVReg (ctx offs.GoReturnAddress) 64,
    .mov64 spVReg goAllocatedStackPtr ]
  ++ (if a.args.length > 2 ∧ a.rets.length > 0 then
        [.mov64 paramResultSliceCopied paramResultSlicePtr] else [])
  ++ (a.args.drop 2).flatMap
        (passArgInstrs resolve (paramCursorReg a) (int64 (-a.alignedArgResultStackSlotSize)))
  ++ [.callIndirect functionExecutable]
  ++ a.rets.flatMap
        (passResultInstrs resolve paramResultSlicePtr
          (int64 (a.argStackSize - a.alignedArgResultStackSlotSize)))
  ++ [ .uLoad fpVReg (ctx offs.OriginalFramePointer) 64,
       .uLoad tmpRegVReg (ctx offs.OriginalStackPointer) 64,
       .mov64 spVReg tmpRegVReg,
       .uLoad lrVReg (ctx offs.GoReturnAddress) 64,
       .ret ]

/-- The three steps every emitter of the preamble performs: allocate, fill in, link after
`cur`. -/
def machine.pushLinked (m : machine) (cur : Nat) (d : instrData) : machine × Nat :=
  let (m, instr) := m.allocateInstr
  let m := m.modify instr (fun i => { i with data := d })
  linkInstr m cur instr

/-- The pool holds from index `root` on exactly the nodes of the list `L`, linked in order,
and `mc.2` points to the last of them. -/
structure Built (mc : machine × Nat) (root : Nat) (L : List instrData) : Prop where
  len : mc.1.instrs.length = root + L.length
  pos : 0 < L.length
  cur : mc.2 + 1 = mc.1.instrs.length
  node : ∀ k, k < L.length → mc.1.instrs[root + k]? =
    some { prev := if k = 0 then none else some (root + k - 1),
           next := if k + 1 < L.length then some (root + k + 1) else none,
           data := L.getD k .zero }

/-- What the preamble relies on from the offset resolver: it inserts only instructions that
materialise a constant in the temporary register, and the mode it returns addresses memory
from the given base in the scaled, the unscaled or the register-offset form. -/
def OffsetResolver.WellBehaved (resolve : OffsetResolver) : Prop :=
  ∀ offset dstBits rn,
    (∀ d ∈ (resolve offset dstBits rn).1, ∃ c, d = .lowerConstantI64 tmpRegVReg c) ∧
    (resolve offset dstBits rn).2.rn = rn ∧
    ((resolve offset dstBits rn).2.kind = .RegUnsignedImm12 ∨
      (resolve offset dstBits rn).2.kind = .RegSignedImm9 ∨
      (resolve offset dstBits rn).2.kind = .RegReg)

/-- Whether the instruction is an indirect call. -/
def instrData.isCallIndirect : instrData → Bool
  | .callIndirect _ => true
  | _ => false

/-- Whether the instruction is a store in the post-index form. -/
def instrData.isPostIndexStore : instrData → Bool
  | .store _ amode _ => amode.kind = .PostIndex
  | _ => false

/-- Whether the instruction is a load in the post-index form. -/
def instrData.isPostIndexLoad : instrData → Bool
  | .uLoad _ amode _ => amode.kind = .PostIndex
  | .fpuLoad _ amode _ => amode.kind = .PostIndex
  | _ => false

/-- A signature with the two context pointers, an i32 register argument and a v128 stack
argument, and an i32 register result and an f64 stack result far up the stack. -/
def exampleABI : abiImpl :=
  { args := [⟨0, .ABIArgKindReg, .x 0, 0, .TypeI64⟩, ⟨1, .ABIArgKindReg, .x 1, 0, .TypeI64⟩,
      ⟨2, .ABIArgKindReg, .x 2, 0, .TypeI32⟩, ⟨3, .ABIArgKindStack, .x 0, 0, .TypeV128⟩],
    rets := [⟨0, .ABIArgKindReg, .x 0, 0, .TypeI32⟩, ⟨1, .ABIArgKindStack, .x 0, 8000000, .TypeF64⟩],
    argStackSize := 16, retStackSize := 8 }

/-- Execution-context offsets used in examples. -/
def exampleOffsets : ExecutionContextOffsets := ⟨16, 24, 32⟩

/-! ### Where the preamble reads and writes the param/result slice -/

/-- What is known about the registers while the preamble runs: `some d` for a register that
holds the address of the param/result slice plus `d` bytes, `none` for any other value. -/
abbrev SliceState := VReg → Option Int

def SliceState.set (st : SliceState) (r : VReg) (val : Option Int) : SliceState :=
  fun q => if q = r then val else st q

/-- On entry only x19 points to the slice, to its start (`CompileEntryPreamble`, item 2). -/
def initialSliceState : SliceState := fun r => if r = paramResultSlicePtr then some 0 else none

/-- One access to the param/result slice: its direction, its byte offset from the start of
the slice (`none` when the offset is held in a register), its width in bits and the register
that is loaded or stored. -/
structure sliceAccess where
  isStore : Bool
  offset : Option Int
  bits : Nat
  reg : VReg
deriving DecidableEq, Repr

/-- The access an address mode makes when its base register points into the slice. -/
def accessThrough (st : SliceState) (amode : addressMode) (isStore : Bool) (bits : Nat)
    (reg : VReg) : List sliceAccess :=
  match st amode.rn with
  | none => []
  | some d =>
    match amode.kind with
    | .PostIndex => [⟨isStore, some d, bits, reg⟩]
    | .RegUnsignedImm12 | .RegSignedImm9 | .PreIndex => [⟨isStore, some (d + amode.imm), bits, reg⟩]
    | .RegReg => [⟨isStore, none, bits, reg⟩]
    | .Literal => []

/-- The write-back of the pre- and post-index modes: the base register moves by the immediate. -/
def writeBack (st : SliceState) (amode : addressMode) : SliceState :=
  match amode.kind with
  | .PostIndex | .PreIndex => st.set amode.rn ((st amode.rn).map (· + amode.imm))
  | _ => st

/-- The registers a called function preserves: x19 to x28. -/
def isCalleeSaved : VReg → Bool
  | .x n => 19 ≤ n ∧ n ≤ 28
  | _ => false

/-- The effect of one instruction on the knowledge about the registers, and the accesses to
the slice it makes. -/
def sliceStep (st : SliceState) : instrData → SliceState × List sliceAccess
  | .mov64 rd rn => (st.set rd (st rn), [])
  | .uLoad dst amode bits => ((writeBack st amode).set dst none, accessThrough st amode false bits dst)
  | .fpuLoad dst amode bits => ((writeBack st amode).set dst none, accessThrough st amode false bits dst)
  | .store src amode bits => (writeBack st amode, accessThrough st amode true bits src)
  | .callIndirect _ => (fun r => if isCalleeSaved r then st r else none, [])
  | .lowerConstantI64 dst _ => (st.set dst none, [])
  | .zero => (st, [])
  | .nop0 => (st, [])
  | .ret => (st, [])

/-- The accesses to the slice of a list of instructions run in order. -/
def sliceRun (st : SliceState) : List instrData → SliceState × List sliceAccess
  | [] => (st, [])
  | d :: ds =>
    let r1 := sliceStep st d
    let r2 := sliceRun r1.1 ds
    (r2.1, r1.2 ++ r2.2)

/-- The registers an instruction writes. -/
def instrData.defs : instrData → List VReg
  | .mov64 rd _ => [rd]
  | .uLoad dst amode _ => dst :: (if amode.kind = .PostIndex ∨ amode.kind = .PreIndex then [amode.rn] else [])
  | .fpuLoad dst amode _ => dst :: (if amode.kind = .PostIndex ∨ amode.kind = .PreIndex then [amode.rn] else [])
  | .store _ amode _ => if amode.kind = .PostIndex ∨ amode.kind = .PreIndex then [amode.rn] else []
  | .lowerConstantI64 dst _ => [dst]
  | _ => []

/-- The registers that carry arguments and results: x0 to x7 and v0 to v7 (spec 4.5). -/
def isArgResultReg : VReg → Bool
  | .x n => n < 8
  | .v n => n < 8
  | .sp => false

/-- A register-passed argument or result lives in an argument/result register. -/
def ABIArg.RegOK (arg : ABIArg) : Prop :=
  arg.Kind = .ABIArgKindReg → isArgResultReg arg.Reg = true

/-- The accesses expected for the values `l` laid out in the slice one after the other from
byte `start`: value `k` at the sum of the slot sizes of the values before it. -/
def sliceLayout (isStore : Bool) (l : List ABIArg) : List sliceAccess :=
  l.enum.map fun kp =>
    ⟨isStore, some (((l.take kp.1).map fun p => sliceSlotSize p.Typ).sum), kp.2.Typ.Bits,
      stagingReg kp.2⟩

/-- The instructions of a list that stand before its first indirect call. -/
def beforeCall (L : List instrData) : List instrData := L.takeWhile (fun d => !d.isCallIndirect)

/-- The accesses for the values `l` laid out one after the other from byte `start`. -/
def sliceLayoutFrom (isStore : Bool) : Int → List ABIArg → List sliceAccess
  | _, [] => []
  | start, p :: rest =>
    ⟨isStore, some start, p.Typ.Bits, stagingReg p⟩ ::
      sliceLayoutFrom isStore (start + sliceSlotSize p.Typ) rest

/-- No register other than x19 and x25 holds an address of the slice. -/
def SliceState.Inv (st : SliceState) : Prop :=
  ∀ r, r ≠ x19VReg → r ≠ x25VReg → st r = none

/-- The instructions of the preamble before the call. -/
def preambleBeforeCall (resolve : OffsetResolver) (offs : ExecutionContextOffsets)
    (a : abiImpl) : List instrData :=
  let ctx (o : Int) : addressMode :=
    { kind := .RegUnsignedImm12, rn := savedExecutionContextPtr, imm := o }
  [ .nop0,
    .mov64 savedExecutionContextPtr executionContextPtrReg,
    .store fpVReg (ctx offs.OriginalFramePointer) 64,
    .mov64 tmpRegVReg spVReg,
    .store tmpRegVReg (ctx offs.OriginalStackPointer) 64,
    .store lrVReg (ctx offs.GoReturnAddress) 64,
    .mov64 spVReg goAllocatedStackPtr ]
  ++ ((if a.args.length > 2 ∧ a.rets.length > 0 then
        [.mov64 paramResultSliceCopied paramResultSlicePtr] else [])
  ++ (a.args.drop 2).flatMap
        (passArgInstrs resolve (paramCursorReg a) (int64 (-a.alignedArgResultStackSlotSize))))

/-- The instructions of the preamble after the call. -/
def preambleAfterCall (resolve : OffsetResolver) (offs : ExecutionContextOffsets)
    (a : abiImpl) : List instrData :=
  let ctx (o : Int) : addressMode :=
    { kind := .RegUnsignedImm12, rn := savedExecutionContextPtr, imm := o }
  a.rets.flatMap
        (passResultInstrs resolve paramResultSlicePtr
          (int64 (a.argStackSize - a.alignedArgResultStackSlotSize)))
  ++ [ .uLoad fpVReg (ctx offs.OriginalFramePointer) 64,
       .uLoad tmpRegVReg (ctx offs.OriginalStackPointer) 64,
       .mov64 spVReg tmpRegVReg,
       .uLoad lrVReg (ctx offs.GoReturnAddress) 64,
       .ret ]

/-- The base register of the address mode of a load or store. -/
def instrData.base : instrData → Option VReg
  | .store _ amode _ => some amode.rn
  | .uLoad _ amode _ => some amode.rn
  | .fpuLoad _ amode _ => some amode.rn
  | _ => none

/-- Whether the instruction is a register move. -/
def instrData.isMov64 : instrData → Bool
  | .mov64 _ _ => true
  | _ => false

/-! ## Part B: the arm64 assembler (`internal/asm/arm64`) -/

/-- The arm64 registers of `asm.Register`: the nil register, the integer registers R0 to R30,
the zero register and the vector registers V0 to V31. -/
inductive Register
  | NilRegister
  | RegR (n : Fin 31)
  | RegRZR
  | RegV (n : Fin 32)
deriving DecidableEq, Repr

/-- The instructions named by the tests of `encodeMemoryToRegister`, and `SUB` and `ADD`, which
that encoder does not support. -/
inductive Instruction
  | LDRD
  | LDRW
  | LDRSW
  | LDRSHD
  | LDRSHW
  | LDRH
  | LDRSBD
  | LDRSBW
  | LDRB
  | FLDRD
  | FLDRS
  | SUB
  | ADD
deriving DecidableEq, Repr

/-- The fields of `nodeImpl` that `encodeMemoryToRegister` reads. -/
structure nodeImpl where
  instruction : Instruction
  srcReg : Register := .NilRegister
  srcReg2 : Register := .NilRegister
  srcConst : Int := 0
  dstReg : Register := .NilRegister
deriving DecidableEq, Repr

/-- The errors of the encoder (spec 4.1). -/
inductive EncodeError
  | UnsupportedInstruction (inst : Instruction)
  | InvalidRegister (reg : Register)
deriving DecidableEq, Repr

/-- The machine instructions a load is assembled from, with their fields: the load in the
scaled unsigned-imm12 form, in the unscaled signed-imm9 form and in the register-offset
form, the addition of an imm12 shifted left by 12, and the 32-bit load of a literal. -/
inductive MachineInst
  | LoadUnsignedImm12 (size v opc imm12 rn rt : Nat)
  | LoadUnscaledImm9 (size v opc : Nat) (imm9 : Int) (rn rt : Nat)
  | LoadRegisterOffset (size v opc rm rn rt : Nat)
  | AddShifted12 (imm12 rn rd : Nat)
  | LoadLiteral32 (imm19 rt : Nat)
deriving DecidableEq, Repr

/-- The 32-bit word of a machine instruction (Arm A64 encodings of LDR (immediate, unsigned
offset), LDUR, LDR (register, LSL), ADD (immediate, LSL 12, 64-bit), LDR (literal, 32-bit)). -/
def MachineInst.word : MachineInst → Nat
  | .LoadUnsignedImm12 size v opc imm12 rn rt =>
    size * 2 ^ 30 + 7 * 2 ^ 27 + v * 2 ^ 26 + 1 * 2 ^ 24 + opc * 2 ^ 22 + imm12 * 2 ^ 10 +
      rn * 2 ^ 5 + rt
  | .LoadUnscaledImm9 size v opc imm9 rn rt =>
    size * 2 ^ 30 + 7 * 2 ^ 27 + v * 2 ^ 26 + opc * 2 ^ 22 + (imm9 % 512).toNat * 2 ^ 12 +
      rn * 2 ^ 5 + rt
  | .LoadRegisterOffset size v opc rm rn rt =>
    size * 2 ^ 30 + 7 * 2 ^ 27 + v * 2 ^ 26 + opc * 2 ^ 22 + 1 * 2 ^ 21 + rm * 2 ^ 16 +
      3 * 2 ^ 13 + 2 * 2 ^ 10 + rn * 2 ^ 5 + rt
  | .AddShifted12 imm12 rn rd =>
    0x91400000 + imm12 * 2 ^ 10 + rn * 2 ^ 5 + rd
  | .LoadLiteral32 imm19 rt =>
    0x18000000 + imm19 * 2 ^ 5 + rt

/-- The four bytes of a word, least significant first. -/
def wordBytes (w : Nat) : List Nat :=
  [w % 256, w / 256 % 256, w / 65536 % 256, w / 16777216 % 256]

/-- The function `registerBits`: the number of the register in its bank. -/
def registerBits : Register → Nat
  | .RegR n => n
  | .RegRZR => 31
  | .RegV n => n
  | .NilRegister => 0

/-- The function `intRegisterBits`: the number of an integer register, an error for others. -/
def intRegisterBits : Register → Except EncodeError Nat
  | .RegR n => .ok n
  | .RegRZR => .ok 31
  | r => .error (.InvalidRegister r)

/-- The function `vectorRegisterBits`: the number of a vector register, an error for others. -/
def vectorRegisterBits : Register → Except EncodeError Nat
  | .RegV n => .ok n
  | r => .error (.InvalidRegister r)

/-- The encoding parameters of a load: the fields size, V and opc of the instruction word, the
binary logarithm of the access size in bytes, and whether the target is a vector register.
They are read off the first rows of each instruction in the table of
`TestAssemblerImpl_EncodeMemoryToRegister`. -/
structure loadParams where
  size : Nat
  v : Nat
  opc : Nat
  datasizeLog2 : Nat
  isTargetFloat : Bool
deriving DecidableEq, Repr

def loadParamsOf : Instruction → Option loadParams
  | .LDRD => some ⟨3, 0, 1, 3, false⟩
  | .LDRW => some ⟨2, 0, 1, 2, false⟩
  | .LDRSW => some ⟨2, 0, 2, 2, false⟩
  | .LDRSHD => some ⟨1, 0, 2, 1, false⟩
  | .LDRSHW => some ⟨1, 0, 3, 1, false⟩
  | .LDRH => some ⟨1, 0, 1, 1, false⟩
  | .LDRSBD => some ⟨0, 0, 2, 0, false⟩
  | .LDRSBW => some ⟨0, 0, 3, 0, false⟩
  | .LDRB => some ⟨0, 0, 1, 0, false⟩
  | .FLDRD => some ⟨3, 1, 1, 3, true⟩
  | .FLDRS => some ⟨2, 1, 1, 2, true⟩
  | .SUB => none
  | .ADD => none

/-- The access size in bytes of a load. -/
def loadParams.datasize (p : loadParams) : Int := 2 ^ p.datasizeLog2

/-- Modelled from the spec: the body of `encodeLoadOrStoreWithConstOffset` is not part of the
sources at hand. Spec 4.1: the scaled unsigned-imm12 form when the offset is non-negative, a
multiple of the access size and at most 4095 units; else the unscaled signed-imm9 form when
`-256 ≤ offset ≤ 255`; else the long-offset synthesis `ADD tmp, base, #hi` (imm12 shifted by
12) with a scaled load of the low bits, which needs `hi` to be a multiple of 4096 of at most
4095 units and the low part a multiple of the access size; else the offset is loaded from a
literal into `tmp` and a register-offset load follows. The table of
`TestAssemblerImpl_EncodeMemoryToRegister` fixes the split between the last two forms
(offset 1048584 is synthesised, offset 1 << 27 is loaded from a literal) and the bytes: the
literal itself goes to the constant pool, so this form is two instructions here as well. -/
def selectLoadWithConstOffset (tmpRegBits baseRegBits targetRegBits : Nat) (offset : Int)
    (p : loadParams) : List MachineInst :=
  let datasize := p.datasize
  if 0 ≤ offset ∧ offset % datasize = 0 ∧ offset / datasize ≤ 4095 then
    [.LoadUnsignedImm12 p.size p.v p.opc (offset / datasize).toNat baseRegBits targetRegBits]
  else if -256 ≤ offset ∧ offset ≤ 255 then
    [.LoadUnscaledImm9 p.size p.v p.opc offset baseRegBits targetRegBits]
  else
    let lo := offset / datasize % 4096 * datasize
    let hi := offset - lo
    if 0 ≤ hi ∧ hi % 4096 = 0 ∧ hi / 4096 ≤ 4095 then
      [.AddShifted12 (hi / 4096).toNat baseRegBits tmpRegBits,
        .LoadUnsignedImm12 p.size p.v p.opc (lo / datasize).toNat tmpRegBits targetRegBits]
    else
      [.LoadLiteral32 0 tmpRegBits,
        .LoadRegisterOffset p.size p.v p.opc tmpRegBits baseRegBits targetRegBits]

/-- Modelled from the spec: the body of `encodeMemoryToRegister` is not part of the sources at
hand. It gives the machine instructions selected for the load `n` by an assembler whose
temporary register is `tmp`: the register-offset form when `srcReg2` is set (spec 4.1), else
the form for the constant offset `srcConst`. Instructions that are not loads are rejected, as
the test of the error case asserts for `SUB`. -/
def selectMemoryToRegister (tmp : Register) (n : nodeImpl) :
    Except EncodeError (List MachineInst) :=
  match loadParamsOf n.instruction with
  | none => .error (.UnsupportedInstruction n.instruction)
  | some p =>
    match (if p.isTargetFloat then vectorRegisterBits n.dstReg else intRegisterBits n.dstReg) with
    | .error e => .error e
    | .ok dstRegBits =>
      match intRegisterBits n.srcReg with
      | .error e => .error e
      | .ok baseRegBits =>
        if n.srcReg2 ≠ .NilRegister then
          match intRegisterBits n.srcReg2 with
          | .error e => .error e
          | .ok offsetRegBits =>
            .ok [.LoadRegisterOffset p.size p.v p.opc offsetRegBits baseRegBits dstRegBits]
        else
          .ok (selectLoadWithConstOffset (registerBits tmp) baseRegBits dstRegBits n.srcConst p)

/-- The bytes `encodeMemoryToRegister` appends to the buffer. -/
def encodeMemoryToRegister (tmp : Register) (n : nodeImpl) : Except EncodeError (List Nat) :=
  (selectMemoryToRegister tmp n).map fun l => l.flatMap fun i => wordBytes i.word

/-- The message of `errorEncodingUnsupported` for a node of the memory-to-register type. -/
def EncodeError.message : EncodeError → String
  | .UnsupportedInstruction .SUB => "SUB is unsupported for MemoryToRegister type"
  | .UnsupportedInstruction .ADD => "ADD is unsupported for MemoryToRegister type"
  | .UnsupportedInstruction _ => "unsupported for MemoryToRegister type"
  | .InvalidRegister _ => "invalid register"

/-- Whether the encoder gives exactly the bytes `exp` for the node `n`. -/
def encodesTo (tmp : Register) (n : nodeImpl) (exp : List Nat) : Bool :=
  match encodeMemoryToRegister tmp n with
  | .ok bs => bs == exp
  | .error _ => false

/-- Rows of the table of `TestAssemblerImpl_EncodeMemoryToRegister` for `LDRD`: the node and
the bytes expected from an assembler with the temporary register R27. -/
def testsLDRD_0 : List (nodeImpl × List Nat) :=
  [
    (nodeImpl.mk .LDRD (.RegR 5) .NilRegister (-1) (.RegR 11), [171, 240, 95, 248]),
    (nodeImpl.mk .LDRD (.RegR 5) .NilRegister (0) (.RegR 11), [171, 0, 64, 249]),
    (nodeImpl.mk .LDRD (.RegR 5) .NilRegister (1) (.RegR 11), [171, 16, 64, 248]),
    (nodeImpl.mk .LDRD (.RegR 5) .NilRegister (2) (.RegR 11), [171, 32, 64, 248]),
    (nodeImpl.mk .LDRD (.RegR 5) .NilRegister (-2) (.RegR 11), [171, 224, 95, 248]),
    (nodeImpl.mk .LDRD (.RegR 5) .NilRegister (15) (.RegR 11), [171, 240, 64, 248]),
    (nodeImpl.mk .LDRD (.RegR 5) .NilRegister (-15) (.RegR 11), [171, 16, 95, 248]),
    (nodeImpl.mk .LDRD (.RegR 5) .NilRegister (16) (.RegR 11), [171, 8, 64, 249]),
    (nodeImpl.mk .LDRD (.RegR 5) .NilRegister (15) (.RegR 11), [171, 240, 64, 248]),
    (nodeImpl.mk .LDRD (.RegR 5) .NilRegister (17) (.RegR 11), [171, 16, 65, 248]),
    (nodeImpl.mk .LDRD (.RegR 5) .NilRegister (-128) (.RegR 11), [171, 0, 88, 248]),
    (nodeImpl.mk .LDRD (.RegR 5) .NilRegister (-256) (.RegR 11), [171, 0, 80, 248]),
    (nodeImpl.mk .LDRD (.RegR 5) .NilRegister (80) (.RegR 11), [171, 40, 64, 249]),
    (nodeImpl.mk .LDRD (.RegR 5) .NilRegister (-128) (.RegR 11), [171, 0, 88, 248]),
    (nodeImpl.mk .LDRD (.RegR 5) .NilRegister (255) (.RegR 11), [171, 240, 79, 248]),
    (nodeImpl.mk .LDRD (.RegR 5) .NilRegister (4096) (.RegR 11), [171, 0, 72, 249]),
    (nodeImpl.mk .LDRD (.RegR 5) .NilRegister (8192) (.RegR 11), [171, 0, 80, 249]),
    (nodeImpl.mk .LDRD (.RegR 5) .NilRegister (32760) (.RegR 11), [171, 252, 127, 249]),
    (nodeImpl.mk .LDRD (.RegR 5) .NilRegister (65520) (.RegR 11), [187, 32, 64, 145, 107, 251, 127, 249]),
    (nodeImpl.mk .LDRD (.RegR 5) .NilRegister (65512) (.RegR 11), [187, 32, 64, 145, 107, 247, 127, 249]),
    (nodeImpl.mk .LDRD (.RegR 5) .NilRegister (65504) (.RegR 11), [187, 32, 64, 145, 107, 243, 127, 249]),
    (nodeImpl.mk .LDRD (.RegR 5) .NilRegister (134217728) (.RegR 11), [27, 0, 0, 24, 171, 104, 123, 248]),
    (nodeImpl.mk .LDRD (.RegR 5) .NilRegister (1073741824) (.RegR 11), [27, 0, 0, 24, 171, 104, 123, 248]),
    (nodeImpl.mk .LDRD (.RegR 5) .NilRegister (1073741832) (.RegR 11), [27, 0, 0, 24, 171, 104, 123, 248]),
    (nodeImpl.mk .LDRD (.RegR 5) .NilRegister (1073741816) (.RegR 11), [27, 0, 0, 24, 171, 104, 123, 248]),
    (nodeImpl.mk .LDRD (.RegR 5) .NilRegister (1073741840) (.RegR 11), [27, 0, 0, 24, 171, 104, 123, 248]),
    (nodeImpl.mk .LDRD (.RegR 5) .NilRegister (1073741808) (.RegR 11), [27, 0, 0, 24, 171, 104, 123, 248]),
    (nodeImpl.mk .LDRD (.RegR 5) .NilRegister (2147483640) (.RegR 11), [27, 0, 0, 24, 171, 104, 123, 248]),
    (nodeImpl.mk .LDRD (.RegR 5) .NilRegister (268435460) (.RegR 11), [27, 0, 0, 24, 171, 104, 123, 248]),
    (nodeImpl.mk .LDRD (.RegR 5) .NilRegister (1048584) (.RegR 11), [187, 0, 68, 145, 107, 7, 64, 249]),
    (nodeImpl.mk .LDRD (.RegR 5) .NilRegister (1048568) (.RegR 11), [187, 224, 67, 145, 107, 255, 127, 249]),
    (nodeImpl.mk .LDRD (.RegR 5) (.RegR 8) 0 (.RegR 11), [171, 104, 104, 248])
  ]

/-- Rows of the table of `TestAssemblerImpl_EncodeMemoryToRegister` for `LDRD`: the node and
the bytes expected from an assembler with the temporary register R27. -/
def testsLDRD_1 : List (nodeImpl × List Nat) :=
  [
    (nodeImpl.mk .LDRD (.RegR 30) .NilRegister (-1) (.RegR 11), [203, 243, 95, 248]),
    (nodeImpl.mk .LDRD (.RegR 30) .NilRegister (0) (.RegR 11), [203, 3, 64, 249]),
    (nodeImpl.mk .LDRD (.RegR 30) .NilRegister (1) (.RegR 11), [203, 19, 64, 248]),
    (nodeImpl.mk .LDRD (.RegR 30) .NilRegister (2) (.RegR 11), [203, 35, 64, 248]),
    (nodeImpl.mk .LDRD (.RegR 30) .NilRegister (-2) (.RegR 11), [203, 227, 95, 248]),
    (nodeImpl.mk .LDRD (.RegR 30) .NilRegister (15) (.RegR 11), [203, 243, 64, 248]),
    (nodeImpl.mk .LDRD (.RegR 30) .NilRegister (-15) (.RegR 11), [203, 19, 95, 248]),
    (nodeImpl.mk .LDRD (.RegR 30) .NilRegister (16) (.RegR 11), [203, 11, 64, 249]),
    (nodeImpl.mk .LDRD (.RegR 30) .NilRegister (15) (.RegR 11), [203, 243, 64, 248]),
    (nodeImpl.mk .LDRD (.RegR 30) .NilRegister (17) (.RegR 11), [203, 19, 65, 248]),
    (nodeImpl.mk .LDRD (.RegR 30) .NilRegister (-128) (.RegR 11), [203, 3, 88, 248]),
    (nodeImpl.mk .LDRD (.RegR 30) .NilRegister (-256) (.RegR 11), [203, 3, 80, 248]),
    (nodeImpl.mk .LDRD (.RegR 30) .NilRegister (80) (.RegR 11), [203, 43, 64, 249]),
    (nodeImpl.mk .LDRD (.RegR 30) .NilRegister (-128) (.RegR 11), [203, 3, 88, 248]),
    (nodeImpl.mk .LDRD (.RegR 30) .NilRegister (255) (.RegR 11), [203, 243, 79, 248]),
    (nodeImpl.mk .LDRD (.RegR 30) .NilRegister (4096) (.RegR 11), [203, 3, 72, 249]),
    (nodeImpl.mk .LDRD (.RegR 30) .NilRegister (8192) (.RegR 11), [203, 3, 80, 249]),
    (nodeImpl.mk .LDRD (.RegR 30) .NilRegister (32760) (.RegR 11), [203, 255, 127, 249]),
    (nodeImpl.mk .LDRD (.RegR 30) .NilRegister (65520) (.RegR 11), [219, 35, 64, 145, 107, 251, 127, 249]),
    (nodeImpl.mk .LDRD (.RegR 30) .NilRegister (65512) (.RegR 11), [219, 35, 64, 145, 107, 247, 127, 249]),
    (nodeImpl.mk .LDRD (.RegR 30) .NilRegister (65504) (.RegR 11), [219, 35, 64, 145, 107, 243, 127, 249]),
    (nodeImpl.mk .LDRD (.RegR 30) .NilRegister (134217728) (.RegR 11), [27, 0, 0, 24, 203, 107, 123, 248]),
    (nodeImpl.mk .LDRD (.RegR 30) .NilRegister (1073741824) (.RegR 11), [27, 0, 0, 24, 203, 107, 123, 248]),
    (nodeImpl.mk .LDRD (.RegR 30) .NilRegister (1073741832) (.RegR 11), [27, 0, 0, 24, 203, 107, 123, 248]),
    (nodeImpl.mk .LDRD (.RegR 30) .NilRegister (1073741816) (.RegR 11), [27, 0, 0, 24, 203, 107, 123, 248]),
    (nodeImpl.mk .LDRD (.RegR 30) .NilRegister (1073741840) (.RegR 11), [27, 0, 0, 24, 203, 107, 123, 248]),
    (nodeImpl.mk .LDRD (.RegR 30) .NilRegister (1073741808) (.RegR 11), [27, 0, 0, 24, 203, 107, 123, 248]),
    (nodeImpl.mk .LDRD (.RegR 30) .NilRegister (2147483640) (.RegR 11), [27, 0, 0, 24, 203, 107, 123, 248]),
    (nodeImpl.mk .LDRD (.RegR 30) .NilRegister (268435460) (.RegR 11), [27, 0, 0, 24, 203, 107, 123, 248]),
    (nodeImpl.mk .LDRD (.RegR 30) .NilRegister (1048584) (.RegR 11), [219, 3, 68, 145, 107, 7, 64, 249]),
    (nodeImpl.mk .LDRD (.RegR 30) .NilRegister (1048568) (.RegR 11), [219, 227, 67, 145, 107, 255, 127, 249]),
    (nodeImpl.mk .LDRD (.RegR 30) (.RegR 8) 0 (.RegR 11), [203, 107, 104, 248])
  ]

/-- Rows of the table of `TestAssemblerImpl_EncodeMemoryToRegister` for `LDRW`: the node and
the bytes expected from an assembler with the temporary register R27. -/
def testsLDRW_0 : List (nodeImpl × List Nat) :=
  [
    (nodeImpl.mk .LDRW (.RegR 5) .NilRegister (-1) (.RegR 11), [171, 240, 95, 184]),
    (nodeImpl.mk .LDRW (.RegR 5) .NilRegister (0) (.RegR 11), [171, 0, 64, 185]),
    (nodeImpl.mk .LDRW (.RegR 5) .NilRegister (1) (.RegR 11), [171, 16, 64, 184]),
    (nodeImpl.mk .LDRW (.RegR 5) .NilRegister (2) (.RegR 11), [171, 32, 64, 184]),
    (nodeImpl.mk .LDRW (.RegR 5) (.RegR 12) 0 (.RegR 11), [171, 104, 108, 184])
  ]

/-- Rows of the table of `TestAssemblerImpl_EncodeMemoryToRegister` for `LDRSW`: the node and
the bytes expected from an assembler with the temporary register R27. -/
def testsLDRSW_0 : List (nodeImpl × List Nat) :=
  [
    (nodeImpl.mk .LDRSW (.RegR 5) .NilRegister (-1) (.RegR 11), [171, 240, 159, 184]),
    (nodeImpl.mk .LDRSW (.RegR 5) .NilRegister (0) (.RegR 11), [171, 0, 128, 185]),
    (nodeImpl.mk .LDRSW (.RegR 5) .NilRegister (1) (.RegR 11), [171, 16, 128, 184]),
    (nodeImpl.mk .LDRSW (.RegR 5) .NilRegister (2) (.RegR 11), [171, 32, 128, 184]),
    (nodeImpl.mk .LDRSW (.RegR 5) .NilRegister (-2) (.RegR 11), [171, 224, 159, 184]),
    (nodeImpl.mk .LDRSW (.RegR 5) .NilRegister (15) (.RegR 11), [171, 240, 128, 184]),
    (nodeImpl.mk .LDRSW (.RegR 5) .NilRegister (-15) (.RegR 11), [171, 16, 159, 184]),
    (nodeImpl.mk .LDRSW (.RegR 5) .NilRegister (16) (.RegR 11), [171, 16, 128, 185]),
    (nodeImpl.mk .LDRSW (.RegR 5) .NilRegister (15) (.RegR 11), [171, 240, 128, 184]),
    (nodeImpl.mk .LDRSW (.RegR 5) .NilRegister (17) (.RegR 11), [171, 16, 129, 184]),
    (nodeImpl.mk .LDRSW (.RegR 5) .NilRegister (-128) (.RegR 11), [171, 0, 152, 184]),
    (nodeImpl.mk .LDRSW (.RegR 5) .NilRegister (-256) (.RegR 11), [171, 0, 144, 184]),
    (nodeImpl.mk .LDRSW (.RegR 5) .NilRegister (80) (.RegR 11), [171, 80, 128, 185]),
    (nodeImpl.mk .LDRSW (.RegR 5) .NilRegister (-128) (.RegR 11), [171, 0, 152, 184]),
    (nodeImpl.mk .LDRSW (.RegR 5) .NilRegister (255) (.RegR 11), [171, 240, 143, 184]),
    (nodeImpl.mk .LDRSW (.RegR 5) .NilRegister (4096) (.RegR 11), [171, 0, 144, 185]),
    (nodeImpl.mk .LDRSW (.RegR 5) .NilRegister (8192) (.RegR 11), [171, 0, 160, 185]),
    (nodeImpl.mk .LDRSW (.RegR 5) .NilRegister (32760) (.RegR 11), [187, 16, 64, 145, 107, 251, 191, 185]),
    (nodeImpl.mk .LDRSW (.RegR 5) .NilRegister (65520) (.RegR 11), [187, 48, 64, 145, 107, 243, 191, 185]),
    (nodeImpl.mk .LDRSW (.RegR 5) .NilRegister (65512) (.RegR 11), [187, 48, 64, 145, 107, 235, 191, 185]),
    (nodeImpl.mk .LDRSW (.RegR 5) .NilRegister (65504) (.RegR 11), [187, 48, 64, 145, 107, 227, 191, 185]),
    (nodeImpl.mk .LDRSW (.RegR 5) .NilRegister (134217728) (.RegR 11), [27, 0, 0, 24, 171, 104, 187, 184]),
    (nodeImpl.mk .LDRSW (.RegR 5) .NilRegister (1073741824) (.RegR 11), [27, 0, 0, 24, 171, 104, 187, 184]),
    (nodeImpl.mk .LDRSW (.RegR 5) .NilRegister (1073741832) (.RegR 11), [27, 0, 0, 24, 171, 104, 187, 184]),
    (nodeImpl.mk .LDRSW (.RegR 5) .NilRegister (1073741816) (.RegR 11), [27, 0, 0, 24, 171, 104, 187, 184]),
    (nodeImpl.mk .LDRSW (.RegR 5) .NilRegister (1073741840) (.RegR 11), [27, 0, 0, 24, 171, 104, 187, 184]),
    (nodeImpl.mk .LDRSW (.RegR 5) .NilRegister (1073741808) (.RegR 11), [27, 0, 0, 24, 171, 104, 187, 184]),
    (nodeImpl.mk .LDRSW (.RegR 5) .NilRegister (2147483640) (.RegR 11), [27, 0, 0, 24, 171, 104, 187, 184]),
    (nodeImpl.mk .LDRSW (.RegR 5) .NilRegister (268435460) (.RegR 11), [27, 0, 0, 24, 171, 104, 187, 184]),
    (nodeImpl.mk .LDRSW (.RegR 5) .NilRegister (1048584) (.RegR 11), [187, 0, 68, 145, 107, 11, 128, 185]),
    (nodeImpl.mk .LDRSW (.RegR 5) .NilRegister (1048568) (.RegR 11), [187, 240, 67, 145, 107, 251, 191, 185]),
    (nodeImpl.mk .LDRSW (.RegR 5) (.RegR 8) 0 (.RegR 11), [171, 104, 168, 184])
  ]

/-- Rows of the table of `TestAssemblerImpl_EncodeMemoryToRegister` for `LDRSW`: the node and
the bytes expected from an assembler with the temporary register R27. -/
def testsLDRSW_1 : List (nodeImpl × List Nat) :=
  [
    (nodeImpl.mk .LDRSW (.RegR 30) .NilRegister (-1) (.RegR 11), [203, 243, 159, 184]),
    (nodeImpl.mk .LDRSW (.RegR 30) .NilRegister (0) (.RegR 11), [203, 3, 128, 185]),
    (nodeImpl.mk .LDRSW (.RegR 30) .NilRegister (1) (.RegR 11), [203, 19, 128, 184]),
    (nodeImpl.mk .LDRSW (.RegR 30) .NilRegister (2) (.RegR 11), [203, 35, 128, 184]),
    (nodeImpl.mk .LDRSW (.RegR 30) .NilRegister (-2) (.RegR 11), [203, 227, 159, 184]),
    (nodeImpl.mk .LDRSW (.RegR 30) .NilRegister (15) (.RegR 11), [203, 243, 128, 184]),
    (nodeImpl.mk .LDRSW (.RegR 30) .NilRegister (-15) (.RegR 11), [203, 19, 159, 184]),
    (nodeImpl.mk .LDRSW (.RegR 30) .NilRegister (16) (.RegR 11), [203, 19, 128, 185]),
    (nodeImpl.mk .LDRSW (.RegR 30) .NilRegister (15) (.RegR 11), [203, 243, 128, 184]),
    (nodeImpl.mk .LDRSW (.RegR 30) .NilRegister (17) (.RegR 11), [203, 19, 129, 184]),
    (nodeImpl.mk .LDRSW (.RegR 30) .NilRegister (-128) (.RegR 11), [203, 3, 152, 184]),
    (nodeImpl.mk .LDRSW (.RegR 30) .NilRegister (-256) (.RegR 11), [203, 3, 144, 184]),
    (nodeImpl.mk .LDRSW (.RegR 30) .NilRegister (80) (.RegR 11), [203, 83, 128, 185]),
    (nodeImpl.mk .LDRSW (.RegR 30) .NilRegister (-128) (.RegR 11), [203, 3, 152, 184]),
    (nodeImpl.mk .LDRSW (.RegR 30) .NilRegister (255) (.RegR 11), [203, 243, 143, 184]),
    (nodeImpl.mk .LDRSW (.RegR 30) .NilRegister (4096) (.RegR 11), [203, 3, 144, 185]),
    (nodeImpl.mk .LDRSW (.RegR 30) .NilRegister (8192) (.RegR 11), [203, 3, 160, 185]),
    (nodeImpl.mk .LDRSW (.RegR 30) .NilRegister (32760) (.RegR 11), [219, 19, 64, 145, 107, 251, 191, 185]),
    (nodeImpl.mk .LDRSW (.RegR 30) .NilRegister (65520) (.RegR 11), [219, 51, 64, 145, 107, 243, 191, 185]),
    (nodeImpl.mk .LDRSW (.RegR 30) .NilRegister (65512) (.RegR 11), [219, 51, 64, 145, 107, 235, 191, 185]),
    (nodeImpl.mk .LDRSW (.RegR 30) .NilRegister (65504) (.RegR 11), [219, 51, 64, 145, 107, 227, 191, 185]),
    (nodeImpl.mk .LDRSW (.RegR 30) .NilRegister (134217728) (.RegR 11), [27, 0, 0, 24, 203, 107, 187, 184]),
    (nodeImpl.mk .LDRSW (.RegR 30) .NilRegister (1073741824) (.RegR 11), [27, 0, 0, 24, 203, 107, 187, 184]),
    (nodeImpl.mk .LDRSW (.RegR 30) .NilRegister (1073741832) (.RegR 11), [27, 0, 0, 24, 203, 107, 187, 184]),
    (nodeImpl.mk .LDRSW (.RegR 30) .NilRegister (1073741816) (.RegR 11), [27, 0, 0, 24, 203, 107, 187, 184]),
    (nodeImpl.mk .LDRSW (.RegR 30) .NilRegister (1073741840) (.RegR 11), [27, 0, 0, 24, 203, 107, 187, 184]),
    (nodeImpl.mk .LDRSW (.RegR 30) .NilRegister (1073741808) (.RegR 11), [27, 0, 0, 24, 203, 107, 187, 184]),
    (nodeImpl.mk .LDRSW (.RegR 30) .NilRegister (2147483640) (.RegR 11), [27, 0, 0, 24, 203, 107, 187, 184]),
    (nodeImpl.mk .LDRSW (.RegR 30) .NilRegister (268435460) (.RegR 11), [27, 0, 0, 24, 203, 107, 187, 184]),
    (nodeImpl.mk .LDRSW (.RegR 30) .NilRegister (1048584) (.RegR 11), [219, 3, 68, 145, 107, 11, 128, 185]),
    (nodeImpl.mk .LDRSW (.RegR 30) .NilRegister (1048568) (.RegR 11), [219, 243, 67, 145, 107, 251, 191, 185]),
    (nodeImpl.mk .LDRSW (.RegR 30) (.RegR 8) 0 (.RegR 11), [203, 107, 168, 184])
  ]

/-- Rows of the table of `TestAssemblerImpl_EncodeMemoryToRegister` for `LDRSHD`: the node and
the bytes expected from an assembler with the temporary register R27. -/
def testsLDRSHD_0 : List (nodeImpl × List Nat) :=
  [
    (nodeImpl.mk .LDRSHD (.RegR 5) .NilRegister (-1) (.RegR 11), [171, 240, 159, 120]),
    (nodeImpl.mk .LDRSHD (.RegR 5) .NilRegister (0) (.RegR 11), [171, 0, 128, 121]),
    (nodeImpl.mk .LDRSHD (.RegR 5) .NilRegister (1) (.RegR 11), [171, 16, 128, 120]),
    (nodeImpl.mk .LDRSHD (.RegR 5) .NilRegister (2) (.RegR 11), [171, 4, 128, 121]),
    (nodeImpl.mk .LDRSHD (.RegR 5) .NilRegister (-2) (.RegR 11), [171, 224, 159, 120]),
    (nodeImpl.mk .LDRSHD (.RegR 5) .NilRegister (15) (.RegR 11), [171, 240, 128, 120]),
    (nodeImpl.mk .LDRSHD (.RegR 5) .NilRegister (-15) (.RegR 11), [171, 16, 159, 120]),
    (nodeImpl.mk .LDRSHD (.RegR 5) .NilRegister (16) (.RegR 11), [171, 32, 128, 121]),
    (nodeImpl.mk .LDRSHD (.RegR 5) .NilRegister (15) (.RegR 11), [171, 240, 128, 120]),
    (nodeImpl.mk .LDRSHD (.RegR 5) .NilRegister (17) (.RegR 11), [171, 16, 129, 120]),
    (nodeImpl.mk .LDRSHD (.RegR 5) .NilRegister (-128) (.RegR 11), [171, 0, 152, 120]),
    (nodeImpl.mk .LDRSHD (.RegR 5) .NilRegister (-256) (.RegR 11), [171, 0, 144, 120]),
    (nodeImpl.mk .LDRSHD (.RegR 5) .NilRegister (80) (.RegR 11), [171, 160, 128, 121]),
    (nodeImpl.mk .LDRSHD (.RegR 5) .NilRegister (-128) (.RegR 11), [171, 0, 152, 120]),
    (nodeImpl.mk .LDRSHD (.RegR 5) .NilRegister (255) (.RegR 11), [171, 240, 143, 120]),
    (nodeImpl.mk .LDRSHD (.RegR 5) .NilRegister (4096) (.RegR 11), [171, 0, 160, 121]),
    (nodeImpl.mk .LDRSHD (.RegR 5) .NilRegister (8192) (.RegR 11), [187, 8, 64, 145, 107, 3, 128, 121]),
    (nodeImpl.mk .LDRSHD (.RegR 5) .NilRegister (32760) (.RegR 11), [187, 24, 64, 145, 107, 243, 191, 121]),
    (nodeImpl.mk .LDRSHD (.RegR 5) .NilRegister (65520) (.RegR 11), [187, 56, 64, 145, 107, 227, 191, 121]),
    (nodeImpl.mk .LDRSHD (.RegR 5) .NilRegister (65512) (.RegR 11), [187, 56, 64, 145, 107, 211, 191, 121]),
    (nodeImpl.mk .LDRSHD (.RegR 5) .NilRegister (65504) (.RegR 11), [187, 56, 64, 145, 107, 195, 191, 121]),
    (nodeImpl.mk .LDRSHD (.RegR 5) .NilRegister (134217728) (.RegR 11), [27, 0, 0, 24, 171, 104, 187, 120]),
    (nodeImpl.mk .LDRSHD (.RegR 5) .NilRegister (1073741824) (.RegR 11), [27, 0, 0, 24, 171, 104, 187, 120]),
    (nodeImpl.mk .LDRSHD (.RegR 5) .NilRegister (1073741832) (.RegR 11), [27, 0, 0, 24, 171, 104, 187, 120]),
    (nodeImpl.mk .LDRSHD (.RegR 5) .NilRegister (1073741816) (.RegR 11), [27, 0, 0, 24, 171, 104, 187, 120]),
    (nodeImpl.mk .LDRSHD (.RegR 5) .NilRegister (1073741840) (.RegR 11), [27, 0, 0, 24, 171, 104, 187, 120]),
    (nodeImpl.mk .LDRSHD (.RegR 5) .NilRegister (1073741808) (.RegR 11), [27, 0, 0, 24, 171, 104, 187, 120]),
    (nodeImpl.mk .LDRSHD (.RegR 5) .NilRegister (2147483640) (.RegR 11), [27, 0, 0, 24, 171, 104, 187, 120]),
    (nodeImpl.mk .LDRSHD (.RegR 5) .NilRegister (268435460) (.RegR 11), [27, 0, 0, 24, 171, 104, 187, 120]),
    (nodeImpl.mk .LDRSHD (.RegR 5) .NilRegister (1048584) (.RegR 11), [187, 0, 68, 145, 107, 19, 128, 121]),
    (nodeImpl.mk .LDRSHD (.RegR 5) .NilRegister (1048568) (.RegR 11), [187, 248, 67, 145, 107, 243, 191, 121]),
    (nodeImpl.mk .LDRSHD (.RegR 5) (.RegR 8) 0 (.RegR 11), [171, 104, 168, 120])
  ]

/-- Rows of the table of `TestAssemblerImpl_EncodeMemoryToRegister` for `LDRSHD`: the node and
the bytes expected from an assembler with the temporary register R27. -/
def testsLDRSHD_1 : List (nodeImpl × List Nat) :=
  [
    (nodeImpl.mk .LDRSHD (.RegR 30) .NilRegister (-1) (.RegR 11), [203, 243, 159, 120]),
    (nodeImpl.mk .LDRSHD (.RegR 30) .NilRegister (0) (.RegR 11), [203, 3, 128, 121]),
    (nodeImpl.mk .LDRSHD (.RegR 30) .NilRegister (1) (.RegR 11), [203, 19, 128, 120]),
    (nodeImpl.mk .LDRSHD (.RegR 30) .NilRegister (2) (.RegR 11), [203, 7, 128, 121]),
    (nodeImpl.mk .LDRSHD (.RegR 30) .NilRegister (-2) (.RegR 11), [203, 227, 159, 120]),
    (nodeImpl.mk .LDRSHD (.RegR 30) .NilRegister (15) (.RegR 11), [203, 243, 128, 120]),
    (nodeImpl.mk .LDRSHD (.RegR 30) .NilRegister (-15) (.RegR 11), [203, 19, 159, 120]),
    (nodeImpl.mk .LDRSHD (.RegR 30) .NilRegister (16) (.RegR 11), [203, 35, 128, 121]),
    (nodeImpl.mk .LDRSHD (.RegR 30) .NilRegister (15) (.RegR 11), [203, 243, 128, 120]),
    (nodeImpl.mk .LDRSHD (.RegR 30) .NilRegister (17) (.RegR 11), [203, 19, 129, 120]),
    (nodeImpl.mk .LDRSHD (.RegR 30) .NilRegister (-128) (.RegR 11), [203, 3, 152, 120]),
    (nodeImpl.mk .LDRSHD (.RegR 30) .NilRegister (-256) (.RegR 11), [203, 3, 144, 120]),
    (nodeImpl.mk .LDRSHD (.RegR 30) .NilRegister (80) (.RegR 11), [203, 163, 128, 121]),
    (nodeImpl.mk .LDRSHD (.RegR 30) .NilRegister (-128) (.RegR 11), [203, 3, 152, 120]),
    (nodeImpl.mk .LDRSHD (.RegR 30) .NilRegister (255) (.RegR 11), [203, 243, 143, 120]),
    (nodeImpl.mk .LDRSHD (.RegR 30) .NilRegister (4096) (.RegR 11), [203, 3, 160, 121]),
    (nodeImpl.mk .LDRSHD (.RegR 30) .NilRegister (8192) (.RegR 11), [219, 11, 64, 145, 107, 3, 128, 121]),
    (nodeImpl.mk .LDRSHD (.RegR 30) .NilRegister (32760) (.RegR 11), [219, 27, 64, 145, 107, 243, 191, 121]),
    (nodeImpl.mk .LDRSHD (.RegR 30) .NilRegister (65520) (.RegR 11), [219, 59, 64, 145, 107, 227, 191, 121]),
    (nodeImpl.mk .LDRSHD (.RegR 30) .NilRegister (65512) (.RegR 11), [219, 59, 64, 145, 107, 211, 191, 121]),
    (nodeImpl.mk .LDRSHD (.RegR 30) .NilRegister (65504) (.RegR 11), [219, 59, 64, 145, 107, 195, 191, 121]),
    (nodeImpl.mk .LDRSHD (.RegR 30) .NilRegister (134217728) (.RegR 11), [27, 0, 0, 24, 203, 107, 187, 120]),
    (nodeImpl.mk .LDRSHD (.RegR 30) .NilRegister (1073741824) (.RegR 11), [27, 0, 0, 24, 203, 107, 187, 120]),
    (nodeImpl.mk .LDRSHD (.RegR 30) .NilRegister (1073741832) (.RegR 11), [27, 0, 0, 24, 203, 107, 187, 120]),
    (nodeImpl.mk .LDRSHD (.RegR 30) .NilRegister (1073741816) (.RegR 11), [27, 0, 0, 24, 203, 107, 187, 120]),
    (nodeImpl.mk .LDRSHD (.RegR 30) .NilRegister (1073741840) (.RegR 11), [27, 0, 0, 24, 203, 107, 187, 120]),
    (nodeImpl.mk .LDRSHD (.RegR 30) .NilRegister (1073741808) (.RegR 11), [27, 0, 0, 24, 203, 107, 187, 120]),
    (nodeImpl.mk .LDRSHD (.RegR 30) .NilRegister (2147483640) (.RegR 11), [27, 0, 0, 24, 203, 107, 187, 120]),
    (nodeImpl.mk .LDRSHD (.RegR 30) .NilRegister (268435460) (.RegR 11), [27, 0, 0, 24, 203, 107, 187, 120]),
    (nodeImpl.mk .LDRSHD (.RegR 30) .NilRegister (1048584) (.RegR 11), [219, 3, 68, 145, 107, 19, 128, 121]),
    (nodeImpl.mk .LDRSHD (.RegR 30) .NilRegister (1048568) (.RegR 11), [219, 251, 67, 145, 107, 243, 191, 121]),
    (nodeImpl.mk .LDRSHD (.RegR 30) (.RegR 8) 0 (.RegR 11), [203, 107, 168, 120])
  ]

/-- Rows of the table of `TestAssemblerImpl_EncodeMemoryToRegister` for `LDRSHW`: the node and
the bytes expected from an assembler with the temporary register R27. -/
def testsLDRSHW_0 : List (nodeImpl × List Nat) :=
  [
    (nodeImpl.mk .LDRSHW (.RegR 5) .NilRegister (-1) (.RegR 11), [171, 240, 223, 120]),
    (nodeImpl.mk .LDRSHW (.RegR 5) .NilRegister (0) (.RegR 11), [171, 0, 192, 121]),
    (nodeImpl.mk .LDRSHW (.RegR 5) .NilRegister (1) (.RegR 11), [171, 16, 192, 120]),
    (nodeImpl.mk .LDRSHW (.RegR 5) .NilRegister (2) (.RegR 11), [171, 4, 192, 121]),
    (nodeImpl.mk .LDRSHW (.RegR 5) (.RegR 12) 0 (.RegR 11), [171, 104, 236, 120])
  ]

/-- Rows of the table of `TestAssemblerImpl_EncodeMemoryToRegister` for `LDRH`: the node and
the bytes expected from an assembler with the temporary register R27. -/
def testsLDRH_0 : List (nodeImpl × List Nat) :=
  [
    (nodeImpl.mk .LDRH (.RegR 5) .NilRegister (-1) (.RegR 11), [171, 240, 95, 120]),
    (nodeImpl.mk .LDRH (.RegR 5) .NilRegister (0) (.RegR 11), [171, 0, 64, 121]),
    (nodeImpl.mk .LDRH (.RegR 5) .NilRegister (1) (.RegR 11), [171, 16, 64, 120]),
    (nodeImpl.mk .LDRH (.RegR 5) .NilRegister (2) (.RegR 11), [171, 4, 64, 121]),
    (nodeImpl.mk .LDRH (.RegR 5) .NilRegister (-2) (.RegR 11), [171, 224, 95, 120]),
    (nodeImpl.mk .LDRH (.RegR 5) .NilRegister (15) (.RegR 11), [171, 240, 64, 120]),
    (nodeImpl.mk .LDRH (.RegR 5) .NilRegister (-15) (.RegR 11), [171, 16, 95, 120]),
    (nodeImpl.mk .LDRH (.RegR 5) .NilRegister (16) (.RegR 11), [171, 32, 64, 121]),
    (nodeImpl.mk .LDRH (.RegR 5) .NilRegister (15) (.RegR 11), [171, 240, 64, 120]),
    (nodeImpl.mk .LDRH (.RegR 5) .NilRegister (17) (.RegR 11), [171, 16, 65, 120]),
    (nodeImpl.mk .LDRH (.RegR 5) .NilRegister (-128) (.RegR 11), [171, 0, 88, 120]),
    (nodeImpl.mk .LDRH (.RegR 5) .NilRegister (-256) (.RegR 11), [171, 0, 80, 120]),
    (nodeImpl.mk .LDRH (.RegR 5) .NilRegister (80) (.RegR 11), [171, 160, 64, 121]),
    (nodeImpl.mk .LDRH (.RegR 5) .NilRegister (-128) (.RegR 11), [171, 0, 88, 120]),
    (nodeImpl.mk .LDRH (.RegR 5) .NilRegister (255) (.RegR 11), [171, 240, 79, 120]),
    (nodeImpl.mk .LDRH (.RegR 5) .NilRegister (4096) (.RegR 11), [171, 0, 96, 121]),
    (nodeImpl.mk .LDRH (.RegR 5) .NilRegister (8192) (.RegR 11), [187, 8, 64, 145, 107, 3, 64, 121]),
    (nodeImpl.mk .LDRH (.RegR 5) .NilRegister (32760) (.RegR 11), [187, 24, 64, 145, 107, 243, 127, 121]),
    (nodeImpl.mk .LDRH (.RegR 5) .NilRegister (65520) (.RegR 11), [187, 56, 64, 145, 107, 227, 127, 121]),
    (nodeImpl.mk .LDRH (.RegR 5) .NilRegister (65512) (.RegR 11), [187, 56, 64, 145, 107, 211, 127, 121]),
    (nodeImpl.mk .LDRH (.RegR 5) .NilRegister (65504) (.RegR 11), [187, 56, 64, 145, 107, 195, 127, 121]),
    (nodeImpl.mk .LDRH (.RegR 5) .NilRegister (134217728) (.RegR 11), [27, 0, 0, 24, 171, 104, 123, 120]),
    (nodeImpl.mk .LDRH (.RegR 5) .NilRegister (1073741824) (.RegR 11), [27, 0, 0, 24, 171, 104, 123, 120]),
    (nodeImpl.mk .LDRH (.RegR 5) .NilRegister (1073741832) (.RegR 11), [27, 0, 0, 24, 171, 104, 123, 120]),
    (nodeImpl.mk .LDRH (.RegR 5) .NilRegister (1073741816) (.RegR 11), [27, 0, 0, 24, 171, 104, 123, 120]),
    (nodeImpl.mk .LDRH (.RegR 5) .NilRegister (1073741840) (.RegR 11), [27, 0, 0, 24, 171, 104, 123, 120]),
    (nodeImpl.mk .LDRH (.RegR 5) .NilRegister (1073741808) (.RegR 11), [27, 0, 0, 24, 171, 104, 123, 120]),
    (nodeImpl.mk .LDRH (.RegR 5) .NilRegister (2147483640) (.RegR 11), [27, 0, 0, 24, 171, 104, 123, 120]),
    (nodeImpl.mk .LDRH (.RegR 5) .NilRegister (268435460) (.RegR 11), [27, 0, 0, 24, 171, 104, 123, 120]),
    (nodeImpl.mk .LDRH (.RegR 5) .NilRegister (1048584) (.RegR 11), [187, 0, 68, 145, 107, 19, 64, 121]),
    (nodeImpl.mk .LDRH (.RegR 5) .NilRegister (1048568) (.RegR 11), [187, 248, 67, 145, 107, 243, 127, 121]),
    (nodeImpl.mk .LDRH (.RegR 5) (.RegR 8) 0 (.RegR 11), [171, 104, 104, 120])
  ]

/-- Rows of the table of `TestAssemblerImpl_EncodeMemoryToRegister` for `LDRH`: the node and
the bytes expected from an assembler with the temporary register R27. -/
def testsLDRH_1 : List (nodeImpl × List Nat) :=
  [
    (nodeImpl.mk .LDRH (.RegR 30) .NilRegister (-1) (.RegR 11), [203, 243, 95, 120]),
    (nodeImpl.mk .LDRH (.RegR 30) .NilRegister (0) (.RegR 11), [203, 3, 64, 121]),
    (nodeImpl.mk .LDRH (.RegR 30) .NilRegister (1) (.RegR 11), [203, 19, 64, 120]),
    (nodeImpl.mk .LDRH (.RegR 30) .NilRegister (2) (.RegR 11), [203, 7, 64, 121]),
    (nodeImpl.mk .LDRH (.RegR 30) .NilRegister (-2) (.RegR 11), [203, 227, 95, 120]),
    (nodeImpl.mk .LDRH (.RegR 30) .NilRegister (15) (.RegR 11), [203, 243, 64, 120]),
    (nodeImpl.mk .LDRH (.RegR 30) .NilRegister (-15) (.RegR 11), [203, 19, 95, 120]),
    (nodeImpl.mk .LDRH (.RegR 30) .NilRegister (16) (.RegR 11), [203, 35, 64, 121]),
    (nodeImpl.mk .LDRH (.RegR 30) .NilRegister (15) (.RegR 11), [203, 243, 64, 120]),
    (nodeImpl.mk .LDRH (.RegR 30) .NilRegister (17) (.RegR 11), [203, 19, 65, 120]),
    (nodeImpl.mk .LDRH (.RegR 30) .NilRegister (-128) (.RegR 11), [203, 3, 88, 120]),
    (nodeImpl.mk .LDRH (.RegR 30) .NilRegister (-256) (.RegR 11), [203, 3, 80, 120]),
    (nodeImpl.mk .LDRH (.RegR 30) .NilRegister (80) (.RegR 11), [203, 163, 64, 121]),
    (nodeImpl.mk .LDRH (.RegR 30) .NilRegister (-128) (.RegR 11), [203, 3, 88, 120]),
    (nodeImpl.mk .LDRH (.RegR 30) .NilRegister (255) (.RegR 11), [203, 243, 79, 120]),
    (nodeImpl.mk .LDRH (.RegR 30) .NilRegister (4096) (.RegR 11), [203, 3, 96, 121]),
    (nodeImpl.mk .LDRH (.RegR 30) .NilRegister (8192) (.RegR 11), [219, 11, 64, 145, 107, 3, 64, 121]),
    (nodeImpl.mk .LDRH (.RegR 30) .NilRegister (32760) (.RegR 11), [219, 27, 64, 145, 107, 243, 127, 121]),
    (nodeImpl.mk .LDRH (.RegR 30) .NilRegister (65520) (.RegR 11), [219, 59, 64, 145, 107, 227, 127, 121]),
    (nodeImpl.mk .LDRH (.RegR 30) .NilRegister (65512) (.RegR 11), [219, 59, 64, 145, 107, 211, 127, 121]),
    (nodeImpl.mk .LDRH (.RegR 30) .NilRegister (65504) (.RegR 11), [219, 59, 64, 145, 107, 195, 127, 121]),
    (nodeImpl.mk .LDRH (.RegR 30) .NilRegister (134217728) (.RegR 11), [27, 0, 0, 24, 203, 107, 123, 120]),
    (nodeImpl.mk .LDRH (.RegR 30) .NilRegister (1073741824) (.RegR 11), [27, 0, 0, 24, 203, 107, 123, 120]),
    (nodeImpl.mk .LDRH (.RegR 30) .NilRegister (1073741832) (.RegR 11), [27, 0, 0, 24, 203, 107, 123, 120]),
    (nodeImpl.mk .LDRH (.RegR 30) .NilRegister (1073741816) (.RegR 11), [27, 0, 0, 24, 203, 107, 123, 120]),
    (nodeImpl.mk .LDRH (.RegR 30) .NilRegister (1073741840) (.RegR 11), [27, 0, 0, 24, 203, 107, 123, 120]),
    (nodeImpl.mk .LDRH (.RegR 30) .NilRegister (1073741808) (.RegR 11), [27, 0, 0, 24, 203, 107, 123, 120]),
    (nodeImpl.mk .LDRH (.RegR 30) .NilRegister (2147483640) (.RegR 11), [27, 0, 0, 24, 203, 107, 123, 120]),
    (nodeImpl.mk .LDRH (.RegR 30) .NilRegister (268435460) (.RegR 11), [27, 0, 0, 24, 203, 107, 123, 120]),
    (nodeImpl.mk .LDRH (.RegR 30) .NilRegister (1048584) (.RegR 11), [219, 3, 68, 145, 107, 19, 64, 121]),
    (nodeImpl.mk .LDRH (.RegR 30) .NilRegister (1048568) (.RegR 11), [219, 251, 67, 145, 107, 243, 127, 121]),
    (nodeImpl.mk .LDRH (.RegR 30) (.RegR 8) 0 (.RegR 11), [203, 107, 104, 120])
  ]

/-- Rows of the table of `TestAssemblerImpl_EncodeMemoryToRegister` for `LDRSBD`: the node and
the bytes expected from an assembler with the temporary register R27. -/
def testsLDRSBD_0 : List (nodeImpl × List Nat) :=
  [
    (nodeImpl.mk .LDRSBD (.RegR 5) .NilRegister (-1) (.RegR 11), [171, 240, 159, 56]),
    (nodeImpl.mk .LDRSBD (.RegR 5) .NilRegister (0) (.RegR 11), [171, 0, 128, 57]),
    (nodeImpl.mk .LDRSBD (.RegR 5) .NilRegister (1) (.RegR 11), [171, 4, 128, 57]),
    (nodeImpl.mk .LDRSBD (.RegR 5) .NilRegister (2) (.RegR 11), [171, 8, 128, 57]),
    (nodeImpl.mk .LDRSBD (.RegR 5) .NilRegister (-2) (.RegR 11), [171, 224, 159, 56]),
    (nodeImpl.mk .LDRSBD (.RegR 5) .NilRegister (15) (.RegR 11), [171, 60, 128, 57]),
    (nodeImpl.mk .LDRSBD (.RegR 5) .NilRegister (-15) (.RegR 11), [171, 16, 159, 56]),
    (nodeImpl.mk .LDRSBD (.RegR 5) .NilRegister (16) (.RegR 11), [171, 64, 128, 57]),
    (nodeImpl.mk .LDRSBD (.RegR 5) .NilRegister (15) (.RegR 11), [171, 60, 128, 57]),
    (nodeImpl.mk .LDRSBD (.RegR 5) .NilRegister (17) (.RegR 11), [171, 68, 128, 57]),
    (nodeImpl.mk .LDRSBD (.RegR 5) .NilRegister (-128) (.RegR 11), [171, 0, 152, 56]),
    (nodeImpl.mk .LDRSBD (.RegR 5) .NilRegister (-256) (.RegR 11), [171, 0, 144, 56]),
    (nodeImpl.mk .LDRSBD (.RegR 5) .NilRegister (80) (.RegR 11), [171, 64, 129, 57]),
    (nodeImpl.mk .LDRSBD (.RegR 5) .NilRegister (-128) (.RegR 11), [171, 0, 152, 56]),
    (nodeImpl.mk .LDRSBD (.RegR 5) .NilRegister (255) (.RegR 11), [171, 252, 131, 57]),
    (nodeImpl.mk .LDRSBD (.RegR 5) .NilRegister (4096) (.RegR 11), [187, 4, 64, 145, 107, 3, 128, 57]),
    (nodeImpl.mk .LDRSBD (.RegR 5) .NilRegister (8192) (.RegR 11), [187, 8, 64, 145, 107, 3, 128, 57]),
    (nodeImpl.mk .LDRSBD (.RegR 5) .NilRegister (32760) (.RegR 11), [187, 28, 64, 145, 107, 227, 191, 57]),
    (nodeImpl.mk .LDRSBD (.RegR 5) .NilRegister (65520) (.RegR 11), [187, 60, 64, 145, 107, 195, 191, 57]),
    (nodeImpl.mk .LDRSBD (.RegR 5) .NilRegister (65512) (.RegR 11), [187, 60, 64, 145, 107, 163, 191, 57]),
    (nodeImpl.mk .LDRSBD (.RegR 5) .NilRegister (65504) (.RegR 11), [187, 60, 64, 145, 107, 131, 191, 57]),
    (nodeImpl.mk .LDRSBD (.RegR 5) .NilRegister (134217728) (.RegR 11), [27, 0, 0, 24, 171, 104, 187, 56]),
    (nodeImpl.mk .LDRSBD (.RegR 5) .NilRegister (1073741824) (.RegR 11), [27, 0, 0, 24, 171, 104, 187, 56]),
    (nodeImpl.mk .LDRSBD (.RegR 5) .NilRegister (1073741832) (.RegR 11), [27, 0, 0, 24, 171, 104, 187, 56]),
    (nodeImpl.mk .LDRSBD (.RegR 5) .NilRegister (1073741816) (.RegR 11), [27, 0, 0, 24, 171, 104, 187, 56]),
    (nodeImpl.mk .LDRSBD (.RegR 5) .NilRegister (1073741840) (.RegR 11), [27, 0, 0, 24, 171, 104, 187, 56]),
    (nodeImpl.mk .LDRSBD (.RegR 5) .NilRegister (1073741808) (.RegR 11), [27, 0, 0, 24, 171, 104, 187, 56]),
    (nodeImpl.mk .LDRSBD (.RegR 5) .NilRegister (2147483640) (.RegR 11), [27, 0, 0, 24, 171, 104, 187, 56]),
    (nodeImpl.mk .LDRSBD (.RegR 5) .NilRegister (268435460) (.RegR 11), [27, 0, 0, 24, 171, 104, 187, 56]),
    (nodeImpl.mk .LDRSBD (.RegR 5) .NilRegister (1048584) (.RegR 11), [187, 0, 68, 145, 107, 35, 128, 57]),
    (nodeImpl.mk .LDRSBD (.RegR 5) .NilRegister (1048568) (.RegR 11), [187, 252, 67, 145, 107, 227, 191, 57]),
    (nodeImpl.mk .LDRSBD (.RegR 5) (.RegR 8) 0 (.RegR 11), [171, 104, 168, 56])
  ]

/-- Rows of the table of `TestAssemblerImpl_EncodeMemoryToRegister` for `LDRSBD`: the node and
the bytes expected from an assembler with the temporary register R27. -/
def testsLDRSBD_1 : List (nodeImpl × List Nat) :=
  [
    (nodeImpl.mk .LDRSBD (.RegR 30) .NilRegister (-1) (.RegR 11), [203, 243, 159, 56]),
    (nodeImpl.mk .LDRSBD (.RegR 30) .NilRegister (0) (.RegR 11), [203, 3, 128, 57]),
    (nodeImpl.mk .LDRSBD (.RegR 30) .NilRegister (1) (.RegR 11), [203, 7, 128, 57]),
    (nodeImpl.mk .LDRSBD (.RegR 30) .NilRegister (2) (.RegR 11), [203, 11, 128, 57]),
    (nodeImpl.mk .LDRSBD (.RegR 30) .NilRegister (-2) (.RegR 11), [203, 227, 159, 56]),
    (nodeImpl.mk .LDRSBD (.RegR 30) .NilRegister (15) (.RegR 11), [203, 63, 128, 57]),
    (nodeImpl.mk .LDRSBD (.RegR 30) .NilRegister (-15) (.RegR 11), [203, 19, 159, 56]),
    (nodeImpl.mk .LDRSBD (.RegR 30) .NilRegister (16) (.RegR 11), [203, 67, 128, 57]),
    (nodeImpl.mk .LDRSBD (.RegR 30) .NilRegister (15) (.RegR 11), [203, 63, 128, 57]),
    (nodeImpl.mk .LDRSBD (.RegR 30) .NilRegister (17) (.RegR 11), [203, 71, 128, 57]),
    (nodeImpl.mk .LDRSBD (.RegR 30) .NilRegister (-128) (.RegR 11), [203, 3, 152, 56]),
    (nodeImpl.mk .LDRSBD (.RegR 30) .NilRegister (-256) (.RegR 11), [203, 3, 144, 56]),
    (nodeImpl.mk .LDRSBD (.RegR 30) .NilRegister (80) (.RegR 11), [203, 67, 129, 57]),
    (nodeImpl.mk .LDRSBD (.RegR 30) .NilRegister (-128) (.RegR 11), [203, 3, 152, 56]),
    (nodeImpl.mk .LDRSBD (.RegR 30) .NilRegister (255) (.RegR 11), [203, 255, 131, 57]),
    (nodeImpl.mk .LDRSBD (.RegR 30) .NilRegister (4096) (.RegR 11), [219, 7, 64, 145, 107, 3, 128, 57]),
    (nodeImpl.mk .LDRSBD (.RegR 30) .NilRegister (8192) (.RegR 11), [219, 11, 64, 145, 107, 3, 128, 57]),
    (nodeImpl.mk .LDRSBD (.RegR 30) .NilRegister (32760) (.RegR 11), [219, 31, 64, 145, 107, 227, 191, 57]),
    (nodeImpl.mk .LDRSBD (.RegR 30) .NilRegister (65520) (.RegR 11), [219, 63, 64, 145, 107, 195, 191, 57]),
    (nodeImpl.mk .LDRSBD (.RegR 30) .NilRegister (65512) (.RegR 11), [219, 63, 64, 145, 107, 163, 191, 57]),
    (nodeImpl.mk .LDRSBD (.RegR 30) .NilRegister (65504) (.RegR 11), [219, 63, 64, 145, 107, 131, 191, 57]),
    (nodeImpl.mk .LDRSBD (.RegR 30) .NilRegister (134217728) (.RegR 11), [27, 0, 0, 24, 203, 107, 187, 56]),
    (nodeImpl.mk .LDRSBD (.RegR 30) .NilRegister (1073741824) (.RegR 11), [27, 0, 0, 24, 203, 107, 187, 56]),
    (nodeImpl.mk .LDRSBD (.RegR 30) .NilRegister (1073741832) (.RegR 11), [27, 0, 0, 24, 203, 107, 187, 56]),
    (nodeImpl.mk .LDRSBD (.RegR 30) .NilRegister (1073741816) (.RegR 11), [27, 0, 0, 24, 203, 107, 187, 56]),
    (nodeImpl.mk .LDRSBD (.RegR 30) .NilRegister (1073741840) (.RegR 11), [27, 0, 0, 24, 203, 107, 187, 56]),
    (nodeImpl.mk .LDRSBD (.RegR 30) .NilRegister (1073741808) (.RegR 11), [27, 0, 0, 24, 203, 107, 187, 56]),
    (nodeImpl.mk .LDRSBD (.RegR 30) .NilRegister (2147483640) (.RegR 11), [27, 0, 0, 24, 203, 107, 187, 56]),
    (nodeImpl.mk .LDRSBD (.RegR 30) .NilRegister (268435460) (.RegR 11), [27, 0, 0, 24, 203, 107, 187, 56]),
    (nodeImpl.mk .LDRSBD (.RegR 30) .NilRegister (1048584) (.RegR 11), [219, 3, 68, 145, 107, 35, 128, 57]),
    (nodeImpl.mk .LDRSBD (.RegR 30) .NilRegister (1048568) (.RegR 11), [219, 255, 67, 145, 107, 227, 191, 57]),
    (nodeImpl.mk .LDRSBD (.RegR 30) (.RegR 8) 0 (.RegR 11), [203, 107, 168, 56])
  ]

/-- Rows of the table of `TestAssemblerImpl_EncodeMemoryToRegister` for `LDRSBW`: the node and
the bytes expected from an assembler with the temporary register R27. -/
def testsLDRSBW_0 : List (nodeImpl × List Nat) :=
  [
    (nodeImpl.mk .LDRSBW (.RegR 5) .NilRegister (0) (.RegR 11), [171, 0, 192, 57]),
    (nodeImpl.mk .LDRSBW (.RegR 5) .NilRegister (1) (.RegR 11), [171, 4, 192, 57]),
    (nodeImpl.mk .LDRSBW (.RegR 5) .NilRegister (2) (.RegR 11), [171, 8, 192, 57]),
    (nodeImpl.mk .LDRSBW (.RegR 5) (.RegR 12) 0 (.RegR 11), [171, 104, 236, 56])
  ]

/-- Rows of the table of `TestAssemblerImpl_EncodeMemoryToRegister` for `LDRB`: the node and
the bytes expected from an assembler with the temporary register R27. -/
def testsLDRB_0 : List (nodeImpl × List Nat) :=
  [
    (nodeImpl.mk .LDRB (.RegR 5) .NilRegister (-1) (.RegR 11), [171, 240, 95, 56]),
    (nodeImpl.mk .LDRB (.RegR 5) .NilRegister (0) (.RegR 11), [171, 0, 64, 57]),
    (nodeImpl.mk .LDRB (.RegR 5) .NilRegister (1) (.RegR 11), [171, 4, 64, 57]),
    (nodeImpl.mk .LDRB (.RegR 5) .NilRegister (2) (.RegR 11), [171, 8, 64, 57]),
    (nodeImpl.mk .LDRB (.RegR 5) .NilRegister (-2) (.RegR 11), [171, 224, 95, 56]),
    (nodeImpl.mk .LDRB (.RegR 5) .NilRegister (15) (.RegR 11), [171, 60, 64, 57]),
    (nodeImpl.mk .LDRB (.RegR 5) .NilRegister (-15) (.RegR 11), [171, 16, 95, 56]),
    (nodeImpl.mk .LDRB (.RegR 5) .NilRegister (16) (.RegR 11), [171, 64, 64, 57]),
    (nodeImpl.mk .LDRB (.RegR 5) .NilRegister (15) (.RegR 11), [171, 60, 64, 57]),
    (nodeImpl.mk .LDRB (.RegR 5) .NilRegister (17) (.RegR 11), [171, 68, 64, 57]),
    (nodeImpl.mk .LDRB (.RegR 5) .NilRegister (-128) (.RegR 11), [171, 0, 88, 56]),
    (nodeImpl.mk .LDRB (.RegR 5) .NilRegister (-256) (.RegR 11), [171, 0, 80, 56]),
    (nodeImpl.mk .LDRB (.RegR 5) .NilRegister (80) (.RegR 11), [171, 64, 65, 57]),
    (nodeImpl.mk .LDRB (.RegR 5) .NilRegister (-128) (.RegR 11), [171, 0, 88, 56]),
    (nodeImpl.mk .LDRB (.RegR 5) .NilRegister (255) (.RegR 11), [171, 252, 67, 57]),
    (nodeImpl.mk .LDRB (.RegR 5) .NilRegister (4096) (.RegR 11), [187, 4, 64, 145, 107, 3, 64, 57]),
    (nodeImpl.mk .LDRB (.RegR 5) .NilRegister (8192) (.RegR 11), [187, 8, 64, 145, 107, 3, 64, 57]),
    (nodeImpl.mk .LDRB (.RegR 5) .NilRegister (32760) (.RegR 11), [187, 28, 64, 145, 107, 227, 127, 57]),
    (nodeImpl.mk .LDRB (.RegR 5) .NilRegister (65520) (.RegR 11), [187, 60, 64, 145, 107, 195, 127, 57]),
    (nodeImpl.mk .LDRB (.RegR 5) .NilRegister (65512) (.RegR 11), [187, 60, 64, 145, 107, 163, 127, 57]),
    (nodeImpl.mk .LDRB (.RegR 5) .NilRegister (65504) (.RegR 11), [187, 60, 64, 145, 107, 131, 127, 57]),
    (nodeImpl.mk .LDRB (.RegR 5) .NilRegister (134217728) (.RegR 11), [27, 0, 0, 24, 171, 104, 123, 56]),
    (nodeImpl.mk .LDRB (.RegR 5) .NilRegister (1073741824) (.RegR 11), [27, 0, 0, 24, 171, 104, 123, 56]),
    (nodeImpl.mk .LDRB (.RegR 5) .NilRegister (1073741832) (.RegR 11), [27, 0, 0, 24, 171, 104, 123, 56]),
    (nodeImpl.mk .LDRB (.RegR 5) .NilRegister (1073741816) (.RegR 11), [27, 0, 0, 24, 171, 104, 123, 56]),
    (nodeImpl.mk .LDRB (.RegR 5) .NilRegister (1073741840) (.RegR 11), [27, 0, 0, 24, 171, 104, 123, 56]),
    (nodeImpl.mk .LDRB (.RegR 5) .NilRegister (1073741808) (.RegR 11), [27, 0, 0, 24, 171, 104, 123, 56]),
    (nodeImpl.mk .LDRB (.RegR 5) .NilRegister (2147483640) (.RegR 11), [27, 0, 0, 24, 171, 104, 123, 56]),
    (nodeImpl.mk .LDRB (.RegR 5) .NilRegister (268435460) (.RegR 11), [27, 0, 0, 24, 171, 104, 123, 56]),
    (nodeImpl.mk .LDRB (.RegR 5) .NilRegister (1048584) (.RegR 11), [187, 0, 68, 145, 107, 35, 64, 57]),
    (nodeImpl.mk .LDRB (.RegR 5) .NilRegister (1048568) (.RegR 11), [187, 252, 67, 145, 107, 227, 127, 57]),
    (nodeImpl.mk .LDRB (.RegR 5) (.RegR 8) 0 (.RegR 11), [171, 104, 104, 56])
  ]

/-- Rows of the table of `TestAssemblerImpl_EncodeMemoryToRegister` for `LDRB`: the node and
the bytes expected from an assembler with the temporary register R27. -/
def testsLDRB_1 : List (nodeImpl × List Nat) :=
  [
    (nodeImpl.mk .LDRB (.RegR 30) .NilRegister (-1) (.RegR 11), [203, 243, 95, 56]),
    (nodeImpl.mk .LDRB (.RegR 30) .NilRegister (0) (.RegR 11), [203, 3, 64, 57]),
    (nodeImpl.mk .LDRB (.RegR 30) .NilRegister (1) (.RegR 11), [203, 7, 64, 57]),
    (nodeImpl.mk .LDRB (.RegR 30) .NilRegister (2) (.RegR 11), [203, 11, 64, 57]),
    (nodeImpl.mk .LDRB (.RegR 30) .NilRegister (-2) (.RegR 11), [203, 227, 95, 56]),
    (nodeImpl.mk .LDRB (.RegR 30) .NilRegister (15) (.RegR 11), [203, 63, 64, 57]),
    (nodeImpl.mk .LDRB (.RegR 30) .NilRegister (-15) (.RegR 11), [203, 19, 95, 56]),
    (nodeImpl.mk .LDRB (.RegR 30) .NilRegister (16) (.RegR 11), [203, 67, 64, 57]),
    (nodeImpl.mk .LDRB (.RegR 30) .NilRegister (15) (.RegR 11), [203, 63, 64, 57]),
    (nodeImpl.mk .LDRB (.RegR 30) .NilRegister (17) (.RegR 11), [203, 71, 64, 57]),
    (nodeImpl.mk .LDRB (.RegR 30) .NilRegister (-128) (.RegR 11), [203, 3, 88, 56]),
    (nodeImpl.mk .LDRB (.RegR 30) .NilRegister (-256) (.RegR 11), [203, 3, 80, 56]),
    (nodeImpl.mk .LDRB (.RegR 30) .NilRegister (80) (.RegR 11), [203, 67, 65, 57]),
    (nodeImpl.mk .LDRB (.RegR 30) .NilRegister (-128) (.RegR 11), [203, 3, 88, 56]),
    (nodeImpl.mk .LDRB (.RegR 30) .NilRegister (255) (.RegR 11), [203, 255, 67, 57]),
    (nodeImpl.mk .LDRB (.RegR 30) .NilRegister (4096) (.RegR 11), [219, 7, 64, 145, 107, 3, 64, 57]),
    (nodeImpl.mk .LDRB (.RegR 30) .NilRegister (8192) (.RegR 11), [219, 11, 64, 145, 107, 3, 64, 57]),
    (nodeImpl.mk .LDRB (.RegR 30) .NilRegister (32760) (.RegR 11), [219, 31, 64, 145, 107, 227, 127, 57]),
    (nodeImpl.mk .LDRB (.RegR 30) .NilRegister (65520) (.RegR 11), [219, 63, 64, 145, 107, 195, 127, 57]),
    (nodeImpl.mk .LDRB (.RegR 30) .NilRegister (65512) (.RegR 11), [219, 63, 64, 145, 107, 163, 127, 57]),
    (nodeImpl.mk .LDRB (.RegR 30) .NilRegister (65504) (.RegR 11), [219, 63, 64, 145, 107, 131, 127, 57]),
    (nodeImpl.mk .LDRB (.RegR 30) .NilRegister (134217728) (.RegR 11), [27, 0, 0, 24, 203, 107, 123, 56]),
    (nodeImpl.mk .LDRB (.RegR 30) .NilRegister (1073741824) (.RegR 11), [27, 0, 0, 24, 203, 107, 123, 56]),
    (nodeImpl.mk .LDRB (.RegR 30) .NilRegister (1073741832) (.RegR 11), [27, 0, 0, 24, 203, 107, 123, 56]),
    (nodeImpl.mk .LDRB (.RegR 30) .NilRegister (1073741816) (.RegR 11), [27, 0, 0, 24, 203, 107, 123, 56]),
    (nodeImpl.mk .LDRB (.RegR 30) .NilRegister (1073741840) (.RegR 11), [27, 0, 0, 24, 203, 107, 123, 56]),
    (nodeImpl.mk .LDRB (.RegR 30) .NilRegister (1073741808) (.RegR 11), [27, 0, 0, 24, 203, 107, 123, 56]),
    (nodeImpl.mk .LDRB (.RegR 30) .NilRegister (2147483640) (.RegR 11), [27, 0, 0, 24, 203, 107, 123, 56]),
    (nodeImpl.mk .LDRB (.RegR 30) .NilRegister (268435460) (.RegR 11), [27, 0, 0, 24, 203, 107, 123, 56]),
    (nodeImpl.mk .LDRB (.RegR 30) .NilRegister (1048584) (.RegR 11), [219, 3, 68, 145, 107, 35, 64, 57]),
    (nodeImpl.mk .LDRB (.RegR 30) .NilRegister (1048568) (.RegR 11), [219, 255, 67, 145, 107, 227, 127, 57]),
    (nodeImpl.mk .LDRB (.RegR 30) (.RegR 8) 0 (.RegR 11), [203, 107, 104, 56])
  ]

/-- Rows of the table of `TestAssemblerImpl_EncodeMemoryToRegister` for `FLDRD`: the node and
the bytes expected from an assembler with the temporary register R27. -/
def testsFLDRD_0 : List (nodeImpl × List Nat) :=
  [
    (nodeImpl.mk .FLDRD (.RegR 5) .NilRegister (-1) (.RegV 30), [190, 240, 95, 252]),
    (nodeImpl.mk .FLDRD (.RegR 5) .NilRegister (0) (.RegV 30), [190, 0, 64, 253]),
    (nodeImpl.mk .FLDRD (.RegR 5) .NilRegister (1) (.RegV 30), [190, 16, 64, 252]),
    (nodeImpl.mk .FLDRD (.RegR 5) .NilRegister (2) (.RegV 30), [190, 32, 64, 252]),
    (nodeImpl.mk .FLDRD (.RegR 5) .NilRegister (-2) (.RegV 30), [190, 224, 95, 252]),
    (nodeImpl.mk .FLDRD (.RegR 5) .NilRegister (15) (.RegV 30), [190, 240, 64, 252]),
    (nodeImpl.mk .FLDRD (.RegR 5) .NilRegister (-15) (.RegV 30), [190, 16, 95, 252]),
    (nodeImpl.mk .FLDRD (.RegR 5) .NilRegister (16) (.RegV 30), [190, 8, 64, 253]),
    (nodeImpl.mk .FLDRD (.RegR 5) .NilRegister (15) (.RegV 30), [190, 240, 64, 252]),
    (nodeImpl.mk .FLDRD (.RegR 5) .NilRegister (17) (.RegV 30), [190, 16, 65, 252]),
    (nodeImpl.mk .FLDRD (.RegR 5) .NilRegister (-128) (.RegV 30), [190, 0, 88, 252]),
    (nodeImpl.mk .FLDRD (.RegR 5) .NilRegister (-256) (.RegV 30), [190, 0, 80, 252]),
    (nodeImpl.mk .FLDRD (.RegR 5) .NilRegister (80) (.RegV 30), [190, 40, 64, 253]),
    (nodeImpl.mk .FLDRD (.RegR 5) .NilRegister (-128) (.RegV 30), [190, 0, 88, 252]),
    (nodeImpl.mk .FLDRD (.RegR 5) .NilRegister (255) (.RegV 30), [190, 240, 79, 252]),
    (nodeImpl.mk .FLDRD (.RegR 5) .NilRegister (4096) (.RegV 30), [190, 0, 72, 253]),
    (nodeImpl.mk .FLDRD (.RegR 5) .NilRegister (8192) (.RegV 30), [190, 0, 80, 253]),
    (nodeImpl.mk .FLDRD (.RegR 5) .NilRegister (32760) (.RegV 30), [190, 252, 127, 253]),
    (nodeImpl.mk .FLDRD (.RegR 5) .NilRegister (65520) (.RegV 30), [187, 32, 64, 145, 126, 251, 127, 253]),
    (nodeImpl.mk .FLDRD (.RegR 5) .NilRegister (65512) (.RegV 30), [187, 32, 64, 145, 126, 247, 127, 253]),
    (nodeImpl.mk .FLDRD (.RegR 5) .NilRegister (65504) (.RegV 30), [187, 32, 64, 145, 126, 243, 127, 253]),
    (nodeImpl.mk .FLDRD (.RegR 5) .NilRegister (134217728) (.RegV 30), [27, 0, 0, 24, 190, 104, 123, 252]),
    (nodeImpl.mk .FLDRD (.RegR 5) .NilRegister (1073741824) (.RegV 30), [27, 0, 0, 24, 190, 104, 123, 252]),
    (nodeImpl.mk .FLDRD (.RegR 5) .NilRegister (1073741832) (.RegV 30), [27, 0, 0, 24, 190, 104, 123, 252]),
    (nodeImpl.mk .FLDRD (.RegR 5) .NilRegister (1073741816) (.RegV 30), [27, 0, 0, 24, 190, 104, 123, 252]),
    (nodeImpl.mk .FLDRD (.RegR 5) .NilRegister (1073741840) (.RegV 30), [27, 0, 0, 24, 190, 104, 123, 252]),
    (nodeImpl.mk .FLDRD (.RegR 5) .NilRegister (1073741808) (.RegV 30), [27, 0, 0, 24, 190, 104, 123, 252]),
    (nodeImpl.mk .FLDRD (.RegR 5) .NilRegister (2147483640) (.RegV 30), [27, 0, 0, 24, 190, 104, 123, 252]),
    (nodeImpl.mk .FLDRD (.RegR 5) .NilRegister (268435460) (.RegV 30), [27, 0, 0, 24, 190, 104, 123, 252]),
    (nodeImpl.mk .FLDRD (.RegR 5) .NilRegister (1048584) (.RegV 30), [187, 0, 68, 145, 126, 7, 64, 253]),
    (nodeImpl.mk .FLDRD (.RegR 5) .NilRegister (1048568) (.RegV 30), [187, 224, 67, 145, 126, 255, 127, 253]),
    (nodeImpl.mk .FLDRD (.RegR 5) (.RegR 8) 0 (.RegV 30), [190, 104, 104, 252])
  ]

/-- Rows of the table of `TestAssemblerImpl_EncodeMemoryToRegister` for `FLDRD`: the node and
the bytes expected from an assembler with the temporary register R27. -/
def testsFLDRD_1 : List (nodeImpl × List Nat) :=
  [
    (nodeImpl.mk .FLDRD (.RegR 30) .NilRegister (-1) (.RegV 30), [222, 243, 95, 252]),
    (nodeImpl.mk .FLDRD (.RegR 30) .NilRegister (0) (.RegV 30), [222, 3, 64, 253]),
    (nodeImpl.mk .FLDRD (.RegR 30) .NilRegister (1) (.RegV 30), [222, 19, 64, 252]),
    (nodeImpl.mk .FLDRD (.RegR 30) .NilRegister (2) (.RegV 30), [222, 35, 64, 252]),
    (nodeImpl.mk .FLDRD (.RegR 30) .NilRegister (-2) (.RegV 30), [222, 227, 95, 252]),
    (nodeImpl.mk .FLDRD (.RegR 30) .NilRegister (15) (.RegV 30), [222, 243, 64, 252]),
    (nodeImpl.mk .FLDRD (.RegR 30) .NilRegister (-15) (.RegV 30), [222, 19, 95, 252]),
    (nodeImpl.mk .FLDRD (.RegR 30) .NilRegister (16) (.RegV 30), [222, 11, 64, 253]),
    (nodeImpl.mk .FLDRD (.RegR 30) .NilRegister (15) (.RegV 30), [222, 243, 64, 252]),
    (nodeImpl.mk .FLDRD (.RegR 30) .NilRegister (17) (.RegV 30), [222, 19, 65, 252]),
    (nodeImpl.mk .FLDRD (.RegR 30) .NilRegister (-128) (.RegV 30), [222, 3, 88, 252]),
    (nodeImpl.mk .FLDRD (.RegR 30) .NilRegister (-256) (.RegV 30), [222, 3, 80, 252]),
    (nodeImpl.mk .FLDRD (.RegR 30) .NilRegister (80) (.RegV 30), [222, 43, 64, 253]),
    (nodeImpl.mk .FLDRD (.RegR 30) .NilRegister (-128) (.RegV 30), [222, 3, 88, 252]),
    (nodeImpl.mk .FLDRD (.RegR 30) .NilRegister (255) (.RegV 30), [222, 243, 79, 252]),
    (nodeImpl.mk .FLDRD (.RegR 30) .NilRegister (4096) (.RegV 30), [222, 3, 72, 253]),
    (nodeImpl.mk .FLDRD (.RegR 30) .NilRegister (8192) (.RegV 30), [222, 3, 80, 253]),
    (nodeImpl.mk .FLDRD (.RegR 30) .NilRegister (32760) (.RegV 30), [222, 255, 127, 253]),
    (nodeImpl.mk .FLDRD (.RegR 30) .NilRegister (65520) (.RegV 30), [219, 35, 64, 145, 126, 251, 127, 253]),
    (nodeImpl.mk .FLDRD (.RegR 30) .NilRegister (65512) (.RegV 30), [219, 35, 64, 145, 126, 247, 127, 253]),
    (nodeImpl.mk .FLDRD (.RegR 30) .NilRegister (65504) (.RegV 30), [219, 35, 64, 145, 126, 243, 127, 253]),
    (nodeImpl.mk .FLDRD (.RegR 30) .NilRegister (134217728) (.RegV 30), [27, 0, 0, 24, 222, 107, 123, 252]),
    (nodeImpl.mk .FLDRD (.RegR 30) .NilRegister (1073741824) (.RegV 30), [27, 0, 0, 24, 222, 107, 123, 252]),
    (nodeImpl.mk .FLDRD (.RegR 30) .NilRegister (1073741832) (.RegV 30), [27, 0, 0, 24, 222, 107, 123, 252]),
    (nodeImpl.mk .FLDRD (.RegR 30) .NilRegister (1073741816) (.RegV 30), [27, 0, 0, 24, 222, 107, 123, 252]),
    (nodeImpl.mk .FLDRD (.RegR 30) .NilRegister (1073741840) (.RegV 30), [27, 0, 0, 24, 222, 107, 123, 252]),
    (nodeImpl.mk .FLDRD (.RegR 30) .NilRegister (1073741808) (.RegV 30), [27, 0, 0, 24, 222, 107, 123, 252]),
    (nodeImpl.mk .FLDRD (.RegR 30) .NilRegister (2147483640) (.RegV 30), [27, 0, 0, 24, 222, 107, 123, 252]),
    (nodeImpl.mk .FLDRD (.RegR 30) .NilRegister (268435460) (.RegV 30), [27, 0, 0, 24, 222, 107, 123, 252]),
    (nodeImpl.mk .FLDRD (.RegR 30) .NilRegister (1048584) (.RegV 30), [219, 3, 68, 145, 126, 7, 64, 253]),
    (nodeImpl.mk .FLDRD (.RegR 30) .NilRegister (1048568) (.RegV 30), [219, 227, 67, 145, 126, 255, 127, 253]),
    (nodeImpl.mk .FLDRD (.RegR 30) (.RegR 8) 0 (.RegV 30), [222, 107, 104, 252])
  ]

/-- Rows of the table of `TestAssemblerImpl_EncodeMemoryToRegister` for `FLDRS`: the node and
the bytes expected from an assembler with the temporary register R27. -/
def testsFLDRS_0 : List (nodeImpl × List Nat) :=
  [
    (nodeImpl.mk .FLDRS (.RegR 5) .NilRegister (-1) (.RegV 30), [190, 240, 95, 188]),
    (nodeImpl.mk .FLDRS (.RegR 5) .NilRegister (0) (.RegV 30), [190, 0, 64, 189]),
    (nodeImpl.mk .FLDRS (.RegR 5) .NilRegister (1) (.RegV 30), [190, 16, 64, 188]),
    (nodeImpl.mk .FLDRS (.RegR 5) .NilRegister (2) (.RegV 30), [190, 32, 64, 188]),
    (nodeImpl.mk .FLDRS (.RegR 5) .NilRegister (-2) (.RegV 30), [190, 224, 95, 188]),
    (nodeImpl.mk .FLDRS (.RegR 5) .NilRegister (15) (.RegV 30), [190, 240, 64, 188]),
    (nodeImpl.mk .FLDRS (.RegR 5) .NilRegister (-15) (.RegV 30), [190, 16, 95, 188]),
    (nodeImpl.mk .FLDRS (.RegR 5) .NilRegister (16) (.RegV 30), [190, 16, 64, 189]),
    (nodeImpl.mk .FLDRS (.RegR 5) .NilRegister (15) (.RegV 30), [190, 240, 64, 188]),
    (nodeImpl.mk .FLDRS (.RegR 5) .NilRegister (17) (.RegV 30), [190, 16, 65, 188]),
    (nodeImpl.mk .FLDRS (.RegR 5) .NilRegister (-128) (.RegV 30), [190, 0, 88, 188]),
    (nodeImpl.mk .FLDRS (.RegR 5) .NilRegister (-256) (.RegV 30), [190, 0, 80, 188]),
    (nodeImpl.mk .FLDRS (.RegR 5) .NilRegister (80) (.RegV 30), [190, 80, 64, 189]),
    (nodeImpl.mk .FLDRS (.RegR 5) .NilRegister (-128) (.RegV 30), [190, 0, 88, 188]),
    (nodeImpl.mk .FLDRS (.RegR 5) .NilRegister (255) (.RegV 30), [190, 240, 79, 188]),
    (nodeImpl.mk .FLDRS (.RegR 5) .NilRegister (4096) (.RegV 30), [190, 0, 80, 189]),
    (nodeImpl.mk .FLDRS (.RegR 5) .NilRegister (8192) (.RegV 30), [190, 0, 96, 189]),
    (nodeImpl.mk .FLDRS (.RegR 5) .NilRegister (32760) (.RegV 30), [187, 16, 64, 145, 126, 251, 127, 189]),
    (nodeImpl.mk .FLDRS (.RegR 5) .NilRegister (65520) (.RegV 30), [187, 48, 64, 145, 126, 243, 127, 189]),
    (nodeImpl.mk .FLDRS (.RegR 5) .NilRegister (65512) (.RegV 30), [187, 48, 64, 145, 126, 235, 127, 189]),
    (nodeImpl.mk .FLDRS (.RegR 5) .NilRegister (65504) (.RegV 30), [187, 48, 64, 145, 126, 227, 127, 189]),
    (nodeImpl.mk .FLDRS (.RegR 5) .NilRegister (134217728) (.RegV 30), [27, 0, 0, 24, 190, 104, 123, 188]),
    (nodeImpl.mk .FLDRS (.RegR 5) .NilRegister (1073741824) (.RegV 30), [27, 0, 0, 24, 190, 104, 123, 188]),
    (nodeImpl.mk .FLDRS (.RegR 5) .NilRegister (1073741832) (.RegV 30), [27, 0, 0, 24, 190, 104, 123, 188]),
    (nodeImpl.mk .FLDRS (.RegR 5) .NilRegister (1073741816) (.RegV 30), [27, 0, 0, 24, 190, 104, 123, 188]),
    (nodeImpl.mk .FLDRS (.RegR 5) .NilRegister (1073741840) (.RegV 30), [27, 0, 0, 24, 190, 104, 123, 188]),
    (nodeImpl.mk .FLDRS (.RegR 5) .NilRegister (1073741808) (.RegV 30), [27, 0, 0, 24, 190, 104, 123, 188]),
    (nodeImpl.mk .FLDRS (.RegR 5) .NilRegister (2147483640) (.RegV 30), [27, 0, 0, 24, 190, 104, 123, 188]),
    (nodeImpl.mk .FLDRS (.RegR 5) .NilRegister (268435460) (.RegV 30), [27, 0, 0, 24, 190, 104, 123, 188]),
    (nodeImpl.mk .FLDRS (.RegR 5) .NilRegister (1048584) (.RegV 30), [187, 0, 68, 145, 126, 11, 64, 189]),
    (nodeImpl.mk .FLDRS (.RegR 5) .NilRegister (1048568) (.RegV 30), [187, 240, 67, 145, 126, 251, 127, 189]),
    (nodeImpl.mk .FLDRS (.RegR 5) (.RegR 8) 0 (.RegV 30), [190, 104, 104, 188])
  ]

/-- Rows of the table of `TestAssemblerImpl_EncodeMemoryToRegister` for `FLDRS`: the node and
the bytes expected from an assembler with the temporary register R27. -/
def testsFLDRS_1 : List (nodeImpl × List Nat) :=
  [
    (nodeImpl.mk .FLDRS (.RegR 30) .NilRegister (-1) (.RegV 30), [222, 243, 95, 188]),
    (nodeImpl.mk .FLDRS (.RegR 30) .NilRegister (0) (.RegV 30), [222, 3, 64, 189]),
    (nodeImpl.mk .FLDRS (.RegR 30) .NilRegister (1) (.RegV 30), [222, 19, 64, 188]),
    (nodeImpl.mk .FLDRS (.RegR 30) .NilRegister (2) (.RegV 30), [222, 35, 64, 188]),
    (nodeImpl.mk .FLDRS (.RegR 30) .NilRegister (-2) (.RegV 30), [222, 227, 95, 188]),
    (nodeImpl.mk .FLDRS (.RegR 30) .NilRegister (15) (.RegV 30), [222, 243, 64, 188]),
    (nodeImpl.mk .FLDRS (.RegR 30) .NilRegister (-15) (.RegV 30), [222, 19, 95, 188]),
    (nodeImpl.mk .FLDRS (.RegR 30) .NilRegister (16) (.RegV 30), [222, 19, 64, 189]),
    (nodeImpl.mk .FLDRS (.RegR 30) .NilRegister (15) (.RegV 30), [222, 243, 64, 188]),
    (nodeImpl.mk .FLDRS (.RegR 30) .NilRegister (17) (.RegV 30), [222, 19, 65, 188]),
    (nodeImpl.mk .FLDRS (.RegR 30) .NilRegister (-128) (.RegV 30), [222, 3, 88, 188]),
    (nodeImpl.mk .FLDRS (.RegR 30) .NilRegister (-256) (.RegV 30), [222, 3, 80, 188]),
    (nodeImpl.mk .FLDRS (.RegR 30) .NilRegister (80) (.RegV 30), [222, 83, 64, 189]),
    (nodeImpl.mk .FLDRS (.RegR 30) .NilRegister (-128) (.RegV 30), [222, 3, 88, 188]),
    (nodeImpl.mk .FLDRS (.RegR 30) .NilRegister (255) (.RegV 30), [222, 243, 79, 188]),
    (nodeImpl.mk .FLDRS (.RegR 30) .NilRegister (4096) (.RegV 30), [222, 3, 80, 189]),
    (nodeImpl.mk .FLDRS (.RegR 30) .NilRegister (8192) (.RegV 30), [222, 3, 96, 189]),
    (nodeImpl.mk .FLDRS (.RegR 30) .NilRegister (32760) (.RegV 30), [219, 19, 64, 145, 126, 251, 127, 189]),
    (nodeImpl.mk .FLDRS (.RegR 30) .NilRegister (65520) (.RegV 30), [219, 51, 64, 145, 126, 243, 127, 189]),
    (nodeImpl.mk .FLDRS (.RegR 30) .NilRegister (65512) (.RegV 30), [219, 51, 64, 145, 126, 235, 127, 189]),
    (nodeImpl.mk .FLDRS (.RegR 30) .NilRegister (65504) (.RegV 30), [219, 51, 64, 145, 126, 227, 127, 189]),
    (nodeImpl.mk .FLDRS (.RegR 30) .NilRegister (134217728) (.RegV 30), [27, 0, 0, 24, 222, 107, 123, 188]),
    (nodeImpl.mk .FLDRS (.RegR 30) .NilRegister (1073741824) (.RegV 30), [27, 0, 0, 24, 222, 107, 123, 188]),
    (nodeImpl.mk .FLDRS (.RegR 30) .NilRegister (1073741832) (.RegV 30), [27, 0, 0, 24, 222, 107, 123, 188]),
    (nodeImpl.mk .FLDRS (.RegR 30) .NilRegister (1073741816) (.RegV 30), [27, 0, 0, 24, 222, 107, 123, 188]),
    (nodeImpl.mk .FLDRS (.RegR 30) .NilRegister (1073741840) (.RegV 30), [27, 0, 0, 24, 222, 107, 123, 188]),
    (nodeImpl.mk .FLDRS (.RegR 30) .NilRegister (1073741808) (.RegV 30), [27, 0, 0, 24, 222, 107, 123, 188]),
    (nodeImpl.mk .FLDRS (.RegR 30) .NilRegister (2147483640) (.RegV 30), [27, 0, 0, 24, 222, 107, 123, 188]),
    (nodeImpl.mk .FLDRS (.RegR 30) .NilRegister (268435460) (.RegV 30), [27, 0, 0, 24, 222, 107, 123, 188]),
    (nodeImpl.mk .FLDRS (.RegR 30) .NilRegister (1048584) (.RegV 30), [219, 3, 68, 145, 126, 11, 64, 189]),
    (nodeImpl.mk .FLDRS (.RegR 30) .NilRegister (1048568) (.RegV 30), [219, 243, 67, 145, 126, 251, 127, 189]),
    (nodeImpl.mk .FLDRS (.RegR 30) (.RegR 8) 0 (.RegV 30), [222, 107, 104, 188])
  ]

/-- The table of `TestAssemblerImpl_EncodeMemoryToRegister`, in the order of the source. -/
def encodeMemoryToRegisterTests : List (nodeImpl × List Nat) :=
  testsLDRD_0 ++
  testsLDRD_1 ++
  testsLDRW_0 ++
  testsLDRSW_0 ++
  testsLDRSW_1 ++
  testsLDRSHD_0 ++
  testsLDRSHD_1 ++
  testsLDRSHW_0 ++
  testsLDRH_0 ++
  testsLDRH_1 ++
  testsLDRSBD_0 ++
  testsLDRSBD_1 ++
  testsLDRSBW_0 ++
  testsLDRB_0 ++
  testsLDRB_1 ++
  testsFLDRD_0 ++
  testsFLDRD_1 ++
  testsFLDRS_0 ++
  testsFLDRS_1

/-- The bits `lo .. lo + width - 1` of a word. -/
def bitField (w lo width : Nat) : Nat := w / 2 ^ lo % 2 ^ width

/-- Whether a word is a load/store in the unsigned-offset (scaled imm12) form: bits 29..27 are
111 and bits 25..24 are 01. -/
def isUnsignedImm12Form (w : Nat) : Bool := bitField w 27 3 == 7 && bitField w 24 2 == 1

/-- Whether a word is a load/store in the unscaled (signed imm9) form: bits 29..27 are 111,
bits 25..24 are 00, bit 21 is 0 and bits 11..10 are 00. -/
def isUnscaledImm9Form (w : Nat) : Bool :=
  bitField w 27 3 == 7 && bitField w 24 2 == 0 && bitField w 21 1 == 0 && bitField w 10 2 == 0

/-- Whether a word is a 64-bit `ADD (immediate)` with the immediate shifted left by 12. -/
def isAddShifted12Form (w : Nat) : Bool := bitField w 22 10 == 0x245

/-- The text of Go's `%#x` for an unsigned number. -/
def hexString (n : Nat) : String := "0x" ++ String.mk (Nat.toDigits 16 n)

/-- Whether a word is an `ADR`: bit 31 is 0 and bits 28..24 are 10000. -/
def isADRForm (w : Nat) : Bool := bitField w 31 1 == 0 && bitField w 24 5 == 16

/-- The difference of two `uint64` numbers, with wrap-around. -/
def uint64Sub (a b : Nat) : Nat := (a + 2 ^ 64 - b % 2 ^ 64) % 2 ^ 64

/-- The conversion `int64(u)` of a `uint64` number. -/
def asInt64 (u : Nat) : Int := if u < 2 ^ 63 then (u : Int) else (u : Int) - 2 ^ 64

/-- Modelled from the spec: `finalizeADRInstructionNode` is not part of the sources at hand.
Spec 4.1 and 9: on finalize the distance `targetOffset - currentOffset` is computed, in
`uint64` arithmetic, and validated against the 21-bit displacement of `ADR`; outside
`[-2^20, 2^20)` the compile fails with a BUG error and nothing is synthesised. The message
and the bytes are those asserted by `TestAssemblerImpl_encodeReadInstructionAddress`. The
result is the word of the `ADR` at `adrOffset` with the immediate filled in: the low two bits
of the distance in bits 30..29, the 19 bits above them in bits 23..5. -/
def finalizeADRInstructionNode (dstRegBits adrOffset targetOffset : Nat) :
    Except String (List Nat) :=
  let offset : Nat := uint64Sub targetOffset adrOffset
  if asInt64 offset ≥ 2 ^ 20 ∨ asInt64 offset < -2 ^ 20 then
    .error ("BUG: too large offset for ADR: " ++ hexString offset)
  else
    let immlo : Nat := offset % 4
    let immhi : Nat := offset / 4 % 2 ^ 19
    .ok (wordBytes (0x10000000 + immlo * 2 ^ 29 + immhi * 2 ^ 5 + dstRegBits))

/-- The distance from the `ADR` to its target in the test of the ok case: the `ADR` itself,
`numDummyInstructions` branches and the instruction before the target, 4 bytes each. -/
def adrTestDistance (numDummyInstructions : Nat) : Nat := 4 + numDummyInstructions * 4 + 4

/-! ## Part C: the lowered code asserted by `backend_test.go` -/

/-- The registers of the listings: `x n` is the register printed `xN` (64-bit view) or `wN`
(32-bit view), virtual when printed with a question mark (`x128?`); the zero register; the
stack pointer. -/
inductive AReg
  | x (n : Nat)
  | xzr
  | sp
deriving DecidableEq, Repr

/-- The instructions of the listings `afterLoweringARM64` that the two tests below print,
and the labels between them. -/
inductive AInst
  | label (l : Nat)
  | mov (rd rn : AReg)
  | uxtw (rd rn : AReg)
  | ldrW (rt rn : AReg) (imm : Nat)
  | ldrX (rt rn : AReg) (imm : Nat)
  | addImm (rd rn : AReg) (imm : Nat)
  | addReg (rd rn rm : AReg)
  | subs (rd rn rm : AReg)
  | bHs (l : Nat)
  | cbnzW (rt : AReg) (l : Nat)
  | movz (rd : AReg) (imm shift : Nat)
  | strW (rt rn : AReg) (imm : Nat)
  | strX (rt rn : AReg) (imm : Nat)
  | adr (rd : AReg) (imm : Nat)
  | exitSequence (rn : AReg)
  | ret
deriving DecidableEq, Repr

/-- One access to memory: the address, the number of bytes and, for a store, the value. -/
structure MemAccess where
  addr : Nat
  size : Nat
  value : Nat
deriving DecidableEq, Repr

/-- The machine state: the 64-bit registers, the carry flag, the byte memory, the address of
the instruction at each index of the program, and the loads and stores made so far. -/
structure AState where
  regs : AReg → Nat
  carry : Bool
  mem : Nat → Nat
  codeAddr : Nat → Nat
  loads : List MemAccess
  stores : List MemAccess

/-- The 64-bit value of a register; the zero register reads as 0. -/
def AState.read (st : AState) (r : AReg) : Nat :=
  match r with
  | .xzr => 0
  | r => st.regs r % 2 ^ 64

/-- The write of a 64-bit value to a register; writes to the zero register are dropped. -/
def AState.write (st : AState) (r : AReg) (val : Nat) : AState :=
  match r with
  | .xzr => st
  | r => { st with regs := fun q => if q = r then val % 2 ^ 64 else st.regs q }

/-- The little-endian value of the `n` bytes of memory at `addr`, addresses taken modulo
2^64. -/
def loadBytes (mem : Nat → Nat) (addr : Nat) : Nat → Nat
  | 0 => 0
  | n + 1 => mem (addr % 2 ^ 64) % 256 + 256 * loadBytes mem (addr + 1) n

/-- The memory after the `n` low bytes of `val` are stored at `addr`, little-endian. -/
def storeBytes (mem : Nat → Nat) (addr : Nat) (val : Nat) : Nat → Nat → Nat
  | 0 => mem
  | n + 1 => fun a =>
    if a = addr % 2 ^ 64 then val % 256 else storeBytes mem (addr + 1) (val / 256) n a

def AState.load (st : AState) (addr size : Nat) : Nat × AState :=
  (loadBytes st.mem addr size,
    { st with loads := st.loads ++ [⟨addr % 2 ^ 64, size, loadBytes st.mem addr size⟩] })

def AState.store (st : AState) (addr size val : Nat) : AState :=
  { st with mem := storeBytes st.mem addr val size,
            stores := st.stores ++ [⟨addr % 2 ^ 64, size, val % 2 ^ (8 * size)⟩] }

/-- The index of the label `l` in the program. -/
def labelIndex (prog : List AInst) (l : Nat) : Option Nat :=
  let i := prog.indexOf (.label l)
  if i < prog.length then some i else none

/-- How a run ends: through the exit sequence, with the execution context in `ctx`; by
`ret`; or without an end (a jump to a missing label, the end of the listing, no fuel). -/
inductive Outcome
  | exited (st : AState) (ctx : Nat)
  | returned (st : AState)
  | stuck

/-- Modelled from the spec: the frontend and the lowering that emit the code of a function
(spec 4.4, 4.6) are not part of the sources at hand, only the listings their tests expect.
This is the run of such a listing from the instruction at index `pc`, at most `fuel` steps,
with the Arm A64 meaning of its instructions: `b.hs` branches when the carry flag is set,
which `subs` sets when the subtraction does not borrow; `exit_sequence` leaves the function
with the execution context in its register. -/
def runListing (prog : List AInst) : Nat → Nat → AState → Outcome
  | 0, _, _ => .stuck
  | fuel + 1, pc, st =>
    match prog[pc]? with
    | none => .stuck
    | some i =>
      match i with
      | .label _ => runListing prog fuel (pc + 1) st
      | .mov rd rn => runListing prog fuel (pc + 1) (st.write rd (st.read rn))
      | .uxtw rd rn => runListing prog fuel (pc + 1) (st.write rd (st.read rn % 2 ^ 32))
      | .ldrW rt rn imm =>
        let r := st.load (st.read rn + imm) 4
        runListing prog fuel (pc + 1) (r.2.write rt r.1)
      | .ldrX rt rn imm =>
        let r := st.load (st.read rn + imm) 8
        runListing prog fuel (pc + 1) (r.2.write rt r.1)
      | .addImm rd rn imm => runListing prog fuel (pc + 1) (st.write rd (st.read rn + imm))
      | .addReg rd rn rm =>
        runListing prog fuel (pc + 1) (st.write rd (st.read rn + st.read rm))
      | .subs rd rn rm =>
        let a := st.read rn
        let b := st.read rm
        runListing prog fuel (pc + 1)
          ({ st with carry := decide (b ≤ a) }.write rd (a + 2 ^ 64 - b))
      | .bHs l =>
        if st.carry then
          match labelIndex prog l with
          | some t => runListing prog fuel t st
          | none => .stuck
        else runListing prog fuel (pc + 1) st
      | .cbnzW rt l =>
        if st.read rt % 2 ^ 32 ≠ 0 then
          match labelIndex prog l with
          | some t => runListing prog fuel t st
          | none => .stuck
        else runListing prog fuel (pc + 1) st
      | .movz rd imm shift => runListing prog fuel (pc + 1) (st.write rd (imm * 2 ^ shift))
      | .strW rt rn imm =>
        runListing prog fuel (pc + 1) (st.store (st.read rn + imm) 4 (st.read rt))
      | .strX rt rn imm =>
        runListing prog fuel (pc + 1) (st.store (st.read rn + imm) 8 (st.read rt))
      | .adr rd imm => runListing prog fuel (pc + 1) (st.write rd (st.codeAddr pc + imm))
      | .exitSequence rn => .exited st (st.read rn)
      | .ret => .returned st

/-- The listing `afterLoweringARM64` of `TestE2E/memory_load_basic`: a function that loads
4 bytes of the linear memory at the address in its i32 parameter (x2); x0 is the execution
context and x1 the module context, which holds the base of the memory at +0x8 and its length
at +0x10. -/
def memoryLoadBasicAfterLowering : List AInst :=
  [ .label 1,
    .mov (.x 128) (.x 0),
    .mov (.x 129) (.x 1),
    .mov (.x 130) (.x 2),
    .uxtw (.x 132) (.x 130),
    .ldrW (.x 133) (.x 129) 0x10,
    .addImm (.x 134) (.x 132) 0x4,
    .subs .xzr (.x 133) (.x 134),
    .mov (.x 140) (.x 128),
    .bHs 2,
    .movz (.x 141) 0x4 0,
    .strW (.x 141) (.x 140) 0,
    .mov (.x 142) .sp,
    .strX (.x 142) (.x 140) 0x38,
    .adr (.x 143) 0x0,
    .strX (.x 143) (.x 140) 0x30,
    .exitSequence (.x 140),
    .label 2,
    .ldrX (.x 136) (.x 129) 0x8,
    .addReg (.x 139) (.x 136) (.x 132),
    .ldrW (.x 138) (.x 139) 0,
    .mov (.x 0) (.x 138),
    .ret ]

/-- The listing `afterLoweringARM64` of `TestE2E/block_br_if`: the block `blk2` is the
`unreachable` of the function, reached when the branch of `blk0` is not taken. -/
def blockBrIfAfterLowering : List AInst :=
  [ .label 1,
    .mov (.x 128) (.x 0),
    .mov (.x 131) .xzr,
    .cbnzW (.x 131) 2,
    .label 3,
    .movz (.x 132) 0x3 0,
    .strW (.x 132) (.x 128) 0,
    .mov (.x 133) .sp,
    .strX (.x 133) (.x 128) 0x38,
    .adr (.x 134) 0x0,
    .strX (.x 134) (.x 128) 0x30,
    .exitSequence (.x 128),
    .label 2,
    .ret ]

/-- The exit code the exit sequence has written: the 32-bit store to offset 0 of the
execution context, the exit-code word (spec 6). -/
def Outcome.exitCode : Outcome → Option Nat
  | .exited st ctx =>
    (st.stores.find? fun s => s.addr = ctx % 2 ^ 64 ∧ s.size = 4).map (·.value)
  | _ => none

/-- The state at the call of a function: registers and memory as given, nothing accessed. -/
def entryState (regs : AReg → Nat) (mem : Nat → Nat) (codeAddr : Nat → Nat) : AState :=
  { regs := regs, carry := false, mem := mem, codeAddr := codeAddr, loads := [], stores := [] }

/-- Registers at the call in the examples: the execution context at 0x10000, the module
context at 0x20000 and the Wasm address `off` in x2. -/
def exampleRegs (off : Nat) : AReg → Nat
  | .x 0 => 0x10000
  | .x 1 => 0x20000
  | .x 2 => off
  | _ => 0

/-- Memory in the examples: the length 65536 of the linear memory at +0x10 of the module
context (its third byte is 1), zero elsewhere. -/
def exampleMem : Nat → Nat := fun a => if a = 0x20012 then 1 else 0


/-! ## Part D: exit codes of `wazevoapi` and branch inversion of `ssa` -/

/-- Modelled from the spec: `wazevoapi/exitcode.go` is not part of the sources at hand (only
`exitcode_test.go` is). Spec 6: the exit codes are an enum of one byte with stable values.
The codes in the order of their values, from 0 on. The listings of `backend_test.go` fix four
of the values: `block_br_if` stores 3 for unreachable, `memory_load_basic` and
`memory_stores` store 4 for a memory access out of bounds, and `float_conversions` stores
0xb for an integer overflow and 0xc for the conversion of a NaN. -/
inductive ExitCode
  | ExitCodeOK
  | ExitCodeGrowStack
  | ExitCodeGrowMemory
  | ExitCodeUnreachable
  | ExitCodeMemoryOutOfBounds
  | ExitCodeCallGoModuleFunction
  | ExitCodeCallGoFunction
  | ExitCodeTableOutOfBounds
  | ExitCodeIndirectCallNullPointer
  | ExitCodeIndirectCallTypeMismatch
  | ExitCodeIntegerDivisionByZero
  | ExitCodeIntegerOverflow
  | ExitCodeInvalidConversionToInteger
  | ExitCodeCheckModuleExitCode
  | ExitCodeCallListenerBefore
  | ExitCodeCallListenerAfter
  | ExitCodeCallGoModuleFunctionWithListener
  | ExitCodeCallGoFunctionWithListener
  | ExitCodeTableGrow
  | ExitCodeRefFunc
deriving DecidableEq, Repr

/-- The value of an exit code, a `uint32`: its place in the enumeration, counted from 0. -/
def ExitCode.toNat : ExitCode → Nat
  | .ExitCodeOK => 0
  | .ExitCodeGrowStack => 1
  | .ExitCodeGrowMemory => 2
  | .ExitCodeUnreachable => 3
  | .ExitCodeMemoryOutOfBounds => 4
  | .ExitCodeCallGoModuleFunction => 5
  | .ExitCodeCallGoFunction => 6
  | .ExitCodeTableOutOfBounds => 7
  | .ExitCodeIndirectCallNullPointer => 8
  | .ExitCodeIndirectCallTypeMismatch => 9
  | .ExitCodeIntegerDivisionByZero => 10
  | .ExitCodeIntegerOverflow => 11
  | .ExitCodeInvalidConversionToInteger => 12
  | .ExitCodeCheckModuleExitCode => 13
  | .ExitCodeCallListenerBefore => 14
  | .ExitCodeCallListenerAfter => 15
  | .ExitCodeCallGoModuleFunctionWithListener => 16
  | .ExitCodeCallGoFunctionWithListener => 17
  | .ExitCodeTableGrow => 18
  | .ExitCodeRefFunc => 19

/-- All exit codes, in the order of their values. -/
def ExitCode.all : List ExitCode :=
  [.ExitCodeOK, .ExitCodeGrowStack, .ExitCodeGrowMemory, .ExitCodeUnreachable,
   .ExitCodeMemoryOutOfBounds, .ExitCodeCallGoModuleFunction, .ExitCodeCallGoFunction,
   .ExitCodeTableOutOfBounds, .ExitCodeIndirectCallNullPointer,
   .ExitCodeIndirectCallTypeMismatch, .ExitCodeIntegerDivisionByZero,
   .ExitCodeIntegerOverflow, .ExitCodeInvalidConversionToInteger,
   .ExitCodeCheckModuleExitCode, .ExitCodeCallListenerBefore, .ExitCodeCallListenerAfter,
   .ExitCodeCallGoModuleFunctionWithListener, .ExitCodeCallGoFunctionWithListener,
   .ExitCodeTableGrow, .ExitCodeRefFunc]

/-- Modelled from the spec: `wazevoapi/exitcode.go` is not part of the sources at hand. The
constant `exitCodeMax` closes the enumeration: it is the value after the last exit code, the
number of exit codes. -/
def exitCodeMax : Nat := ExitCode.all.length

/-- The opcodes of `ssa.Opcode` that end a basic block, and one that does not. -/
inductive Opcode
  | OpcodeInvalid
  | OpcodeJump
  | OpcodeBrz
  | OpcodeBrnz
  | OpcodeBrTable
  | OpcodeReturn
  | OpcodeIconst
deriving DecidableEq, Repr

/-- The fields of `ssa.Instruction` a conditional branch uses: the opcode, the condition value
`v` and the target block `blk`. -/
structure ssaInstruction where
  opcode : Opcode
  v : Nat := 0
  blk : Nat := 0
deriving DecidableEq, Repr

/-- Modelled from the spec: `ssa.Instruction.InvertBrx` is not part of the sources at hand
(only its test is). Spec 3.3: the inversion of `Brnz`/`Brz` swaps the opcode of a conditional
branch and leaves condition and target alone; on any other instruction it panics, which is
`none` here. -/
def ssaInstruction.InvertBrx (i : ssaInstruction) : Option ssaInstruction :=
  match i.opcode with
  | .OpcodeBrz => some { i with opcode := .OpcodeBrnz }
  | .OpcodeBrnz => some { i with opcode := .OpcodeBrz }
  | _ => none

/-! ## Part E: limits of `internal/wasm/binary` and the memory instance of `internal/wasm` -/

/-- The method `bytes.Reader.ReadByte` of the Go library on the bytes not yet read: the next
byte and the rest, or the error `io.EOF`, whose text is `EOF`, at the end. -/
def ReadByte (r : List Nat) : (Nat × Option String) × List Nat :=
  match r with
  | [] => ((0, some "EOF"), [])
  | b :: rest => ((b, none), rest)

/-- The three results of `leb128.DecodeUint32`: the number, the count of bytes read and the
error (`none` is nil). -/
structure DecodeUint32Result where
  ret : Nat
  bytesRead : Nat
  err : Option String
deriving DecidableEq, Repr

/-- The type of `leb128.DecodeUint32`, whose declaration is not part of the sources at hand:
from the bytes not yet read it gives its results and the bytes left. -/
abbrev Uint32Decoder := List Nat → DecodeUint32Result × List Nat

/-- The three results of `decodeLimitsType`; `max` is the pointer, `none` is nil. -/
structure LimitsResult where
  min : Nat
  max : Option Nat
  err : Option String
deriving DecidableEq, Repr

/-- The function `decodeLimitsType` of `limits.go`, on the bytes not yet read by the reader.
The decoder `leb128.DecodeUint32` and the text of the error `ErrInvalidByte` are parameters:
their declarations are not part of the sources at hand. An error made by `fmt.Errorf` is its
text. -/
def decodeLimitsType (DecodeUint32 : Uint32Decoder) (ErrInvalidByte : String) (r : List Nat) :
    LimitsResult × List Nat :=
  match ReadByte r with
  | ((_, some err), r) => (⟨0, none, some ("read leading byte: " ++ err)⟩, r)
  | ((flag, none), r) =>
    if flag = 0x00 then
      let (d, r) := DecodeUint32 r
      match d.err with
      | some err => (⟨d.ret, none, some ("read min of limit: " ++ err)⟩, r)
      | none => (⟨d.ret, none, none⟩, r)
    else if flag = 0x01 then
      let (d, r) := DecodeUint32 r
      match d.err with
      | some err => (⟨d.ret, none, some ("read min of limit: " ++ err)⟩, r)
      | none =>
        let (d2, r) := DecodeUint32 r
        match d2.err with
        | some err => (⟨d.ret, none, some ("read max of limit: " ++ err)⟩, r)
        | none => (⟨d.ret, some d2.ret, none⟩, r)
    else
      (⟨0, none,
        some (ErrInvalidByte ++ " for limits: " ++ hexString flag ++ " != 0x00 or 0x01")⟩, r)

/-- The number an unsigned LEB128 byte string stands for: seven bits a byte, lowest first. -/
def uleb128Value : List Nat → Nat
  | [] => 0
  | b :: bs => b % 128 + 128 * uleb128Value bs

/-- The byte string `e` is a valid unsigned LEB128 encoding of the `uint32` number `m`: one to
five bytes, all but the last with the continuation bit set, the last without, of value `m`
below `2^32`. Encodings padded with zero groups are valid. -/
@[reducible]
def IsUleb128 (e : List Nat) (m : Nat) : Prop :=
  e ≠ [] ∧ e.length ≤ 5 ∧ (∀ b ∈ e.dropLast, 128 ≤ b ∧ b < 256) ∧ e.getLastD 0 < 128 ∧
    uleb128Value e = m ∧ m < 2 ^ 32

/-- What `decodeLimitsType` relies on from `leb128.DecodeUint32`: on a valid encoding of `m`
followed by any bytes it returns `m`, the length of the encoding and no error, and leaves the
reader behind the encoding. -/
def Uint32Decoder.Correct (dec : Uint32Decoder) : Prop :=
  ∀ (e : List Nat) (m : Nat) (rest : List Nat), IsUleb128 e m →
    dec (e ++ rest) = (⟨m, e.length, none⟩, rest)

/-- The loop of the decoder below: `n` iterations are left, `i` bytes were read and gave the
low bits `ret`. -/
def decodeUint32Loop : Nat → Nat → Nat → List Nat → DecodeUint32Result × List Nat
  | 0, _, _, r => (⟨0, 0, some "overflows a 32-bit integer"⟩, r)
  | n + 1, i, ret, r =>
    match ReadByte r with
    | ((_, some err), r) => (⟨0, 0, some err⟩, r)
    | ((b, none), r) =>
      if b < 0x80 then
        if i = 4 ∧ 16 ≤ b then (⟨0, 0, some "overflows a 32-bit integer"⟩, r)
        else (⟨(ret + b * 2 ^ (7 * i)) % 2 ^ 32, i + 1, none⟩, r)
      else decodeUint32Loop n (i + 1) ((ret + b % 128 * 2 ^ (7 * i)) % 2 ^ 32) r

/-- Modelled from the spec: `leb128.DecodeUint32` is not part of the sources at hand. This is
the decoder of the unsigned LEB128 format of the WebAssembly binary format for numbers of 32
bits: at most five bytes, seven bits each, the fifth with at most four bits. It stands for the
parameter of `decodeLimitsType` in examples. -/
def leb128DecodeUint32 : Uint32Decoder := decodeUint32Loop 5 0 0

/-- The fields of `wasm.MemoryInstance` that `memory_test.go` sets: the bytes of the memory
and the limits `Min`, `Cap` and `Max`, in pages. -/
structure MemoryInstance where
  Buffer : List Nat
  Min : Nat := 0
  Cap : Nat := 0
  Max : Nat := 0
deriving DecidableEq, Repr

/-- The constant `MemoryPageSize`: 65536, as `TestMemoryPageConsts` asserts. -/
def MemoryPageSize : Nat := 65536

/-- Modelled from the spec: `MemoryInstance.Size` is not part of the sources at hand; it is
the length of the buffer as a `uint32`. -/
def MemoryInstance.Size (m : MemoryInstance) : Nat := m.Buffer.length % 2 ^ 32

/-- Modelled from the spec: `MemoryInstance.hasSize` is not part of the sources at hand (only
`memory_test.go` is), and the spec does not describe it. The model follows the rows of
`TestMemoryInstance_HasSize`: the `uint32` offset is widened to `uint64` before the `uint64`
byte count is added, and the sum is compared with the length of the buffer. -/
def MemoryInstance.hasSize (m : MemoryInstance) (offset byteCount : Nat) : Bool :=
  decide ((offset + byteCount) % 2 ^ 64 ≤ m.Buffer.length)

/-- The function `binary.LittleEndian.Uint32` of the Go library on the four bytes from index
`offset` on. -/
def littleEndianUint32 (b : List Nat) (offset : Nat) : Nat :=
  b.getD offset 0 + b.getD (offset + 1) 0 * 2 ^ 8 + b.getD (offset + 2) 0 * 2 ^ 16 +
    b.getD (offset + 3) 0 * 2 ^ 24

/-- The function `binary.LittleEndian.PutUint32` of the Go library on the four bytes from
index `offset` on. -/
def littleEndianPutUint32 (b : List Nat) (offset v : Nat) : List Nat :=
  (((b.set offset (v % 256)).set (offset + 1) (v / 2 ^ 8 % 256)).set (offset + 2)
    (v / 2 ^ 16 % 256)).set (offset + 3) (v / 2 ^ 24 % 256)

/-- Modelled from the spec: `MemoryInstance.ReadUint32Le` is not part of the sources at hand
(only `memory_test.go` is), and the spec does not describe it. The model follows the rows of
`TestMemoryInstance_ReadUint32Le`: zero and false when four bytes at the offset are not in
the buffer, else the little-endian number and true. -/
def MemoryInstance.ReadUint32Le (m : MemoryInstance) (offset : Nat) : Nat × Bool :=
  if !m.hasSize offset 4 then (0, false)
  else (littleEndianUint32 m.Buffer offset, true)

/-- Modelled from the spec: `MemoryInstance.WriteUint32Le` is not part of the sources at hand
(only `memory_test.go` is), and the spec does not describe it. The model follows the rows of
`TestMemoryInstance_WriteUint32Le`: false and no change when four bytes at the offset are not
in the buffer, else the number is put there in little-endian order. The memory after the
call is the second component. -/
def MemoryInstance.WriteUint32Le (m : MemoryInstance) (offset v : Nat) :
    Bool × MemoryInstance :=
  if !m.hasSize offset 4 then (false, m)
  else (true, { m with Buffer := littleEndianPutUint32 m.Buffer offset v })

/-- The memory of `TestMemoryInstance_HasSize`: one page of zero bytes. -/
def onePageMemory : MemoryInstance := { Buffer := List.replicate MemoryPageSize 0 }

/-- The memory of `TestMemoryInstance_WriteUint32Le`: 100 zero bytes. -/
def hundredByteMemory : MemoryInstance := { Buffer := List.replicate 100 0 }

/-! ## Part F: stack areas and the execution context in the entry preamble -/

/-- The address mode `loadOrStoreAtExecutionContext` builds for an offset: the unsigned-imm12
form with the base `savedExecutionContextPtr`. -/
def executionContextMode (offset : Int) : addressMode :=
  ⟨.RegUnsignedImm12, savedExecutionContextPtr, none, offset⟩

/-- Whether the instruction is a load or store whose base register is the stack pointer. -/
def instrData.isStackAccess (d : instrData) : Bool := d.base == some spVReg

/-- Whether the argument or result is passed on the stack. -/
def ABIArg.isStack (arg : ABIArg) : Bool := arg.Kind == .ABIArgKindStack

/-- The store `goEntryPreamblePassArg` links for a stack argument, with `stackSlotSize` the
value of `alignedArgResultStackSlotSize()`: from the staging register to the address mode
resolved for `argStartOffsetFromSP + arg.Offset`, where `argStartOffsetFromSP` is
`-stackSlotSize`, from the base SP. -/
def argStackStore (resolve : OffsetResolver) (stackSlotSize : Int) (arg : ABIArg) : instrData :=
  .store (stagingReg arg)
    (resolve (int64 (int64 (-stackSlotSize) + arg.Offset)) arg.Typ.Bits spVReg).2 arg.Typ.Bits

/-- The load `goEntryPreamblePassResult` links for a stack result: into the staging register
from the address mode resolved for `resultStartOffsetFromSP + result.Offset`, where
`resultStartOffsetFromSP` is `a.argStackSize - stackSlotSize`, from the base SP. -/
def resultStackLoadAt (resolve : OffsetResolver) (argStackSize stackSlotSize : Int)
    (result : ABIArg) : instrData :=
  resultStackLoad
    (resolve (int64 (int64 (argStackSize - stackSlotSize) + result.Offset)) result.Typ.Bits
      spVReg).2 result

/-- The byte displacement from the base register at which memory is accessed through the
address mode `r.2` after the instructions `r.1` ran: the immediate in the unsigned-imm12 and
signed-imm9 forms; in the register-offset form the constant that the last of the
instructions put into the index register. -/
def resolvedDisplacement (r : List instrData × addressMode) : Option Int :=
  match r.2.kind with
  | .RegUnsignedImm12 => some r.2.imm
  | .RegSignedImm9 => some r.2.imm
  | .RegReg =>
    match r.2.rm, r.1.getLast? with
    | some rm, some (.lowerConstantI64 dst c) => if dst = rm then some c else none
    | _, _ => none
  | _ => none

/-- The offset resolver addresses what it is asked for: the mode it returns, after the
instructions it inserts, accesses memory at the given offset from the given base. -/
def OffsetResolver.Exact (resolve : OffsetResolver) : Prop :=
  ∀ offset dstBits rn,
    (resolve offset dstBits rn).2.rn = rn ∧
    resolvedDisplacement (resolve offset dstBits rn) = some offset

/-- A signature with the two context pointers and two stack arguments, an i64 at offset 0 and
a v128 at offset 8, and two stack results, an f32 at offset 0 and an i64 at offset 8. -/
def stackABI : abiImpl :=
  ⟨[⟨0, .ABIArgKindReg, .x 0, 0, .TypeI64⟩, ⟨1, .ABIArgKindReg, .x 1, 0, .TypeI64⟩,
      ⟨2, .ABIArgKindStack, .x 0, 0, .TypeI64⟩, ⟨3, .ABIArgKindStack, .x 0, 8, .TypeV128⟩],
    [⟨0, .ABIArgKindStack, .x 0, 0, .TypeF32⟩, ⟨1, .ABIArgKindStack, .x 0, 8, .TypeI64⟩],
    24, 16⟩

/-! ## Part G: the locations of arguments and results -/

/-- The struct `ssa.Signature`: the types of the parameters and of the results. -/
structure Signature where
  Params : List ssaType
  Results : List ssaType
deriving DecidableEq, Repr

/-- The method `ssa.Type.IsInt`. -/
def ssaType.IsInt : ssaType → Bool
  | .TypeI32 => true
  | .TypeI64 => true
  | _ => false

/-- Modelled from the spec: the table `xArgRetRegs` is not part of the sources at hand. The
integer registers that carry arguments and results: eight of them (spec 4.5), from x0 on, as
the results of the listings in `backend_test.go` show. -/
def xArgRetRegs : List VReg := [.x 0, .x 1, .x 2, .x 3, .x 4, .x 5, .x 6, .x 7]

/-- Modelled from the spec: the table `vArgRetRegs` is not part of the sources at hand. The
float registers that carry arguments and results: v0 to v7 (spec 4.5). -/
def vArgRetRegs : List VReg := [.v 0, .v 1, .v 2, .v 3, .v 4, .v 5, .v 6, .v 7]

/-- The loop state of `setABIArgs`: the next free integer and float register and the stack
offset reached. -/
structure ABIState where
  nextX : Nat
  nextV : Nat
  stackOffset : Int
deriving DecidableEq, Repr

/-- Modelled from the spec: `abiImpl.setABIArgs` is not part of the sources at hand. One round
of its loop, for the value `i` of type `typ` (spec 4.5): an integer value takes the next
integer register and a float or vector value the next float register; when the registers of
its class are used up the value goes to the stack, at the offset reached, in a slot of 8
bytes, 16 for a vector. The field `Reg` of a stack value is not used; it is x0 here. -/
def setABIArg (st : ABIState) (i : Nat) (typ : ssaType) : ABIArg × ABIState :=
  if typ.IsInt then
    if st.nextX ≥ xArgRetRegs.length then
      (⟨i, .ABIArgKindStack, .x 0, st.stackOffset, typ⟩,
        ⟨st.nextX, st.nextV, st.stackOffset + 8⟩)
    else
      (⟨i, .ABIArgKindReg, xArgRetRegs.getD st.nextX (.x 0), 0, typ⟩,
        ⟨st.nextX + 1, st.nextV, st.stackOffset⟩)
  else
    if st.nextV ≥ vArgRetRegs.length then
      (⟨i, .ABIArgKindStack, .x 0, st.stackOffset, typ⟩,
        ⟨st.nextX, st.nextV, st.stackOffset + (if typ.Bits = 128 then 16 else 8)⟩)
    else
      (⟨i, .ABIArgKindReg, vArgRetRegs.getD st.nextV (.v 0), 0, typ⟩,
        ⟨st.nextX, st.nextV + 1, st.stackOffset⟩)

/-- The loop of `setABIArgs` over the types from index `i` on. -/
def setABIArgsFrom : List ssaType → Nat → ABIState → List ABIArg × ABIState
  | [], _, st => ([], st)
  | typ :: types, i, st =>
    let r := setABIArgsFrom types (i + 1) (setABIArg st i typ).2
    ((setABIArg st i typ).1 :: r.1, r.2)

/-- Modelled from the spec: `abiImpl.setABIArgs` is not part of the sources at hand. It
assigns a location to every value of the list of types, in order, and returns the size of
the stack area the values use (spec 4.5). -/
def setABIArgs (types : List ssaType) : List ABIArg × Int :=
  ((setABIArgsFrom types 0 ⟨0, 0, 0⟩).1, (setABIArgsFrom types 0 ⟨0, 0, 0⟩).2.stackOffset)

/-- Modelled from the spec: `abiImpl.init` is not part of the sources at hand. Spec 4.5:
"Results mirror the same rule": the results are assigned by the rule of the arguments, each
list on its own. -/
def abiImpl.init (sig : Signature) : abiImpl :=
  ⟨(setABIArgs sig.Params).1, (setABIArgs sig.Results).1, (setABIArgs sig.Params).2,
    (setABIArgs sig.Results).2⟩

/-- Where a value is passed: in a register, or on the stack at an offset of its area. -/
inductive Location
  | reg (r : VReg)
  | stack (offset : Int)
deriving DecidableEq, Repr

/-- The location an `ABIArg` describes. -/
def ABIArg.location (arg : ABIArg) : Location :=
  if arg.Kind = .ABIArgKindReg then .reg arg.Reg else .stack arg.Offset

/-- The number of integer values among the values before the value `k`. -/
def intIndex (types : List ssaType) (k : Nat) : Nat := ((types.take k).filter (·.IsInt)).length

/-- The parameter types of the function of the test case `call_many_returns`, read off its
listing in `backend_test.go`: the two context pointers, then i32, i64, f32, f64 (the
function receives x0 to x3 and v0, v1). -/
def callManyReturnsParams : List ssaType :=
  [.TypeI64, .TypeI64, .TypeI32, .TypeI64, .TypeF32, .TypeF64]

/-- The result types of the function of the test case `call_many_returns`, read off its
listing in `backend_test.go`: i32, i64, f32, f64, ten times (the stack results are stored
with `str w`, `str x`, `str s`, `str d` in turn). -/
def callManyReturnsResults : List ssaType :=
  (List.replicate 10 [ssaType.TypeI32, .TypeI64, .TypeF32, .TypeF64]).flatten

/-- The end of the listing `call_many_returns` after lowering, from the last line up: where
the function puts its 40 results before `ret`. The first result goes to x0 (`mov x0, x134?`),
the seventeenth to offset 0 of the return space (`str w150?, [#ret_space, #0x0]`), the last
to offset 0xb8 (`str d173?, [#ret_space, #0xb8]`). -/
def callManyReturnsListing : List Location :=
  [.reg (.x 0), .reg (.x 1), .reg (.v 0), .reg (.v 1),
   .reg (.x 2), .reg (.x 3), .reg (.v 2), .reg (.v 3),
   .reg (.x 4), .reg (.x 5), .reg (.v 4), .reg (.v 5),
   .reg (.x 6), .reg (.x 7), .reg (.v 6), .reg (.v 7),
   .stack 0x0, .stack 0x8, .stack 0x10, .stack 0x18, .stack 0x20, .stack 0x28,
   .stack 0x30, .stack 0x38, .stack 0x40, .stack 0x48, .stack 0x50, .stack 0x58,
   .stack 0x60, .stack 0x68, .stack 0x70, .stack 0x78, .stack 0x80, .stack 0x88,
   .stack 0x90, .stack 0x98, .stack 0xa0, .stack 0xa8, .stack 0xb0, .stack 0xb8]

/-! ## Part H: `unlink` of `internal/sysfs`, the register mask of `internal/engine/compiler`
and the constant expressions of `internal/testing/binaryencoding` -/

/-- The function `unlink` of `unlink.go` (the build without windows and plan9). The system
call `syscall.Unlink` acts on the file system `fs` and gives an error value of the type `E`;
`sys.UnwrapOSError` turns the error into a `sys.Errno`, a number. Both, and the constants
`sys.EPERM` and `sys.EISDIR`, are parameters: their declarations are not part of the sources
at hand. The file system after the call is the second component. -/
def unlink {FS E : Type} (syscallUnlink : FS → String → E × FS) (UnwrapOSError : E → Nat)
    (EPERM EISDIR : Nat) (fs : FS) (name : String) : Nat × FS :=
  let r := syscallUnlink fs name
  let errno := UnwrapOSError r.1
  if errno = EPERM then (EISDIR, r.2) else (errno, r.2)

/-- The function `registerMaskShift` of `arch_amd64.go`: `int(r - amd64.RegAX)`. A register
of the type `asm.Register` is a byte, so the difference wraps around modulo 256 before it is
widened to `int`. The constant `amd64.RegAX` is a parameter: its declaration is not part of
the sources at hand. -/
def registerMaskShift (RegAX : Nat) (r : Nat) : Int :=
  (((r % 256 + 256 - RegAX % 256) % 256 : Nat) : Int)

/-- The function `registerFromMaskShift` of `arch_amd64.go`: `amd64.RegAX + asm.Register(s)`.
The conversion of the `int` to the byte type keeps the low eight bits, and the sum wraps
around modulo 256. -/
def registerFromMaskShift (RegAX : Nat) (s : Int) : Nat :=
  (RegAX % 256 + (s % 256).toNat) % 256

/-- The fields of `wasm.ConstantExpression` that `encodeConstantExpression` reads: the opcode,
a byte, and the bytes of the immediate. -/
structure ConstantExpression where
  Opcode : Nat
  Data : List Nat
deriving DecidableEq, Repr

/-- The function `encodeConstantExpression` of `const_expr.go`: three appends to the nil
slice. The constant `wasm.OpcodeEnd` is a parameter: its declaration is not part of the
sources at hand. -/
def encodeConstantExpression (OpcodeEnd : Nat) (expr : ConstantExpression) : List Nat :=
  (([] ++ [expr.Opcode]) ++ expr.Data) ++ [OpcodeEnd]

/-- A system call for examples: the name `dir` is a directory, which `unlink` refuses with
the errno 19; a file of the file system is removed with the errno 0; any other name gives
the errno 12. The errno travels as the error value. -/
def exampleSyscallUnlink (fs : List String) (name : String) : Nat × List String :=
  if name = "dir" then (19, fs)
  else if name ∈ fs then (0, fs.erase name)
  else (12, fs)

/-! ## Part I: growing the memory instance -/

/-- The constant `MemoryLimitPages`: 65536, as `TestMemoryPageConsts` asserts. -/
def MemoryLimitPages : Nat := 65536

/-- Modelled from the spec: `MemoryPagesToBytesNum` is not part of the sources at hand (only
`memory_test.go` is). As `TestMemoryPagesToBytesNum` asserts, it is the number of pages times
`MemoryPageSize`, a `uint64`. -/
def MemoryPagesToBytesNum (pages : Nat) : Nat := pages * MemoryPageSize % 2 ^ 64

/-- Modelled from the spec: `memoryBytesNumToPages` is not part of the sources at hand (only
`memory_test.go` is). As `TestMemoryBytesNumToPages` asserts, it is the number of bytes
divided by `MemoryPageSize`, a `uint32`. -/
def memoryBytesNumToPages (bytesNum : Nat) : Nat := bytesNum / MemoryPageSize % 2 ^ 32

/-- Modelled from the spec: `MemoryInstance.PageSize` is not part of the sources at hand
(only `memory_test.go` is), and the spec does not describe it: the length of the buffer in
pages. -/
def MemoryInstance.PageSize (m : MemoryInstance) : Nat := memoryBytesNumToPages m.Buffer.length

/-- Modelled from the spec: `MemoryInstance.Grow` is not part of the sources at hand (only
`memory_test.go` is), and the spec does not describe it. The model follows
`TestMemoryInstance_Grow_Size`: a growth by zero pages returns the current size; a growth
beyond `Max` fails with no change; else the buffer gets `delta` more pages and the size before
is returned. Beyond `Cap` the pages are appended and `Cap` follows; within `Cap` the buffer is
resliced, and the bytes that come into view are zero, as in the buffers the test makes. The
new number of pages is the sum of two `uint32` values, the size and `delta`, a `uint32`.
The memory after the call is the second component. -/
def MemoryInstance.Grow (m : MemoryInstance) (delta : Nat) : (Nat × Bool) × MemoryInstance :=
  let currentPages := m.PageSize
  if delta = 0 then ((currentPages, true), m)
  else
    let newPages := (currentPages + delta) % 2 ^ 32
    if newPages > m.Max then ((0, false), m)
    else if newPages > m.Cap then
      ((currentPages, true),
        ⟨m.Buffer ++ List.replicate (MemoryPagesToBytesNum delta) 0, m.Min, newPages, m.Max⟩)
    else
      ((currentPages, true),
        ⟨m.Buffer ++ List.replicate (MemoryPagesToBytesNum delta) 0, m.Min, m.Cap, m.Max⟩)

/-- A value of the Go type `float32` in the IEEE 754 single format: sign, biased exponent of
8 bits, fraction of 23 bits. Every bit pattern is a value; the NaN values keep their
payload. -/
structure float32 where
  sign : Fin 2
  exponent : Fin (2 ^ 8)
  fraction : Fin (2 ^ 23)
deriving DecidableEq

/-- A value of the Go type `float64` in the IEEE 754 double format: sign, biased exponent of
11 bits, fraction of 52 bits. -/
structure float64 where
  sign : Fin 2
  exponent : Fin (2 ^ 11)
  fraction : Fin (2 ^ 52)
deriving DecidableEq

/-- The function `math.Float32frombits` of the Go library. -/
def Float32frombits (b : Nat) : float32 :=
  ⟨⟨b / 2 ^ 31 % 2, Nat.mod_lt _ (by norm_num)⟩, ⟨b / 2 ^ 23 % 2 ^ 8, Nat.mod_lt _ (by norm_num)⟩,
    ⟨b % 2 ^ 23, Nat.mod_lt _ (by norm_num)⟩⟩

/-- The function `math.Float32bits` of the Go library. -/
def Float32bits (f : float32) : Nat :=
  f.sign.val * 2 ^ 31 + f.exponent.val * 2 ^ 23 + f.fraction.val

/-- The function `math.Float64frombits` of the Go library. -/
def Float64frombits (b : Nat) : float64 :=
  ⟨⟨b / 2 ^ 63 % 2, Nat.mod_lt _ (by norm_num)⟩,
    ⟨b / 2 ^ 52 % 2 ^ 11, Nat.mod_lt _ (by norm_num)⟩,
    ⟨b % 2 ^ 52, Nat.mod_lt _ (by norm_num)⟩⟩

/-- The function `math.Float64bits` of the Go library. -/
def Float64bits (f : float64) : Nat :=
  f.sign.val * 2 ^ 63 + f.exponent.val * 2 ^ 52 + f.fraction.val

/-- The four operation kinds of `wazeroir` that `TestCompiler_compileReinterpret` runs. -/
inductive OperationKind
  | OperationKindF32ReinterpretFromI32
  | OperationKindF64ReinterpretFromI64
  | OperationKindI32ReinterpretFromF32
  | OperationKindI64ReinterpretFromF64
deriving DecidableEq, Repr

/-- Whether the operation works on 32 bits, as the test sets `is32Bit`. -/
def OperationKind.is32Bit : OperationKind → Bool
  | .OperationKindF32ReinterpretFromI32 => true
  | .OperationKindI32ReinterpretFromF32 => true
  | _ => false

/-- The register classes of the compiler: general purpose and vector. -/
inductive registerType
  | registerTypeGeneralPurpose
  | registerTypeVector
deriving DecidableEq, Repr

/-- The register class that holds the result of the operation: vector for a float, general
purpose for an integer. -/
def OperationKind.resultRegisterType : OperationKind → registerType
  | .OperationKindF32ReinterpretFromI32 => .registerTypeVector
  | .OperationKindF64ReinterpretFromI64 => .registerTypeVector
  | _ => .registerTypeGeneralPurpose

/-- Modelled from the spec: the compiler is not part of the sources at hand (only
`compiler_conversion_test.go` is). A `runtimeValueLocation` of the value at the top of the
value stack: in its slot of the value stack in memory, or in a register of a class, which
then holds the bits. -/
inductive runtimeValueLocation
  | onStack
  | onRegister (t : registerType) (bits : Nat)
deriving DecidableEq, Repr

/-- Modelled from the spec: the compiler is not part of the sources at hand. The part of the
compiler environment of the test: the `uint64` slot of the value stack for the top value,
and the location of that value. -/
structure compilerEnvironment where
  slot : Nat
  location : runtimeValueLocation
deriving DecidableEq, Repr

/-- Modelled from the spec: the compiler is not part of the sources at hand. The set-up of
the test: with `originOnStack` the 64 bits `v` are written into the slot; else the constant
is compiled into a register, `uint32(v)` or `v` for an integer, and for a float the bits of
`math.Float32frombits(uint32(v))` or `math.Float64frombits(v)`; the slot then holds what it
held before, `old`. -/
def reinterpretOperand (kind : OperationKind) (originOnStack : Bool) (v old : Nat) :
    compilerEnvironment :=
  if originOnStack then ⟨v % 2 ^ 64, .onStack⟩
  else
    match kind with
    | .OperationKindF32ReinterpretFromI32 =>
      ⟨old, .onRegister .registerTypeGeneralPurpose (v % 2 ^ 32)⟩
    | .OperationKindF64ReinterpretFromI64 =>
      ⟨old, .onRegister .registerTypeGeneralPurpose (v % 2 ^ 64)⟩
    | .OperationKindI32ReinterpretFromF32 =>
      ⟨old, .onRegister .registerTypeVector (Float32bits (Float32frombits (v % 2 ^ 32)))⟩
    | .OperationKindI64ReinterpretFromF64 =>
      ⟨old, .onRegister .registerTypeVector (Float64bits (Float64frombits (v % 2 ^ 64)))⟩

/-- Modelled from the spec: the compiler is not part of the sources at hand. Spec 8,
"Reinterpret preservation": the code compiled for a reinterpret operation leaves a value in
its stack slot alone, only its type changes; a value in a register is moved to a register of
the class of the result with a move of 32 or of 64 bits. -/
def compileReinterpret (kind : OperationKind) (env : compilerEnvironment) :
    compilerEnvironment :=
  match env.location with
  | .onStack => env
  | .onRegister _ bits =>
    ⟨env.slot, .onRegister kind.resultRegisterType
      (if kind.is32Bit then bits % 2 ^ 32 else bits % 2 ^ 64)⟩

/-- Modelled from the spec: the compiler is not part of the sources at hand. The code
compiled by `compileReturnFunction` writes a value that lives in a register back to its
slot, the low 32 bits of the slot for a value of 32 bits and the whole slot else. -/
def compileReturnFunction (is32Bit : Bool) (env : compilerEnvironment) : compilerEnvironment :=
  match env.location with
  | .onStack => env
  | .onRegister _ bits =>
    if is32Bit then ⟨env.slot / 2 ^ 32 * 2 ^ 32 + bits % 2 ^ 32, .onStack⟩
    else ⟨bits % 2 ^ 64, .onStack⟩

/-- The method `stackTopAsUint32` of the test environment. -/
def compilerEnvironment.stackTopAsUint32 (env : compilerEnvironment) : Nat := env.slot % 2 ^ 32

/-- The method `stackTopAsUint64` of the test environment. -/
def compilerEnvironment.stackTopAsUint64 (env : compilerEnvironment) : Nat := env.slot % 2 ^ 64

/-- The kind that reinterprets back. -/
def OperationKind.inverse : OperationKind → OperationKind
  | .OperationKindF32ReinterpretFromI32 => .OperationKindI32ReinterpretFromF32
  | .OperationKindF64ReinterpretFromI64 => .OperationKindI64ReinterpretFromF64
  | .OperationKindI32ReinterpretFromF32 => .OperationKindF32ReinterpretFromI32
  | .OperationKindI64ReinterpretFromF64 => .OperationKindF64ReinterpretFromI64

/-- The values of `TestCompiler_compileReinterpret`. -/
def reinterpretTestValues : List Nat :=
  [0, 1, 1 <<< 16, 1 <<< 31, 1 <<< 32, 1 <<< 63, 2 ^ 31 - 1, 2 ^ 32 - 1, 2 ^ 64 - 1]

/-! ## Part K: closing a module while calls are in flight -/

/-- Modelled from the spec: the runtime is not part of the sources at hand. Spec 6: the errors
of a call are typed, among them `ModuleClosedError`, `ExitError(code)` and `TrapError(kind)`. -/
inductive CallError
  | ModuleClosedError
  | ExitError (code : Nat)
  | TrapError (kind : Nat)
deriving DecidableEq, Repr

/-- Modelled from the spec: the package `sys` is not part of the sources at hand. The function
`sys.NewExitError` of `requireFunctionCallExits` makes the error of an exit code, the
`ExitError(code)` of spec 6. -/
def NewExitError (exitCode : Nat) : CallError := .ExitError exitCode

/-- The two results of `api.Function.Call`: the first result value, or the error. -/
inductive CallResult
  | ok (res : Nat)
  | err (e : CallError)
deriving DecidableEq, Repr

/-- The two Go functions that the test exports as `return_input`: `blockAndReturn` of
`closeModuleWhileInUse`, which is `calls.Wait()` and then `return x`, and the function of
`closeImportedModuleWhileInUse`, which is `return x`. -/
inductive HostFunction
  | blockAndReturn
  | returnInput
deriving DecidableEq, Repr

/-- The names of the two modules of the test: `t.Name() + "-imported"` and
`t.Name() + "-importing"`. -/
inductive ModuleName
  | imported
  | importing
deriving DecidableEq, Repr

/-- Modelled from the spec: the runtime is not part of the sources at hand. A module instance
of the test: its name; the Go function behind `return_input`, which the host module exports
and to which the import of the module of `callReturnImportWasm` is linked when it is
instantiated; and whether the instance is open (`none`) or closed, with its final status, the
exit code (spec 5: the close marks the instance, and calls in flight go on). -/
structure ModuleInstance where
  Name : ModuleName
  return_input : HostFunction
  Closed : Option Nat
deriving DecidableEq, Repr

/-- One call of `call_return_input`: not yet started, inside the host function behind
`return_input` with its argument, or returned from `Call`. -/
inductive InFlightCall
  | notStarted
  | inHost (f : HostFunction) (x : Nat)
  | returned (result : CallResult)
deriving DecidableEq, Repr

/-- The state of the test `closeModuleWhileInUse` with the function
`closeImportedModuleWhileInUse`: the count `P` of goroutines; the instances of the runtime;
the variables `imported`, `importing` and `i` (handles of instances); the counter of the wait
group `calls`; the number of statements that the second function of the hammer has run
(`importing.Close`, `imported.Close`, the two instantiations, `calls.Add(-P)`); the calls of
the goroutines; and the result of the call of the last `requireFunctionCall`. -/
structure HammerState where
  P : Nat
  modules : List ModuleInstance
  imported : Nat
  importing : Nat
  i : Nat
  calls : Nat
  pc : Nat
  goroutines : List InFlightCall
  last : Option CallResult
deriving DecidableEq, Repr

/-- The instances of the runtime after `n` statements of the second function of the hammer. -/
def hammerModules : Nat → List ModuleInstance
  | 0 => [⟨.imported, .blockAndReturn, none⟩, ⟨.importing, .blockAndReturn, none⟩]
  | 1 => [⟨.imported, .blockAndReturn, none⟩, ⟨.importing, .blockAndReturn, some 0⟩]
  | 2 => [⟨.imported, .blockAndReturn, some 0⟩, ⟨.importing, .blockAndReturn, some 0⟩]
  | 3 => [⟨.imported, .blockAndReturn, some 0⟩, ⟨.importing, .blockAndReturn, some 0⟩,
          ⟨.imported, .returnInput, none⟩]
  | _ => [⟨.imported, .blockAndReturn, some 0⟩, ⟨.importing, .blockAndReturn, some 0⟩,
          ⟨.imported, .returnInput, none⟩, ⟨.importing, .returnInput, none⟩]

/-- What holds in every state the test reaches: the main goroutine is at one of its
statements and the instances and variables are those of that statement; before the close a
goroutine has not started or is in `blockAndReturn`; after it, it is in `blockAndReturn` or
has returned the exit error of the code 0, and this only after `calls.Add(-P)`; the last call
has returned 3, after all goroutines. -/
structure HammerState.Inv (P : Nat) (st : HammerState) : Prop where
  count : st.P = P
  len : st.goroutines.length = P
  pcle : st.pc ≤ 5
  modules : st.modules = hammerModules st.pc
  imported : st.imported = if 3 ≤ st.pc then 2 else 0
  importing : st.importing = if 4 ≤ st.pc then 3 else 1
  pinned : st.i = 1
  calls : st.calls = if 5 ≤ st.pc then 0 else P
  before : st.pc = 0 →
    ∀ c ∈ st.goroutines, c = .notStarted ∨ c = .inHost .blockAndReturn 3
  after : 1 ≤ st.pc →
    ∀ c ∈ st.goroutines,
      c = .inHost .blockAndReturn 3 ∨ (c = .returned (.err (NewExitError 0)) ∧ st.pc = 5)
  final : ∀ r, st.last = some r →
    r = .ok 3 ∧ st.pc = 5 ∧ ∀ c ∈ st.goroutines, c = .returned (.err (NewExitError 0))

/-- The byte offset from the start of the slice of the slot of the value `k` of the list: the
sum of the slot sizes of the values before it. -/
def slotOffset (l : List ABIArg) (k : Nat) : Int :=
  ((l.take k).map fun p => sliceSlotSize p.Typ).sum

/-- Whether an access to the slice reads or writes the byte at the offset `byte`: an access
of `bits` bits at the offset `o` covers the bytes from `o` to `o + bits / 8`, the last
excluded. An access at an offset held in a register may cover any byte. -/
def sliceAccess.touches (acc : sliceAccess) (byte : Int) : Prop :=
  match acc.offset with
  | none => True
  | some o => o ≤ byte ∧ byte < o + (acc.bits / 8 : Nat)

/-- A signature with the two context pointers, an i32 register argument and two stack
arguments, an i32 and an f64, and with an f32 register result and an i32 stack result. -/
def stagingABI : abiImpl :=
  ⟨[⟨0, .ABIArgKindReg, .x 0, 0, .TypeI64⟩, ⟨1, .ABIArgKindReg, .x 1, 0, .TypeI64⟩,
      ⟨2, .ABIArgKindReg, .x 2, 0, .TypeI32⟩, ⟨3, .ABIArgKindStack, .x 0, 0, .TypeI32⟩,
      ⟨4, .ABIArgKindStack, .x 0, 8, .TypeF64⟩],
    [⟨0, .ABIArgKindReg, .v 0, 0, .TypeF32⟩, ⟨1, .ABIArgKindStack, .x 0, 0, .TypeI32⟩],
    16, 8⟩
/-! ## Theorems -/

theorem built_allocateNop (m : machine) :
    Built m.allocateNop m.instrs.length [.nop0] := by
  refine ⟨?_, by simp, ?_, ?_⟩
  · simp [machine.allocateNop, machine.allocateInstr, machine.modify]
  · simp [machine.allocateNop, machine.allocateInstr, machine.modify]
  · intro k hk
    have hk0 : k = 0 := by simpa using hk
    subst hk0
    simp [machine.allocateNop, machine.allocateInstr, machine.modify, List.getElem?_modify,
      instruction.asNop0]

theorem built_pushLinked {mc : machine × Nat} {root : Nat} {L : List instrData}
    (h : Built mc root L) (d : instrData) :
    Built (mc.1.pushLinked mc.2 d) root (L ++ [d]) := by
  obtain ⟨m, cur⟩ := mc
  have hlen := h.len
  have hpos := h.pos
  have hcur := h.cur
  simp only at hlen hpos hcur
  refine ⟨?_, by simp, ?_, ?_⟩
  · simp [machine.pushLinked, machine.allocateInstr, machine.modify, linkInstr, hlen]
    omega
  · simp [machine.pushLinked, machine.allocateInstr, machine.modify, linkInstr, hlen]
  · intro k hk
    simp only [List.length_append, List.length_singleton] at hk
    simp only [machine.pushLinked, machine.allocateInstr, machine.modify, linkInstr,
      List.getElem?_modify, List.getElem?_append, List.length_append, List.length_singleton]
    by_cases hkL : k < L.length
    · have hnode := h.node k hkL
      simp only at hnode
      have h1 : root + k < m.instrs.length := by omega
      have h2 : ¬ (m.instrs.length = root + k) := by omega
      simp only [h1, h2, if_true, if_false, hnode, Option.map_eq_map, Option.map_some']
      by_cases hlast : k + 1 < L.length
      · have h3 : ¬ (cur = root + k) := by omega
        have h4 : k + 1 < L.length + 1 := by omega
        simp [h3, h4, hlast, List.getElem?_append_left hkL]
      · have h3 : cur = root + k := by omega
        have h4 : k + 1 < L.length + 1 := by omega
        have h5 : m.instrs.length = root + k + 1 := by omega
        simp [h3, h4, hlast, h5, List.getElem?_append_left hkL]
    · have hk2 : k = L.length := by omega
      subst hk2
      have h1 : ¬ (root + L.length < m.instrs.length) := by omega
      have h2 : m.instrs.length = root + L.length := hlen
      have h3 : ¬ (cur = root + L.length) := by omega
      have h4 : ¬ (L.length = 0) := by omega
      have h5 : cur = root + L.length - 1 := by omega
      have h6 : ¬ (root + L.length - 1 = root + L.length) := by omega
      simp [h1, h2, h3, h4, h5, h6]

theorem listFrom_none (m : machine) (fuel : Nat) : m.listFrom fuel none = [] := by
  cases fuel <;> rfl

theorem listFrom_of_built {mc : machine × Nat} {root : Nat} {L : List instrData}
    (h : Built mc root L) :
    ∀ n k fuel, L.length - k = n → k < L.length → L.length - k ≤ fuel →
      mc.1.listFrom fuel (some (root + k)) = L.drop k := by
  intro n
  induction n with
  | zero => intro k fuel h1 h2 _; omega
  | succ n ih =>
    intro k fuel h1 h2 h3
    obtain ⟨f, rfl⟩ : ∃ f, fuel = f + 1 := ⟨fuel - 1, by omega⟩
    have hnode := h.node k h2
    rw [machine.listFrom, hnode]
    simp only
    rw [List.drop_eq_getElem_cons h2]
    congr 1
    · simp [List.getElem?_eq_getElem h2]
    · by_cases hlast : k + 1 < L.length
      · simp only [hlast, if_true]
        exact ih (k + 1) f (by omega) hlast (by omega)
      · simp only [hlast, if_false, listFrom_none]
        rw [List.drop_eq_nil_of_le (by omega)]

theorem instructionsFrom_of_built {mc : machine × Nat} {root : Nat} {L : List instrData}
    (h : Built mc root L) : mc.1.instructionsFrom root = L := by
  have := listFrom_of_built h L.length 0 mc.1.instrs.length (by omega) h.pos
    (by have := h.len; omega)
  simpa [machine.instructionsFrom] using this

theorem move64_eq (m : machine) (dst src : VReg) (prev : Nat) :
    move64 m dst src prev = m.pushLinked prev (.mov64 dst src) := rfl

theorem loadOrStoreAtExecutionContext_eq (m : machine) (d : VReg) (offset : Int) (store : Bool)
    (prev : Nat) :
    loadOrStoreAtExecutionContext m d offset store prev =
      m.pushLinked prev
        (if store then
          .store d { kind := .RegUnsignedImm12, rn := savedExecutionContextPtr, imm := offset } 64
        else
          .uLoad d { kind := .RegUnsignedImm12, rn := savedExecutionContextPtr, imm := offset } 64) := by
  cases store <;> rfl

theorem built_insertPending (resolveList : List instrData) :
    ∀ {mc : machine × Nat} {root : Nat} {L : List instrData}, Built mc root L →
      Built (resolveList.foldl
        (fun (mc : machine × Nat) d =>
          let (m, instr) := mc.1.allocateInstr
          let m := m.modify instr (·.asPending d)
          linkInstr m mc.2 instr) mc) root (L ++ resolveList) := by
  induction resolveList with
  | nil => intro mc root L h; simpa using h
  | cons d ds ih =>
    intro mc root L h
    have h1 := built_pushLinked h d
    have h2 := ih h1
    simpa [List.foldl_cons, List.append_assoc] using h2

theorem built_resolveAndInsert (resolve : OffsetResolver) {mc : machine × Nat} {root : Nat}
    {L : List instrData} (h : Built mc root L) (offset : Int) (dstBits : Nat) (rn : VReg) :
    let r := resolveAddressModeForOffsetAndInsert resolve mc.1 mc.2 offset dstBits rn
    Built (r.1, r.2.1) root (L ++ (resolve offset dstBits rn).1) ∧
      r.2.2 = (resolve offset dstBits rn).2 := by
  have h2 := built_insertPending (resolve offset dstBits rn).1 h
  exact ⟨h2, rfl⟩

theorem built_goEntryPreamblePassArg (resolve : OffsetResolver) {mc : machine × Nat}
    {root : Nat} {L : List instrData} (h : Built mc root L) (paramSlicePtr : VReg)
    (arg : ABIArg) (argStart : Int) :
    Built (goEntryPreamblePassArg resolve mc.1 mc.2 paramSlicePtr arg argStart) root
      (L ++ passArgInstrs resolve paramSlicePtr argStart arg) := by
  have h1 := built_pushLinked h (argLoad paramSlicePtr arg)
  have e1 : goEntryPreamblePassArg resolve mc.1 mc.2 paramSlicePtr arg argStart =
      (let mc1 := mc.1.pushLinked mc.2 (argLoad paramSlicePtr arg)
       if arg.Kind = .ABIArgKindStack then
         let r := resolveAddressModeForOffsetAndInsert resolve mc1.1 mc1.2
           (int64 (argStart + arg.Offset)) arg.Typ.Bits spVReg
         r.1.pushLinked r.2.1 (.store (stagingReg arg) r.2.2 arg.Typ.Bits)
       else mc1) := by
    obtain ⟨idx, kind, reg, off, typ⟩ := arg
    cases kind <;> cases typ <;> rfl
  rw [e1]
  by_cases hk : arg.Kind = .ABIArgKindStack
  · simp only [hk, if_true, passArgInstrs]
    obtain ⟨h2, h3⟩ := built_resolveAndInsert resolve h1 (int64 (argStart + arg.Offset))
      arg.Typ.Bits spVReg
    have h4 := built_pushLinked h2 (.store (stagingReg arg)
      (resolve (int64 (argStart + arg.Offset)) arg.Typ.Bits spVReg).2 arg.Typ.Bits)
    simp only at h3 h4
    rw [h3]
    simpa [List.append_assoc] using h4
  · simp only [hk, if_false, passArgInstrs]
    simpa using h1

theorem built_goEntryPreamblePassResult (resolve : OffsetResolver) {mc : machine × Nat}
    {root : Nat} {L : List instrData} (h : Built mc root L) (resultSlicePtr : VReg)
    (result : ABIArg) (resultStart : Int) :
    Built (goEntryPreamblePassResult resolve mc.1 mc.2 resultSlicePtr result resultStart) root
      (L ++ passResultInstrs resolve resultSlicePtr resultStart result) := by
  have e1 : goEntryPreamblePassResult resolve mc.1 mc.2 resultSlicePtr result resultStart =
      (let mc1 :=
        if result.Kind = .ABIArgKindStack then
          let r := resolveAddressModeForOffsetAndInsert resolve mc.1 mc.2
            (int64 (resultStart + result.Offset)) result.Typ.Bits spVReg
          r.1.pushLinked r.2.1 (resultStackLoad r.2.2 result)
        else mc
       mc1.1.pushLinked mc1.2 (resultStore resultSlicePtr result)) := by
    obtain ⟨idx, kind, reg, off, typ⟩ := result
    cases kind <;> cases typ <;> rfl
  rw [e1]
  by_cases hk : result.Kind = .ABIArgKindStack
  · simp only [hk, if_true, passResultInstrs]
    obtain ⟨h2, h3⟩ := built_resolveAndInsert resolve h (int64 (resultStart + result.Offset))
      result.Typ.Bits spVReg
    have h4 := built_pushLinked h2 (resultStackLoad
      (resolve (int64 (resultStart + result.Offset)) result.Typ.Bits spVReg).2 result)
    simp only at h3 h4
    rw [h3]
    have h5 := built_pushLinked h4 (resultStore resultSlicePtr result)
    simpa [List.append_assoc] using h5
  · simp only [hk, if_false, passResultInstrs]
    simpa using built_pushLinked h (resultStore resultSlicePtr result)

theorem built_passArgsLoop (resolve : OffsetResolver) (prReg : VReg) (stackSlotSize : Int)
    (args : List ABIArg) :
    ∀ (i : Nat) {mc : machine × Nat} {root : Nat} {L : List instrData}, Built mc root L →
      Built (passArgsLoop resolve prReg stackSlotSize i args mc) root
        (L ++ (args.drop (2 - i)).flatMap
          (passArgInstrs resolve prReg (int64 (-stackSlotSize)))) := by
  induction args with
  | nil => intro i mc root L h; simpa [passArgsLoop] using h
  | cons arg rest ih =>
    intro i mc root L h
    by_cases hi : i < 2
    · have h1 := ih (i + 1) h
      have e : 2 - i = (2 - (i + 1)) + 1 := by omega
      rw [passArgsLoop, if_pos hi, e, List.drop_succ_cons]
      exact h1
    · have h1 := built_goEntryPreamblePassArg resolve h prReg arg (int64 (-stackSlotSize))
      have h2 := ih (i + 1) h1
      have e : 2 - i = 0 := by omega
      have e2 : 2 - (i + 1) = 0 := by omega
      rw [passArgsLoop, if_neg hi, e, List.drop_zero, List.flatMap_cons]
      rw [e2, List.drop_zero, List.append_assoc] at h2
      exact h2

theorem built_passResultsLoop (resolve : OffsetResolver) (resultStart : Int)
    (rets : List ABIArg) :
    ∀ {mc : machine × Nat} {root : Nat} {L : List instrData}, Built mc root L →
      Built (passResultsLoop resolve resultStart rets mc) root
        (L ++ rets.flatMap (passResultInstrs resolve paramResultSlicePtr resultStart)) := by
  induction rets with
  | nil => intro mc root L h; simpa [passResultsLoop] using h
  | cons r rest ih =>
    intro mc root L h
    have h1 := built_goEntryPreamblePassResult resolve h paramResultSlicePtr r resultStart
    have h2 := ih h1
    rw [passResultsLoop, List.flatMap_cons]
    rw [List.append_assoc] at h2
    exact h2

theorem built_move64 {mc : machine × Nat} {root : Nat} {L : List instrData}
    (h : Built mc root L) (dst src : VReg) :
    Built (move64 mc.1 dst src mc.2) root (L ++ [.mov64 dst src]) := by
  rw [move64_eq]; exact built_pushLinked h _

theorem built_loadOrStoreAtExecutionContext {mc : machine × Nat} {root : Nat}
    {L : List instrData} (h : Built mc root L) (d : VReg) (offset : Int) (store : Bool) :
    Built (loadOrStoreAtExecutionContext mc.1 d offset store mc.2) root
      (L ++ [if store then
          .store d { kind := .RegUnsignedImm12, rn := savedExecutionContextPtr, imm := offset } 64
        else
          .uLoad d { kind := .RegUnsignedImm12, rn := savedExecutionContextPtr, imm := offset } 64]) := by
  rw [loadOrStoreAtExecutionContext_eq]; exact built_pushLinked h _

theorem built_move64_if (c : Prop) [Decidable c] {mc : machine × Nat} {root : Nat}
    {L : List instrData} (h : Built mc root L) (dst src : VReg) :
    Built (if c then move64 mc.1 dst src mc.2 else mc) root
      (L ++ (if c then [.mov64 dst src] else [])) := by
  by_cases hc : c
  · rw [if_pos hc, if_pos hc]; exact built_move64 h dst src
  · rw [if_neg hc, if_neg hc, List.append_nil]; exact h

theorem constructEntryPreamble_eq (resolve : OffsetResolver) (offs : ExecutionContextOffsets)
    (m : machine) (a : abiImpl) :
    constructEntryPreamble resolve offs m a =
      (let mc0 := m.allocateNop
       let mc1 := move64 mc0.1 savedExecutionContextPtr executionContextPtrReg mc0.2
       let mc2 := loadOrStoreAtExecutionContext mc1.1 fpVReg offs.OriginalFramePointer true mc1.2
       let mc3 := move64 mc2.1 tmpRegVReg spVReg mc2.2
       let mc4 := loadOrStoreAtExecutionContext mc3.1 tmpRegVReg offs.OriginalStackPointer true mc3.2
       let mc5 := loadOrStoreAtExecutionContext mc4.1 lrVReg offs.GoReturnAddress true mc4.2
       let mc6 := move64 mc5.1 spVReg goAllocatedStackPtr mc5.2
       let mc7 := if a.args.length > 2 ∧ a.rets.length > 0 then
         move64 mc6.1 paramResultSliceCopied paramResultSlicePtr mc6.2 else mc6
       let mc8 := passArgsLoop resolve (paramCursorReg a) a.alignedArgResultStackSlotSize 0 a.args mc7
       let mc9 := mc8.1.pushLinked mc8.2 (.callIndirect functionExecutable)
       let mc10 := passResultsLoop resolve
         (int64 (a.argStackSize - a.alignedArgResultStackSlotSize)) a.rets mc9
       let mc11 := loadOrStoreAtExecutionContext mc10.1 fpVReg offs.OriginalFramePointer false mc10.2
       let mc12 := loadOrStoreAtExecutionContext mc11.1 tmpRegVReg offs.OriginalStackPointer false mc11.2
       let mc13 := move64 mc12.1 spVReg tmpRegVReg mc12.2
       let mc14 := loadOrStoreAtExecutionContext mc13.1 lrVReg offs.GoReturnAddress false mc13.2
       let mc15 := mc14.1.pushLinked mc14.2 .ret
       (mc15.1, mc0.2)) := by
  by_cases hc : a.args.length > 2 ∧ a.rets.length > 0
  · simp only [constructEntryPreamble, paramCursorReg, hc, and_self, if_true]
    rfl
  · simp only [constructEntryPreamble, paramCursorReg, hc, if_false]
    rfl

/-- The pool after `constructEntryPreamble` holds the preamble as one chain linked in order
from `root`, the pointer returned. -/
theorem built_constructEntryPreamble (resolve : OffsetResolver)
    (offs : ExecutionContextOffsets) (m : machine) (a : abiImpl) :
    ∃ cur, Built ((constructEntryPreamble resolve offs m a).1, cur)
      (constructEntryPreamble resolve offs m a).2 (entryPreambleInstrs resolve offs a) ∧
      (constructEntryPreamble resolve offs m a).2 = m.instrs.length := by
  rw [constructEntryPreamble_eq]
  have h0 := built_allocateNop m
  have h1 := built_move64 h0 savedExecutionContextPtr executionContextPtrReg
  have h2 := built_loadOrStoreAtExecutionContext h1 fpVReg offs.OriginalFramePointer true
  have h3 := built_move64 h2 tmpRegVReg spVReg
  have h4 := built_loadOrStoreAtExecutionContext h3 tmpRegVReg offs.OriginalStackPointer true
  have h5 := built_loadOrStoreAtExecutionContext h4 lrVReg offs.GoReturnAddress true
  have h6 := built_move64 h5 spVReg goAllocatedStackPtr
  have h7 := built_move64_if (a.args.length > 2 ∧ a.rets.length > 0) h6
    paramResultSliceCopied paramResultSlicePtr
  have h8 := built_passArgsLoop resolve (paramCursorReg a) a.alignedArgResultStackSlotSize
    a.args 0 h7
  have h9 := built_pushLinked h8 (.callIndirect functionExecutable)
  have h10 := built_passResultsLoop resolve
    (int64 (a.argStackSize - a.alignedArgResultStackSlotSize)) a.rets h9
  have h11 := built_loadOrStoreAtExecutionContext h10 fpVReg offs.OriginalFramePointer false
  have h12 := built_loadOrStoreAtExecutionContext h11 tmpRegVReg offs.OriginalStackPointer false
  have h13 := built_move64 h12 spVReg tmpRegVReg
  have h14 := built_loadOrStoreAtExecutionContext h13 lrVReg offs.GoReturnAddress false
  have h15 := built_pushLinked h14 .ret
  have key : ∀ (mc : machine × Nat) (L : List instrData), Built mc m.instrs.length L →
      L = entryPreambleInstrs resolve offs a →
      ∃ cur, Built (mc.1, cur) m.instrs.length (entryPreambleInstrs resolve offs a) :=
    fun mc L h e => ⟨mc.2, e ▸ h⟩
  obtain ⟨cur, hcur⟩ := key _ _ h15 (by simp [entryPreambleInstrs, List.append_assoc])
  exact ⟨cur, hcur, rfl⟩

theorem resolveAddressModeForOffset_wellBehaved :
    OffsetResolver.WellBehaved resolveAddressModeForOffset := by
  intro offset dstBits rn
  unfold resolveAddressModeForOffset
  simp only
  split_ifs <;> simp

theorem passArgInstrs_isCallIndirect {resolve : OffsetResolver} (hres : resolve.WellBehaved)
    (p : VReg) (start : Int) (arg : ABIArg) :
    ∀ d ∈ passArgInstrs resolve p start arg, d.isCallIndirect = false ∧ d.isPostIndexStore = false := by
  intro d hd
  simp only [passArgInstrs, List.mem_cons] at hd
  rcases hd with rfl | hd
  · obtain ⟨idx, kind, reg, off, typ⟩ := arg
    cases typ <;> simp [argLoad, instrData.isCallIndirect, instrData.isPostIndexStore]
  · split_ifs at hd with hk
    · obtain ⟨h1, -, h3⟩ := hres (int64 (start + arg.Offset)) arg.Typ.Bits spVReg
      simp only [List.mem_append, List.mem_singleton] at hd
      rcases hd with hd | rfl
      · obtain ⟨c, rfl⟩ := h1 d hd
        simp [instrData.isCallIndirect, instrData.isPostIndexStore]
      · rcases h3 with h3 | h3 | h3 <;>
          simp [instrData.isCallIndirect, instrData.isPostIndexStore, h3]
    · simp at hd

theorem passResultInstrs_isCallIndirect {resolve : OffsetResolver} (hres : resolve.WellBehaved)
    (p : VReg) (start : Int) (r : ABIArg) :
    ∀ d ∈ passResultInstrs resolve p start r, d.isCallIndirect = false := by
  intro d hd
  simp only [passResultInstrs, List.mem_append, List.mem_singleton] at hd
  rcases hd with hd | rfl
  · split_ifs at hd with hk
    · obtain ⟨h1, -, -⟩ := hres (int64 (start + r.Offset)) r.Typ.Bits spVReg
      simp only [List.mem_append, List.mem_singleton] at hd
      rcases hd with hd | rfl
      · obtain ⟨c, rfl⟩ := h1 d hd
        simp [instrData.isCallIndirect]
      · obtain ⟨idx, kind, reg, off, typ⟩ := r
        cases typ <;> simp [resultStackLoad, instrData.isCallIndirect]
    · simp at hd
  · simp [resultStore, instrData.isCallIndirect]

/-- C1: the instruction list built by `constructEntryPreamble`, read from the returned root
along the `next` pointers, is in this order: the nop root; mov x20, x0; the stores of FP, of
SP (through the temporary register) and of LR into the execution context; mov sp, x26; the
optional mov x25, x19; the argument-passing instructions; the indirect call through x24; the
result-passing instructions; the loads of FP, of SP (through the temporary register, then
mov sp, tmp) and of LR; and ret. With an offset resolver that inserts only constant
materialisations, the list holds exactly one indirect call and no post-index store (the
form of a result store) stands before it. -/
theorem constructEntryPreamble_order (resolve : OffsetResolver) (hres : resolve.WellBehaved)
    (offs : ExecutionContextOffsets) (m : machine) (a : abiImpl) :
    let r := constructEntryPreamble resolve offs m a
    let ctx (o : Int) : addressMode := { kind := .RegUnsignedImm12, rn := x20VReg, imm := o }
    let prologue : List instrData :=
      [ .nop0,
        .mov64 x20VReg x0VReg,
        .store fpVReg (ctx offs.OriginalFramePointer) 64,
        .mov64 tmpRegVReg spVReg,
        .store tmpRegVReg (ctx offs.OriginalStackPointer) 64,
        .store lrVReg (ctx offs.GoReturnAddress) 64,
        .mov64 spVReg x26VReg ]
      ++ (if a.args.length > 2 ∧ a.rets.length > 0 then [.mov64 x25VReg x19VReg] else [])
      ++ (a.args.drop 2).flatMap
          (passArgInstrs resolve (paramCursorReg a) (int64 (-a.alignedArgResultStackSlotSize)))
    let epilogue : List instrData :=
      a.rets.flatMap (passResultInstrs resolve x19VReg
          (int64 (a.argStackSize - a.alignedArgResultStackSlotSize)))
      ++ [ .uLoad fpVReg (ctx offs.OriginalFramePointer) 64,
           .uLoad tmpRegVReg (ctx offs.OriginalStackPointer) 64,
           .mov64 spVReg tmpRegVReg,
           .uLoad lrVReg (ctx offs.GoReturnAddress) 64,
           .ret ]
    r.1.instructionsFrom r.2 = prologue ++ [.callIndirect x24VReg] ++ epilogue ∧
      (r.1.instructionsFrom r.2).countP (·.isCallIndirect) = 1 ∧
      (∀ d ∈ prologue, d.isCallIndirect = false ∧ d.isPostIndexStore = false) ∧
      (∀ d ∈ epilogue, d.isCallIndirect = false) := by
  intro r ctx prologue epilogue
  obtain ⟨cur, hb, -⟩ := built_constructEntryPreamble resolve offs m a
  have hL : r.1.instructionsFrom r.2 = prologue ++ [.callIndirect x24VReg] ++ epilogue := by
    have := instructionsFrom_of_built hb
    simp only at this
    rw [this]
    simp [entryPreambleInstrs, prologue, epilogue, ctx, List.append_assoc,
      savedExecutionContextPtr, executionContextPtrReg, goAllocatedStackPtr,
      paramResultSliceCopied, paramResultSlicePtr, functionExecutable]
  have hpro : ∀ d ∈ prologue, d.isCallIndirect = false ∧ d.isPostIndexStore = false := by
    intro d hd
    simp only [prologue, List.mem_append, List.mem_flatMap] at hd
    rcases hd with (hd | hd) | ⟨arg, -, hd⟩
    · simp only [List.mem_cons, List.mem_singleton, List.not_mem_nil, or_false] at hd
      rcases hd with rfl | rfl | rfl | rfl | rfl | rfl | rfl <;>
        simp [instrData.isCallIndirect, instrData.isPostIndexStore, ctx]
    · split_ifs at hd
      · simp only [List.mem_singleton] at hd
        subst hd
        simp [instrData.isCallIndirect, instrData.isPostIndexStore]
      · simp at hd
    · exact passArgInstrs_isCallIndirect hres _ _ arg d hd
  have hepi : ∀ d ∈ epilogue, d.isCallIndirect = false := by
    intro d hd
    simp only [epilogue, List.mem_append, List.mem_flatMap] at hd
    rcases hd with ⟨r, -, hd⟩ | hd
    · exact passResultInstrs_isCallIndirect hres _ _ r d hd
    · simp only [List.mem_cons, List.mem_singleton, List.not_mem_nil, or_false] at hd
      rcases hd with rfl | rfl | rfl | rfl | rfl <;> simp [instrData.isCallIndirect]
  refine ⟨hL, ?_, hpro, hepi⟩
  rw [hL, List.countP_append, List.countP_append]
  have h1 : prologue.countP (·.isCallIndirect) = 0 := by
    rw [List.countP_eq_zero]
    intro d hd
    simp [(hpro d hd).1]
  have h2 : epilogue.countP (·.isCallIndirect) = 0 := by
    rw [List.countP_eq_zero]
    intro d hd
    simp [hepi d hd]
  rw [h1, h2]
  simp [instrData.isCallIndirect]

set_option maxRecDepth 100000 in
theorem constructEntryPreamble_order_witness :
    OffsetResolver.WellBehaved resolveAddressModeForOffset ∧
    (constructEntryPreamble resolveAddressModeForOffset exampleOffsets ⟨[]⟩ exampleABI).1.instructionsFrom
        (constructEntryPreamble resolveAddressModeForOffset exampleOffsets ⟨[]⟩ exampleABI).2 =
      [ .nop0, .mov64 (.x 20) (.x 0),
        .store (.x 29) ⟨.RegUnsignedImm12, .x 20, none, 16⟩ 64,
        .mov64 (.x 27) .sp,
        .store (.x 27) ⟨.RegUnsignedImm12, .x 20, none, 24⟩ 64,
        .store (.x 30) ⟨.RegUnsignedImm12, .x 20, none, 32⟩ 64,
        .mov64 .sp (.x 26),
        .mov64 (.x 25) (.x 19),
        .uLoad (.x 2) ⟨.PostIndex, .x 25, none, 8⟩ 32,
        .fpuLoad (.v 15) ⟨.PostIndex, .x 25, none, 16⟩ 128,
        .store (.v 15) ⟨.RegSignedImm9, .sp, none, -32⟩ 128,
        .callIndirect (.x 24),
        .store (.x 0) ⟨.PostIndex, .x 19, none, 8⟩ 32,
        .lowerConstantI64 (.x 27) 7999984,
        .fpuLoad (.v 15) ⟨.RegReg, .sp, some (.x 27), 0⟩ 64,
        .store (.v 15) ⟨.PostIndex, .x 19, none, 8⟩ 64,
        .uLoad (.x 29) ⟨.RegUnsignedImm12, .x 20, none, 16⟩ 64,
        .uLoad (.x 27) ⟨.RegUnsignedImm12, .x 20, none, 24⟩ 64,
        .mov64 .sp (.x 27),
        .uLoad (.x 30) ⟨.RegUnsignedImm12, .x 20, none, 32⟩ 64,
        .ret ] :=
  ⟨resolveAddressModeForOffset_wellBehaved,
    ((constructEntryPreamble_order resolveAddressModeForOffset
      resolveAddressModeForOffset_wellBehaved exampleOffsets ⟨[]⟩ exampleABI).1).trans
      (by rfl)⟩

/-! ### The accesses of the preamble to the param/result slice -/

theorem SliceState.set_none_eq {st : SliceState} {r : VReg} (h : st r = none) :
    st.set r none = st := by
  funext q
  unfold SliceState.set
  split_ifs with hq
  · rw [hq, h]
  · rfl

theorem SliceState.inv_set {st : SliceState} (h : st.Inv) {r : VReg}
    (hr : r = x19VReg ∨ r = x25VReg) (val : Option Int) : (st.set r val).Inv := by
  intro q h1 h2
  unfold SliceState.set
  have : q ≠ r := by rcases hr with rfl | rfl <;> assumption
  rw [if_neg this]
  exact h q h1 h2

theorem sliceRun_append (st : SliceState) (l1 l2 : List instrData) :
    sliceRun st (l1 ++ l2) =
      ((sliceRun (sliceRun st l1).1 l2).1, (sliceRun st l1).2 ++ (sliceRun (sliceRun st l1).1 l2).2) := by
  induction l1 generalizing st with
  | nil => simp [sliceRun]
  | cons d ds ih => simp [sliceRun, ih, List.append_assoc]

theorem stagingReg_ne {arg : ABIArg} (h : arg.RegOK) :
    stagingReg arg ≠ x19VReg ∧ stagingReg arg ≠ x25VReg := by
  obtain ⟨idx, kind, reg, off, typ⟩ := arg
  cases kind
  · have h1 : isArgResultReg reg = true := h rfl
    cases reg with
    | x n =>
      have : n < 8 := by simpa [isArgResultReg] using h1
      constructor <;> simp [stagingReg, x19VReg, x25VReg] <;> omega
    | v n => constructor <;> simp [stagingReg, x19VReg, x25VReg]
    | sp => simp [isArgResultReg] at h1
  · cases typ <;> constructor <;> simp [stagingReg, x19VReg, x25VReg, x15VReg, v15VReg]

theorem stagingReg_stack_ne {arg : ABIArg} (h : arg.Kind = .ABIArgKindStack) :
    stagingReg arg ≠ x19VReg ∧ stagingReg arg ≠ x25VReg := by
  apply stagingReg_ne
  intro hk
  rw [h] at hk
  cases hk

theorem sliceRun_pending {l : List instrData}
    (hl : ∀ d ∈ l, ∃ c, d = .lowerConstantI64 tmpRegVReg c) {st : SliceState} (h : st.Inv) :
    sliceRun st l = (st, []) := by
  induction l with
  | nil => rfl
  | cons d ds ih =>
    obtain ⟨c, rfl⟩ := hl _ (List.mem_cons_self _ _)
    have h1 : st tmpRegVReg = none := h _ (by simp [tmpRegVReg, x19VReg]) (by simp [tmpRegVReg, x25VReg])
    simp only [sliceRun, sliceStep, SliceState.set_none_eq h1]
    rw [ih (fun d hd => hl d (List.mem_cons_of_mem _ hd))]
    rfl

theorem accessThrough_sp {resolve : OffsetResolver} (hres : resolve.WellBehaved)
    {st : SliceState} (h : st.Inv) (offset : Int) (bits : Nat) (isStore : Bool) (b : Nat)
    (reg : VReg) :
    accessThrough st (resolve offset bits spVReg).2 isStore b reg = [] ∧
      writeBack st (resolve offset bits spVReg).2 = st := by
  obtain ⟨-, h2, h3⟩ := hres offset bits spVReg
  have hsp : st spVReg = none := h _ (by simp [spVReg, x19VReg]) (by simp [spVReg, x25VReg])
  constructor
  · simp [accessThrough, h2, hsp]
  · rcases h3 with h3 | h3 | h3 <;> simp [writeBack, h3]

theorem sliceStep_argLoad {st : SliceState} {c : VReg} {d : Int} (hc : st c = some d)
    (arg : ABIArg) (hne : stagingReg arg ≠ c) :
    sliceStep st (argLoad c arg) =
      ((st.set c (some (d + sliceSlotSize arg.Typ))).set (stagingReg arg) none,
        [⟨false, some d, arg.Typ.Bits, stagingReg arg⟩]) := by
  obtain ⟨idx, kind, reg, off, typ⟩ := arg
  cases typ <;>
    simp [argLoad, sliceStep, writeBack, accessThrough, hc, ssaType.Bits]

theorem sliceRun_passArgInstrs {resolve : OffsetResolver} (hres : resolve.WellBehaved)
    {st : SliceState} (h : st.Inv) {c : VReg} (hcr : c = x19VReg ∨ c = x25VReg) {d : Int}
    (hc : st c = some d) (start : Int) (arg : ABIArg) (hreg : arg.RegOK) :
    sliceRun st (passArgInstrs resolve c start arg) =
      (st.set c (some (d + sliceSlotSize arg.Typ)),
        [⟨false, some d, arg.Typ.Bits, stagingReg arg⟩]) := by
  have hne := stagingReg_ne hreg
  have hne2 : stagingReg arg ≠ c := by rcases hcr with rfl | rfl <;> simp [hne.1, hne.2]
  have hinv : (st.set c (some (d + sliceSlotSize arg.Typ))).Inv := SliceState.inv_set h hcr _
  have hnone : (st.set c (some (d + sliceSlotSize arg.Typ))) (stagingReg arg) = none :=
    hinv _ hne.1 hne.2
  unfold passArgInstrs
  rw [sliceRun, sliceStep_argLoad hc arg hne2, SliceState.set_none_eq hnone]
  split_ifs with hk
  · simp only
    rw [sliceRun_append, sliceRun_pending (hres _ _ _).1 hinv]
    obtain ⟨ha, hw⟩ := accessThrough_sp hres hinv (int64 (start + arg.Offset)) arg.Typ.Bits
      true arg.Typ.Bits (stagingReg arg)
    simp [sliceRun, sliceStep, ha, hw]
  · simp [sliceRun]

theorem sliceRun_passArgs {resolve : OffsetResolver} (hres : resolve.WellBehaved) {c : VReg}
    (hcr : c = x19VReg ∨ c = x25VReg) (start : Int) (l : List ABIArg) :
    ∀ {st : SliceState} {d : Int}, st.Inv → st c = some d → (∀ arg ∈ l, arg.RegOK) →
      sliceRun st (l.flatMap (passArgInstrs resolve c start)) =
        (st.set c (some (d + (l.map fun p => sliceSlotSize p.Typ).sum)),
          sliceLayoutFrom false d l) := by
  induction l with
  | nil =>
    intro st d _ hc _
    have : st.set c (some d) = st := by
      funext q; unfold SliceState.set; split_ifs with hq
      · rw [hq, hc]
      · rfl
    simp [sliceRun, sliceLayoutFrom, this]
  | cons arg rest ih =>
    intro st d h hc hreg
    have h1 := sliceRun_passArgInstrs hres h hcr hc start arg (hreg arg (List.mem_cons_self _ _))
    have hinv : (st.set c (some (d + sliceSlotSize arg.Typ))).Inv := SliceState.inv_set h hcr _
    have hc2 : (st.set c (some (d + sliceSlotSize arg.Typ))) c = some (d + sliceSlotSize arg.Typ) := by
      simp [SliceState.set]
    have h2 := ih hinv hc2 (fun a ha => hreg a (List.mem_cons_of_mem _ ha))
    rw [List.flatMap_cons, sliceRun_append, h1]
    simp only [h2, sliceLayoutFrom, List.map_cons, List.sum_cons, List.singleton_append]
    congr 1
    funext q
    unfold SliceState.set
    split_ifs <;> simp [add_assoc]

theorem sliceLayout_enumFrom (isStore : Bool) (rest : List ABIArg) :
    ∀ pre : List ABIArg,
      ((rest.enumFrom pre.length).map fun kp =>
        (⟨isStore, some ((((pre ++ rest).take kp.1).map fun p => sliceSlotSize p.Typ).sum),
          kp.2.Typ.Bits, stagingReg kp.2⟩ : sliceAccess)) =
      sliceLayoutFrom isStore ((pre.map fun p => sliceSlotSize p.Typ).sum) rest := by
  induction rest with
  | nil => intro pre; simp [sliceLayoutFrom]
  | cons p rest ih =>
    intro pre
    have h := ih (pre ++ [p])
    simp only [List.length_append, List.length_singleton, List.append_assoc,
      List.singleton_append, List.map_append, List.sum_append, List.map_cons, List.map_nil,
      List.sum_cons, List.sum_nil, add_zero] at h
    simp only [List.enumFrom_cons, List.map_cons, sliceLayoutFrom, List.take_left']
    rw [h]

theorem sliceLayout_eq (isStore : Bool) (l : List ABIArg) :
    sliceLayout isStore l = sliceLayoutFrom isStore 0 l := by
  have := sliceLayout_enumFrom isStore l []
  simpa [sliceLayout, List.enum] using this

theorem sliceStep_mov64_none {st : SliceState} {rd rn : VReg} (h1 : st rn = none)
    (h2 : st rd = none) : sliceStep st (.mov64 rd rn) = (st, []) := by
  simp only [sliceStep, h1, SliceState.set_none_eq h2]

theorem sliceStep_ctx_store {st : SliceState} (h : st.Inv) (r : VReg) (o : Int) :
    sliceStep st
      (.store r { kind := .RegUnsignedImm12, rn := savedExecutionContextPtr, imm := o } 64) =
      (st, []) := by
  have h1 : st savedExecutionContextPtr = none :=
    h _ (by simp [savedExecutionContextPtr, x20VReg, x19VReg])
      (by simp [savedExecutionContextPtr, x20VReg, x25VReg])
  simp [sliceStep, writeBack, accessThrough, h1]

theorem sliceStep_ctx_load {st : SliceState} (h : st.Inv) (r : VReg) (o : Int)
    (hr1 : r ≠ x19VReg) (hr2 : r ≠ x25VReg) :
    sliceStep st
      (.uLoad r { kind := .RegUnsignedImm12, rn := savedExecutionContextPtr, imm := o } 64) =
      (st, []) := by
  have h1 : st savedExecutionContextPtr = none :=
    h _ (by simp [savedExecutionContextPtr, x20VReg, x19VReg])
      (by simp [savedExecutionContextPtr, x20VReg, x25VReg])
  simp [sliceStep, writeBack, accessThrough, h1, SliceState.set_none_eq (h r hr1 hr2)]

theorem sliceStep_call {st : SliceState} (h : st.Inv) (p : VReg) :
    sliceStep st (.callIndirect p) = (st, []) := by
  simp only [sliceStep, Prod.mk.injEq, and_true]
  funext r
  split_ifs with hr
  · rfl
  · symm
    apply h <;> intro e <;> subst e <;> simp [isCalleeSaved, x19VReg, x25VReg] at hr

theorem sliceRun_cons_skip {st : SliceState} {d : instrData} (h : sliceStep st d = (st, []))
    (ds : List instrData) : sliceRun st (d :: ds) = sliceRun st ds := by
  simp [sliceRun, h]

theorem initialSliceState_inv : initialSliceState.Inv := by
  intro r h1 _
  simp [initialSliceState, paramResultSlicePtr, h1]

theorem sliceRun_passResultInstrs {resolve : OffsetResolver} (hres : resolve.WellBehaved)
    {st : SliceState} (h : st.Inv) {d : Int} (hc : st x19VReg = some d) (start : Int)
    (r : ABIArg) :
    sliceRun st (passResultInstrs resolve x19VReg start r) =
      (st.set x19VReg (some (d + sliceSlotSize r.Typ)),
        [⟨true, some d, r.Typ.Bits, stagingReg r⟩]) := by
  have hstore : sliceStep st (resultStore x19VReg r) =
      (st.set x19VReg (some (d + sliceSlotSize r.Typ)),
        [⟨true, some d, r.Typ.Bits, stagingReg r⟩]) := by
    simp [resultStore, sliceStep, writeBack, accessThrough, hc]
  unfold passResultInstrs
  split_ifs with hk
  · have hne := stagingReg_stack_ne hk
    have hnone : st (stagingReg r) = none := h _ hne.1 hne.2
    obtain ⟨ha, hw⟩ := accessThrough_sp hres h (int64 (start + r.Offset)) r.Typ.Bits
      false r.Typ.Bits (stagingReg r)
    have hload : sliceStep st (resultStackLoad
        (resolve (int64 (start + r.Offset)) r.Typ.Bits spVReg).2 r) = (st, []) := by
      obtain ⟨idx, kind, reg, off, typ⟩ := r
      cases typ <;>
        simp only [resultStackLoad, sliceStep, ha, hw, SliceState.set_none_eq hnone]
    simp only
    rw [sliceRun_append, sliceRun_append, sliceRun_pending (hres _ _ _).1 h]
    simp [sliceRun, hload, hstore]
  · simp [sliceRun, hstore]

theorem sliceRun_passResults {resolve : OffsetResolver} (hres : resolve.WellBehaved)
    (start : Int) (l : List ABIArg) :
    ∀ {st : SliceState} {d : Int}, st.Inv → st x19VReg = some d →
      (sliceRun st (l.flatMap (passResultInstrs resolve x19VReg start))).1.Inv ∧
      (sliceRun st (l.flatMap (passResultInstrs resolve x19VReg start))).2 =
          sliceLayoutFrom true d l := by
  induction l with
  | nil => intro st d h _; simpa [sliceRun, sliceLayoutFrom] using h
  | cons r rest ih =>
    intro st d h hc
    have h1 := sliceRun_passResultInstrs hres h hc start r
    have hinv : (st.set x19VReg (some (d + sliceSlotSize r.Typ))).Inv :=
      SliceState.inv_set h (Or.inl rfl) _
    have hc2 : (st.set x19VReg (some (d + sliceSlotSize r.Typ))) x19VReg =
        some (d + sliceSlotSize r.Typ) := by
      simp [SliceState.set]
    have h2 := ih hinv hc2
    rw [List.flatMap_cons, sliceRun_append, h1]
    exact ⟨h2.1, by simp [h2.2, sliceLayoutFrom]⟩

theorem entryPreambleInstrs_eq (resolve : OffsetResolver) (offs : ExecutionContextOffsets)
    (a : abiImpl) :
    entryPreambleInstrs resolve offs a =
      preambleBeforeCall resolve offs a ++ .callIndirect functionExecutable ::
        preambleAfterCall resolve offs a := by
  simp [entryPreambleInstrs, preambleBeforeCall, preambleAfterCall, List.append_assoc]

/-- The state and the accesses after the instructions before the call: the cursor register
has advanced over the parameters, one load each. -/
theorem sliceRun_preambleBeforeCall {resolve : OffsetResolver} (hres : resolve.WellBehaved)
    (offs : ExecutionContextOffsets) (a : abiImpl) (hregs : ∀ arg ∈ a.args, arg.RegOK) :
    (sliceRun initialSliceState (preambleBeforeCall resolve offs a)).1.Inv ∧
    ((0 < a.rets.length) →
      (sliceRun initialSliceState (preambleBeforeCall resolve offs a)).1 x19VReg = some 0) ∧
    (∃ d, (sliceRun initialSliceState (preambleBeforeCall resolve offs a)).1 x19VReg = some d) ∧
    (sliceRun initialSliceState (preambleBeforeCall resolve offs a)).2 =
      sliceLayoutFrom false 0 (a.args.drop 2) := by
  have hi := initialSliceState_inv
  have hx19 : initialSliceState x19VReg = some 0 := by simp [initialSliceState, paramResultSlicePtr]
  have hx19' : initialSliceState (VReg.x 19) = some 0 := hx19
  have hn : ∀ r, r ≠ x19VReg → r ≠ x25VReg → initialSliceState r = none := hi
  have e7 : ∀ rest, sliceRun initialSliceState
      ([ .nop0,
        .mov64 savedExecutionContextPtr executionContextPtrReg,
        .store fpVReg ⟨.RegUnsignedImm12, savedExecutionContextPtr, none, offs.OriginalFramePointer⟩ 64,
        .mov64 tmpRegVReg spVReg,
        .store tmpRegVReg ⟨.RegUnsignedImm12, savedExecutionContextPtr, none, offs.OriginalStackPointer⟩ 64,
        .store lrVReg ⟨.RegUnsignedImm12, savedExecutionContextPtr, none, offs.GoReturnAddress⟩ 64,
        .mov64 spVReg goAllocatedStackPtr ] ++ rest) = sliceRun initialSliceState rest := by
    intro rest
    have m1 : sliceStep initialSliceState (.mov64 savedExecutionContextPtr executionContextPtrReg) =
        (initialSliceState, []) := sliceStep_mov64_none (hn _ (by decide) (by decide)) (hn _ (by decide) (by decide))
    have m2 : sliceStep initialSliceState (.mov64 tmpRegVReg spVReg) =
        (initialSliceState, []) := sliceStep_mov64_none (hn _ (by decide) (by decide)) (hn _ (by decide) (by decide))
    have m3 : sliceStep initialSliceState (.mov64 spVReg goAllocatedStackPtr) =
        (initialSliceState, []) := sliceStep_mov64_none (hn _ (by decide) (by decide)) (hn _ (by decide) (by decide))
    have m0 : sliceStep initialSliceState .nop0 = (initialSliceState, []) := rfl
    simp only [List.cons_append, List.nil_append]
    rw [sliceRun_cons_skip m0, sliceRun_cons_skip m1, sliceRun_cons_skip (sliceStep_ctx_store hi _ _),
      sliceRun_cons_skip m2, sliceRun_cons_skip (sliceStep_ctx_store hi _ _),
      sliceRun_cons_skip (sliceStep_ctx_store hi _ _), sliceRun_cons_skip m3]
  unfold preambleBeforeCall
  simp only
  rw [e7]
  by_cases hc : a.args.length > 2 ∧ a.rets.length > 0
  · have hcur : paramCursorReg a = x25VReg := by simp [paramCursorReg, hc, paramResultSliceCopied]
    rw [if_pos hc, hcur, List.singleton_append, sliceRun]
    have hst : sliceStep initialSliceState (.mov64 paramResultSliceCopied paramResultSlicePtr) =
        (initialSliceState.set x25VReg (some 0), []) := by
      simp [sliceStep, paramResultSliceCopied, paramResultSlicePtr, hx19]
    have hinv1 : (initialSliceState.set x25VReg (some 0)).Inv := SliceState.inv_set hi (Or.inr rfl) _
    have hc1 : (initialSliceState.set x25VReg (some 0)) x25VReg = some 0 := by simp [SliceState.set]
    have hrun := sliceRun_passArgs hres (Or.inr rfl) (int64 (-a.alignedArgResultStackSlotSize))
      (a.args.drop 2) hinv1 hc1 (fun arg harg => hregs arg (List.mem_of_mem_drop harg))
    rw [hst]
    simp only [hrun, List.nil_append]
    refine ⟨SliceState.inv_set hinv1 (Or.inr rfl) _, ?_, ?_, by simp⟩
    · intro _; simp [SliceState.set, x19VReg, x25VReg, hx19']
    · exact ⟨0, by simp [SliceState.set, x19VReg, x25VReg, hx19']⟩
  · have hcur : paramCursorReg a = x19VReg := by simp [paramCursorReg, hc, paramResultSlicePtr]
    rw [if_neg hc, hcur, List.nil_append]
    have hrun := sliceRun_passArgs hres (Or.inl rfl) (int64 (-a.alignedArgResultStackSlotSize))
      (a.args.drop 2) hi hx19 (fun arg harg => hregs arg (List.mem_of_mem_drop harg))
    simp only [hrun]
    refine ⟨SliceState.inv_set hi (Or.inl rfl) _, ?_, ?_, by simp⟩
    · intro hr
      have hlen : a.args.length ≤ 2 := by
        by_contra hcon
        exact hc ⟨by omega, hr⟩
      have : a.args.drop 2 = [] := List.drop_eq_nil_of_le hlen
      simp [this, SliceState.set]
    · exact ⟨0 + ((a.args.drop 2).map fun p => sliceSlotSize p.Typ).sum, by simp [SliceState.set]⟩

/-- The list read from the root that `constructEntryPreamble` returns. -/
theorem constructEntryPreamble_instructions (resolve : OffsetResolver)
    (offs : ExecutionContextOffsets) (m : machine) (a : abiImpl) :
    (constructEntryPreamble resolve offs m a).1.instructionsFrom
        (constructEntryPreamble resolve offs m a).2 =
      preambleBeforeCall resolve offs a ++ .callIndirect functionExecutable ::
        preambleAfterCall resolve offs a := by
  obtain ⟨cur, hb, -⟩ := built_constructEntryPreamble resolve offs m a
  have := instructionsFrom_of_built hb
  simp only at this
  rw [this, entryPreambleInstrs_eq]

theorem preambleBeforeCall_noCall {resolve : OffsetResolver} (hres : resolve.WellBehaved)
    (offs : ExecutionContextOffsets) (a : abiImpl) :
    ∀ d ∈ preambleBeforeCall resolve offs a,
      d.isCallIndirect = false ∧ d.isPostIndexStore = false := by
  intro d hd
  simp only [preambleBeforeCall, List.mem_append, List.mem_flatMap] at hd
  rcases hd with hd | hd | ⟨arg, -, hd⟩
  · simp only [List.mem_cons, List.mem_singleton, List.not_mem_nil, or_false] at hd
    rcases hd with rfl | rfl | rfl | rfl | rfl | rfl | rfl <;>
      simp [instrData.isCallIndirect, instrData.isPostIndexStore]
  · split_ifs at hd
    · simp only [List.mem_singleton] at hd
      subst hd
      simp [instrData.isCallIndirect, instrData.isPostIndexStore]
    · simp at hd
  · exact passArgInstrs_isCallIndirect hres _ _ arg d hd

theorem beforeCall_append_call (pre post : List instrData) (p : VReg)
    (h : ∀ d ∈ pre, d.isCallIndirect = false) :
    beforeCall (pre ++ .callIndirect p :: post) = pre := by
  induction pre with
  | nil => simp [beforeCall, instrData.isCallIndirect]
  | cons d ds ih =>
    have h1 := h d (List.mem_cons_self _ _)
    have h2 := ih (fun x hx => h x (List.mem_cons_of_mem _ hx))
    simp only [beforeCall] at h2 ⊢
    simp [List.takeWhile_cons, h1, h2]

theorem filter_isPostIndexLoad_passArgInstrs {resolve : OffsetResolver}
    (hres : resolve.WellBehaved) (c : VReg) (start : Int) (arg : ABIArg) :
    (passArgInstrs resolve c start arg).filter (·.isPostIndexLoad) = [argLoad c arg] := by
  have h1 : (argLoad c arg).isPostIndexLoad = true := by
    obtain ⟨idx, kind, reg, off, typ⟩ := arg
    cases typ <;> simp [argLoad, instrData.isPostIndexLoad]
  have h2 : ∀ o b, (resolve o b spVReg).1.filter (·.isPostIndexLoad) = [] := by
    intro o b
    rw [List.filter_eq_nil_iff]
    intro d hd
    obtain ⟨c, rfl⟩ := (hres o b spVReg).1 d hd
    simp [instrData.isPostIndexLoad]
  unfold passArgInstrs
  rw [List.filter_cons_of_pos h1]
  split_ifs with hk
  · simp [List.filter_append, h2, instrData.isPostIndexLoad]
  · simp

theorem filter_isPostIndexLoad_passResultInstrs {resolve : OffsetResolver}
    (hres : resolve.WellBehaved) (c : VReg) (start : Int) (r : ABIArg) :
    (passResultInstrs resolve c start r).filter (·.isPostIndexLoad) = [] := by
  rw [List.filter_eq_nil_iff]
  intro d hd
  simp only [passResultInstrs, List.mem_append, List.mem_singleton] at hd
  rcases hd with hd | rfl
  · split_ifs at hd with hk
    · obtain ⟨h1, -, h3⟩ := hres (int64 (start + r.Offset)) r.Typ.Bits spVReg
      simp only [List.mem_append, List.mem_singleton] at hd
      rcases hd with hd | rfl
      · obtain ⟨c, rfl⟩ := h1 d hd
        simp [instrData.isPostIndexLoad]
      · obtain ⟨idx, kind, reg, off, typ⟩ := r
        cases typ <;> rcases h3 with h3 | h3 | h3 <;>
          simp [resultStackLoad, instrData.isPostIndexLoad, h3]
    · simp at hd
  · simp [resultStore, instrData.isPostIndexLoad]

theorem filter_isPostIndexStore_passArgInstrs {resolve : OffsetResolver}
    (hres : resolve.WellBehaved) (c : VReg) (start : Int) (arg : ABIArg) :
    (passArgInstrs resolve c start arg).filter (·.isPostIndexStore) = [] := by
  rw [List.filter_eq_nil_iff]
  intro d hd
  simp [(passArgInstrs_isCallIndirect hres c start arg d hd).2]

theorem filter_isPostIndexStore_passResultInstrs {resolve : OffsetResolver}
    (hres : resolve.WellBehaved) (c : VReg) (start : Int) (r : ABIArg) :
    (passResultInstrs resolve c start r).filter (·.isPostIndexStore) = [resultStore c r] := by
  have h1 : (resultStore c r).isPostIndexStore = true := by
    simp [resultStore, instrData.isPostIndexStore]
  have h2 : ∀ o b, (resolve o b spVReg).1.filter (·.isPostIndexStore) = [] := by
    intro o b
    rw [List.filter_eq_nil_iff]
    intro d hd
    obtain ⟨c, rfl⟩ := (hres o b spVReg).1 d hd
    simp [instrData.isPostIndexStore]
  have h3 : ∀ mode, (resultStackLoad mode r).isPostIndexStore = false := by
    intro mode
    obtain ⟨idx, kind, reg, off, typ⟩ := r
    cases typ <;> simp [resultStackLoad, instrData.isPostIndexStore]
  unfold passResultInstrs
  split_ifs with hk
  · simp [List.filter_append, h2, h3, h1]
  · simp [h1]

theorem filter_flatMap_eq_map {α : Type} (p : instrData → Bool) (f : α → List instrData)
    (g : α → instrData) (l : List α) (h : ∀ x, (f x).filter p = [g x]) :
    (l.flatMap f).filter p = l.map g := by
  induction l with
  | nil => rfl
  | cons x xs ih => simp [List.flatMap_cons, List.filter_append, h, ih]

theorem filter_flatMap_eq_nil {α : Type} (p : instrData → Bool) (f : α → List instrData)
    (l : List α) (h : ∀ x, (f x).filter p = []) :
    (l.flatMap f).filter p = [] := by
  induction l with
  | nil => rfl
  | cons x xs ih => simp [List.flatMap_cons, List.filter_append, h, ih]

theorem filter_isPostIndexLoad_preamble {resolve : OffsetResolver} (hres : resolve.WellBehaved)
    (offs : ExecutionContextOffsets) (a : abiImpl) :
    (preambleBeforeCall resolve offs a ++ .callIndirect functionExecutable ::
        preambleAfterCall resolve offs a).filter (·.isPostIndexLoad) =
      (a.args.drop 2).map (argLoad (paramCursorReg a)) := by
  have h1 := filter_flatMap_eq_map (·.isPostIndexLoad)
    (passArgInstrs resolve (paramCursorReg a) (int64 (-a.alignedArgResultStackSlotSize)))
    (argLoad (paramCursorReg a)) (a.args.drop 2)
    (fun x => filter_isPostIndexLoad_passArgInstrs hres _ _ x)
  have h2 := filter_flatMap_eq_nil (·.isPostIndexLoad)
    (passResultInstrs resolve paramResultSlicePtr
      (int64 (a.argStackSize - a.alignedArgResultStackSlotSize))) a.rets
    (fun x => filter_isPostIndexLoad_passResultInstrs hres _ _ x)
  have h3 : (if a.args.length > 2 ∧ a.rets.length > 0 then
      [instrData.mov64 paramResultSliceCopied paramResultSlicePtr] else []).filter
      (·.isPostIndexLoad) = [] := by
    split_ifs <;> simp [instrData.isPostIndexLoad]
  simp only [preambleBeforeCall, preambleAfterCall, List.filter_append, List.filter_cons, h1,
    h2, h3]
  simp [instrData.isPostIndexLoad]

theorem filter_isPostIndexStore_preamble {resolve : OffsetResolver} (hres : resolve.WellBehaved)
    (offs : ExecutionContextOffsets) (a : abiImpl) :
    (preambleBeforeCall resolve offs a ++ .callIndirect functionExecutable ::
        preambleAfterCall resolve offs a).filter (·.isPostIndexStore) =
      a.rets.map (resultStore paramResultSlicePtr) := by
  have h1 := filter_flatMap_eq_nil (·.isPostIndexStore)
    (passArgInstrs resolve (paramCursorReg a) (int64 (-a.alignedArgResultStackSlotSize)))
    (a.args.drop 2) (fun x => filter_isPostIndexStore_passArgInstrs hres _ _ x)
  have h2 := filter_flatMap_eq_map (·.isPostIndexStore)
    (passResultInstrs resolve paramResultSlicePtr
      (int64 (a.argStackSize - a.alignedArgResultStackSlotSize)))
    (resultStore paramResultSlicePtr) a.rets
    (fun x => filter_isPostIndexStore_passResultInstrs hres _ _ x)
  have h3 : (if a.args.length > 2 ∧ a.rets.length > 0 then
      [instrData.mov64 paramResultSliceCopied paramResultSlicePtr] else []).filter
      (·.isPostIndexStore) = [] := by
    split_ifs <;> simp [instrData.isPostIndexStore]
  simp only [preambleBeforeCall, preambleAfterCall, List.filter_append, List.filter_cons, h1,
    h2, h3]
  simp [instrData.isPostIndexStore]

theorem exampleABI_regOK : ∀ arg ∈ exampleABI.args, arg.RegOK := by
  intro arg h
  simp only [exampleABI, List.mem_cons, List.mem_singleton, List.not_mem_nil, or_false] at h
  rcases h with rfl | rfl | rfl | rfl <;> simp [ABIArg.RegOK, isArgResultReg]

/-- C2: for ABI arguments a[0..n) the preamble loads nothing from the param slice for a[0]
and a[1], and for each a[i] with i >= 2, in increasing i, exactly one post-index load whose
base is the cursor register and whose increment is 16 for V128 and 8 otherwise; run from the
entry state, the instructions before the call read a[i] at the byte offset that is the sum of
these increments over 2 <= j < i, and make no other access to the slice. -/
theorem constructEntryPreamble_param_loads (resolve : OffsetResolver)
    (hres : resolve.WellBehaved) (offs : ExecutionContextOffsets) (m : machine) (a : abiImpl)
    (hregs : ∀ arg ∈ a.args, arg.RegOK) :
    let r := constructEntryPreamble resolve offs m a
    let L := r.1.instructionsFrom r.2
    let params := a.args.drop 2
    let cursor := if a.args.length > 2 ∧ a.rets.length > 0 then x25VReg else x19VReg
    L.filter (·.isPostIndexLoad) =
        params.map (fun p =>
          let mode : addressMode :=
            { kind := .PostIndex, rn := cursor, imm := if p.Typ = .TypeV128 then 16 else 8 }
          match p.Typ with
          | .TypeI32 | .TypeI64 => instrData.uLoad (stagingReg p) mode p.Typ.Bits
          | .TypeF32 | .TypeF64 | .TypeV128 => instrData.fpuLoad (stagingReg p) mode p.Typ.Bits) ∧
      (sliceRun initialSliceState (beforeCall L)).2 =
        params.enum.map (fun kp =>
          { isStore := false,
            offset := some (((params.take kp.1).map fun p =>
              if p.Typ = .TypeV128 then (16 : Int) else 8).sum),
            bits := kp.2.Typ.Bits,
            reg := stagingReg kp.2 }) := by
  intro r L params cursor
  have hL : L = preambleBeforeCall resolve offs a ++ .callIndirect functionExecutable ::
      preambleAfterCall resolve offs a := constructEntryPreamble_instructions resolve offs m a
  have hcur : paramCursorReg a = cursor := by
    simp only [paramCursorReg, cursor, paramResultSliceCopied, paramResultSlicePtr]
  constructor
  · rw [hL, filter_isPostIndexLoad_preamble hres, hcur]
    apply List.map_congr_left
    intro p _
    obtain ⟨idx, kind, reg, off, typ⟩ := p
    cases typ <;> simp [argLoad, sliceSlotSize, ssaType.Bits]
  · rw [hL, beforeCall_append_call _ _ _ (fun d hd => (preambleBeforeCall_noCall hres offs a d hd).1),
      (sliceRun_preambleBeforeCall hres offs a hregs).2.2.2, ← sliceLayout_eq]
    rfl

set_option maxRecDepth 100000 in
/-- The parameter loads of the example signature: an i32 at offset 0 and a v128 at offset 8. -/
theorem constructEntryPreamble_param_loads_witness :
    OffsetResolver.WellBehaved resolveAddressModeForOffset ∧
    (∀ arg ∈ exampleABI.args, arg.RegOK) ∧
    ((constructEntryPreamble resolveAddressModeForOffset exampleOffsets ⟨[]⟩
          exampleABI).1.instructionsFrom
        (constructEntryPreamble resolveAddressModeForOffset exampleOffsets ⟨[]⟩
          exampleABI).2).filter (·.isPostIndexLoad) =
      [ .uLoad (.x 2) ⟨.PostIndex, .x 25, none, 8⟩ 32,
        .fpuLoad (.v 15) ⟨.PostIndex, .x 25, none, 16⟩ 128 ] ∧
    (sliceRun initialSliceState (beforeCall
      ((constructEntryPreamble resolveAddressModeForOffset exampleOffsets ⟨[]⟩
          exampleABI).1.instructionsFrom
        (constructEntryPreamble resolveAddressModeForOffset exampleOffsets ⟨[]⟩
          exampleABI).2))).2 =
      [ ⟨false, some 0, 32, .x 2⟩, ⟨false, some 8, 128, .v 15⟩ ] :=
  ⟨resolveAddressModeForOffset_wellBehaved, exampleABI_regOK,
    (constructEntryPreamble_param_loads resolveAddressModeForOffset
      resolveAddressModeForOffset_wellBehaved exampleOffsets ⟨[]⟩ exampleABI
      exampleABI_regOK).1.trans (by rfl),
    (constructEntryPreamble_param_loads resolveAddressModeForOffset
      resolveAddressModeForOffset_wellBehaved exampleOffsets ⟨[]⟩ exampleABI
      exampleABI_regOK).2.trans (by rfl)⟩

theorem passArgInstrs_props {resolve : OffsetResolver} (hres : resolve.WellBehaved)
    (c : VReg) (hc : c ≠ x19VReg) (start : Int) (arg : ABIArg) (hreg : arg.RegOK) :
    ∀ d ∈ passArgInstrs resolve c start arg, x19VReg ∉ d.defs ∧ d.isMov64 = false := by
  intro d hd
  have hne := (stagingReg_ne hreg).1
  simp only [passArgInstrs, List.mem_cons] at hd
  rcases hd with rfl | hd
  · obtain ⟨idx, kind, reg, off, typ⟩ := arg
    cases typ <;>
      simp [argLoad, instrData.defs, instrData.isMov64, Ne.symm hne, Ne.symm hc]
  · split_ifs at hd with hk
    · obtain ⟨h1, -, h3⟩ := hres (int64 (start + arg.Offset)) arg.Typ.Bits spVReg
      simp only [List.mem_append, List.mem_singleton] at hd
      rcases hd with hd | rfl
      · obtain ⟨c, rfl⟩ := h1 d hd
        simp [instrData.defs, instrData.isMov64, tmpRegVReg, x19VReg]
      · rcases h3 with h3 | h3 | h3 <;> simp [instrData.defs, instrData.isMov64, h3]
    · simp at hd

theorem passArgInstrs_isMov64 {resolve : OffsetResolver} (hres : resolve.WellBehaved)
    (c : VReg) (start : Int) (arg : ABIArg) :
    ∀ d ∈ passArgInstrs resolve c start arg, d.isMov64 = false := by
  intro d hd
  simp only [passArgInstrs, List.mem_cons] at hd
  rcases hd with rfl | hd
  · obtain ⟨idx, kind, reg, off, typ⟩ := arg
    cases typ <;> simp [argLoad, instrData.isMov64]
  · split_ifs at hd with hk
    · obtain ⟨h1, -, -⟩ := hres (int64 (start + arg.Offset)) arg.Typ.Bits spVReg
      simp only [List.mem_append, List.mem_singleton] at hd
      rcases hd with hd | rfl
      · obtain ⟨c, rfl⟩ := h1 d hd
        simp [instrData.isMov64]
      · simp [instrData.isMov64]
    · simp at hd

theorem passResultInstrs_isMov64 {resolve : OffsetResolver} (hres : resolve.WellBehaved)
    (c : VReg) (start : Int) (r : ABIArg) :
    ∀ d ∈ passResultInstrs resolve c start r, d.isMov64 = false := by
  intro d hd
  simp only [passResultInstrs, List.mem_append, List.mem_singleton] at hd
  rcases hd with hd | rfl
  · split_ifs at hd with hk
    · obtain ⟨h1, -, -⟩ := hres (int64 (start + r.Offset)) r.Typ.Bits spVReg
      simp only [List.mem_append, List.mem_singleton] at hd
      rcases hd with hd | rfl
      · obtain ⟨c, rfl⟩ := h1 d hd
        simp [instrData.isMov64]
      · obtain ⟨idx, kind, reg, off, typ⟩ := r
        cases typ <;> simp [resultStackLoad, instrData.isMov64]
    · simp at hd
  · simp [resultStore, instrData.isMov64]

theorem preambleBeforeCall_defs {resolve : OffsetResolver} (hres : resolve.WellBehaved)
    (offs : ExecutionContextOffsets) (a : abiImpl) (hregs : ∀ arg ∈ a.args, arg.RegOK)
    (hr : 0 < a.rets.length) :
    ∀ d ∈ preambleBeforeCall resolve offs a, x19VReg ∉ d.defs := by
  intro d hd
  simp only [preambleBeforeCall, List.mem_append, List.mem_flatMap] at hd
  rcases hd with hd | hd | ⟨arg, harg, hd⟩
  · simp only [List.mem_cons, List.mem_singleton, List.not_mem_nil, or_false] at hd
    rcases hd with rfl | rfl | rfl | rfl | rfl | rfl | rfl <;>
      simp [instrData.defs, savedExecutionContextPtr, x20VReg, x19VReg, tmpRegVReg, spVReg]
  · split_ifs at hd
    · simp only [List.mem_singleton] at hd
      subst hd
      simp [instrData.defs, paramResultSliceCopied, x25VReg, x19VReg]
    · simp at hd
  · have hlen : a.args.length > 2 := by
      by_contra hcon
      have : a.args.drop 2 = [] := List.drop_eq_nil_of_le (by omega)
      rw [this] at harg
      simp at harg
    have hcur : paramCursorReg a = x25VReg := by
      simp [paramCursorReg, hlen, hr, paramResultSliceCopied]
    rw [hcur] at hd
    exact (passArgInstrs_props hres x25VReg (by decide) _ arg
      (hregs arg (List.mem_of_mem_drop harg)) d hd).1

theorem mov_x25_x19_mem_iff {resolve : OffsetResolver} (hres : resolve.WellBehaved)
    (offs : ExecutionContextOffsets) (a : abiImpl) :
    instrData.mov64 x25VReg x19VReg ∈
        (preambleBeforeCall resolve offs a ++ .callIndirect functionExecutable ::
          preambleAfterCall resolve offs a) ↔
      (a.args.length > 2 ∧ a.rets.length > 0) := by
  constructor
  · intro hd
    simp only [preambleBeforeCall, preambleAfterCall, List.mem_append, List.mem_flatMap,
      List.mem_cons] at hd
    rcases hd with (hd | hd | ⟨arg, -, hd⟩) | hd | ⟨r, -, hd⟩ | hd
    · simp [savedExecutionContextPtr, executionContextPtrReg, x20VReg, x25VReg, tmpRegVReg,
        spVReg] at hd
    · split_ifs at hd with hc
      · exact hc
      · simp at hd
    · have := passArgInstrs_isMov64 hres _ _ arg _ hd
      simp [instrData.isMov64] at this
    · cases hd
    · have := passResultInstrs_isMov64 hres _ _ r _ hd
      simp [instrData.isMov64] at this
    · simp [x25VReg, spVReg] at hd
  · intro hc
    simp only [preambleBeforeCall, List.mem_append]
    left; right; left
    rw [if_pos hc]
    simp [paramResultSliceCopied, paramResultSlicePtr]

theorem sliceRun_preambleAfterCall {resolve : OffsetResolver} (hres : resolve.WellBehaved)
    (offs : ExecutionContextOffsets) (a : abiImpl) {st : SliceState} (h : st.Inv) {d : Int}
    (hc : st x19VReg = some d) :
    (sliceRun st (preambleAfterCall resolve offs a)).2 = sliceLayoutFrom true d a.rets := by
  obtain ⟨hinv, hacc⟩ := sliceRun_passResults hres
    (int64 (a.argStackSize - a.alignedArgResultStackSlotSize)) a.rets h hc
  unfold preambleAfterCall
  simp only [paramResultSlicePtr]
  rw [sliceRun_append, hacc]
  generalize (sliceRun st (a.rets.flatMap (passResultInstrs resolve x19VReg
    (int64 (a.argStackSize - a.alignedArgResultStackSlotSize))))).1 = st3 at hinv
  have hn : ∀ r, r ≠ x19VReg → r ≠ x25VReg → st3 r = none := hinv
  have m1 : sliceStep st3 (.mov64 spVReg tmpRegVReg) = (st3, []) :=
    sliceStep_mov64_none (hn _ (by decide) (by decide)) (hn _ (by decide) (by decide))
  have m0 : sliceStep st3 .ret = (st3, []) := rfl
  rw [sliceRun_cons_skip (sliceStep_ctx_load hinv _ _ (by decide) (by decide)),
    sliceRun_cons_skip (sliceStep_ctx_load hinv _ _ (by decide) (by decide)),
    sliceRun_cons_skip m1,
    sliceRun_cons_skip (sliceStep_ctx_load hinv _ _ (by decide) (by decide)),
    sliceRun_cons_skip m0]
  simp [sliceRun]

/-- C3: every post-index store of the preamble is a result store with base x19, one per
result in order; x19 is copied to x25 exactly when there are more than two arguments and at
least one result, and then every argument load has base x25; when there is a result no
instruction before the call writes x19; hence, run from the entry state, the accesses that
follow those before the call are the stores of the results, the k-th at the byte offset that
is the sum over j < k of 16 for a V128 result and 8 otherwise, from the start of the slice. -/
theorem constructEntryPreamble_result_stores (resolve : OffsetResolver)
    (hres : resolve.WellBehaved) (offs : ExecutionContextOffsets) (m : machine) (a : abiImpl)
    (hregs : ∀ arg ∈ a.args, arg.RegOK) :
    let r := constructEntryPreamble resolve offs m a
    let L := r.1.instructionsFrom r.2
    L.filter (·.isPostIndexStore) =
        a.rets.map (fun p => instrData.store (stagingReg p)
          { kind := .PostIndex, rn := x19VReg, imm := if p.Typ = .TypeV128 then 16 else 8 }
          p.Typ.Bits) ∧
      (instrData.mov64 x25VReg x19VReg ∈ L ↔ (a.args.length > 2 ∧ a.rets.length > 0)) ∧
      ((a.args.length > 2 ∧ a.rets.length > 0) →
        ∀ d ∈ L, d.isPostIndexLoad = true → d.base = some x25VReg) ∧
      (0 < a.rets.length → ∀ d ∈ beforeCall L, x19VReg ∉ d.defs) ∧
      (sliceRun initialSliceState L).2 =
        (sliceRun initialSliceState (beforeCall L)).2 ++
          a.rets.enum.map (fun kp =>
            { isStore := true,
              offset := some (((a.rets.take kp.1).map fun p =>
                if p.Typ = .TypeV128 then (16 : Int) else 8).sum),
              bits := kp.2.Typ.Bits,
              reg := stagingReg kp.2 }) := by
  intro r L
  have hL : L = preambleBeforeCall resolve offs a ++ .callIndirect functionExecutable ::
      preambleAfterCall resolve offs a := constructEntryPreamble_instructions resolve offs m a
  have hbc : beforeCall L = preambleBeforeCall resolve offs a := by
    rw [hL]
    exact beforeCall_append_call _ _ _ (fun d hd => (preambleBeforeCall_noCall hres offs a d hd).1)
  refine ⟨?_, ?_, ?_, ?_, ?_⟩
  · rw [hL, filter_isPostIndexStore_preamble hres]
    rfl
  · rw [hL]
    exact mov_x25_x19_mem_iff hres offs a
  · intro hc d hd hload
    have hmem : d ∈ L.filter (·.isPostIndexLoad) := List.mem_filter.mpr ⟨hd, hload⟩
    rw [hL, filter_isPostIndexLoad_preamble hres] at hmem
    obtain ⟨p, -, rfl⟩ := List.mem_map.mp hmem
    have hcur : paramCursorReg a = x25VReg := by simp [paramCursorReg, hc, paramResultSliceCopied]
    rw [hcur]
    obtain ⟨idx, kind, reg, off, typ⟩ := p
    cases typ <;> simp [argLoad, instrData.base]
  · intro hr
    rw [hbc]
    exact preambleBeforeCall_defs hres offs a hregs hr
  · obtain ⟨hinv, h0, ⟨d, hd⟩, -⟩ := sliceRun_preambleBeforeCall hres offs a hregs
    rw [hbc, hL, sliceRun_append, sliceRun_cons_skip (sliceStep_call hinv _),
      sliceRun_preambleAfterCall hres offs a hinv hd]
    have hlay : sliceLayoutFrom true d a.rets = sliceLayoutFrom true 0 a.rets := by
      by_cases hr : 0 < a.rets.length
      · have := h0 hr
        rw [hd] at this
        rw [Option.some.inj this]
      · have : a.rets = [] := List.length_eq_zero.mp (by omega)
        simp [this, sliceLayoutFrom]
    rw [hlay, ← sliceLayout_eq]
    rfl

set_option maxRecDepth 100000 in
/-- The result stores of the example signature: an i32 at offset 0 and an f64 at offset 8. -/
theorem constructEntryPreamble_result_stores_witness :
    OffsetResolver.WellBehaved resolveAddressModeForOffset ∧
    (∀ arg ∈ exampleABI.args, arg.RegOK) ∧
    ((constructEntryPreamble resolveAddressModeForOffset exampleOffsets ⟨[]⟩
          exampleABI).1.instructionsFrom
        (constructEntryPreamble resolveAddressModeForOffset exampleOffsets ⟨[]⟩
          exampleABI).2).filter (·.isPostIndexStore) =
      [ .store (.x 0) ⟨.PostIndex, .x 19, none, 8⟩ 32,
        .store (.v 15) ⟨.PostIndex, .x 19, none, 8⟩ 64 ] ∧
    (sliceRun initialSliceState
      ((constructEntryPreamble resolveAddressModeForOffset exampleOffsets ⟨[]⟩
          exampleABI).1.instructionsFrom
        (constructEntryPreamble resolveAddressModeForOffset exampleOffsets ⟨[]⟩
          exampleABI).2)).2 =
      [ ⟨false, some 0, 32, .x 2⟩, ⟨false, some 8, 128, .v 15⟩,
        ⟨true, some 0, 32, .x 0⟩, ⟨true, some 8, 64, .v 15⟩ ] :=
  ⟨resolveAddressModeForOffset_wellBehaved, exampleABI_regOK,
    (constructEntryPreamble_result_stores resolveAddressModeForOffset
      resolveAddressModeForOffset_wellBehaved exampleOffsets ⟨[]⟩ exampleABI
      exampleABI_regOK).1.trans (by rfl),
    (constructEntryPreamble_result_stores resolveAddressModeForOffset
      resolveAddressModeForOffset_wellBehaved exampleOffsets ⟨[]⟩ exampleABI
      exampleABI_regOK).2.2.2.2.trans (by rfl)⟩


/-! ### The assembler encodings -/

set_option maxRecDepth 1000000 in
/-- Every row of the table of `TestAssemblerImpl_EncodeMemoryToRegister` is reproduced: the
bytes of the selected instructions are the bytes the test expects. -/
theorem encodeMemoryToRegister_tests :
    encodeMemoryToRegisterTests.all (fun t => encodesTo (.RegR 27) t.1 t.2) = true := by
  decide

/-- The error case of `TestAssemblerImpl_EncodeMemoryToRegister`: `SUB` is rejected with the
message the test expects. -/
theorem encodeMemoryToRegister_error_test :
    (encodeMemoryToRegister .NilRegister { instruction := .SUB }).toOption = none ∧
    (match encodeMemoryToRegister .NilRegister { instruction := .SUB } with
      | .error e => e.message
      | .ok _ => "") = "SUB is unsupported for MemoryToRegister type" := by
  constructor <;> rfl

theorem intRegisterBits_lt {r : Register} {b : Nat} (h : intRegisterBits r = .ok b) : b < 32 := by
  cases r with
  | RegR n => simp [intRegisterBits] at h; omega
  | RegRZR => simp [intRegisterBits] at h; omega
  | RegV n => simp [intRegisterBits] at h
  | NilRegister => simp [intRegisterBits] at h

theorem vectorRegisterBits_lt {r : Register} {b : Nat} (h : vectorRegisterBits r = .ok b) :
    b < 32 := by
  cases r with
  | RegV n => simp [vectorRegisterBits] at h; omega
  | RegR n => simp [vectorRegisterBits] at h
  | RegRZR => simp [vectorRegisterBits] at h
  | NilRegister => simp [vectorRegisterBits] at h

theorem loadParamsOf_bounds {i : Instruction} {p : loadParams} (h : loadParamsOf i = some p) :
    p.size < 4 ∧ p.v < 2 ∧ p.opc < 4 ∧
      (p.datasize = 1 ∨ p.datasize = 2 ∨ p.datasize = 4 ∨ p.datasize = 8) := by
  cases i <;> simp [loadParamsOf] at h <;> subst h <;> simp [loadParams.datasize]

theorem selectMemoryToRegister_const {tmp : Register} {n : nodeImpl} {p : loadParams}
    {base dst : Nat} (hp : loadParamsOf n.instruction = some p)
    (hdst : (if p.isTargetFloat then vectorRegisterBits n.dstReg
      else intRegisterBits n.dstReg) = .ok dst)
    (hbase : intRegisterBits n.srcReg = .ok base) (hreg2 : n.srcReg2 = .NilRegister) :
    selectMemoryToRegister tmp n =
      .ok (selectLoadWithConstOffset (registerBits tmp) base dst n.srcConst p) := by
  unfold selectMemoryToRegister
  rw [hp]
  simp only [hdst, hbase, hreg2]
  simp

theorem dst_lt {p : loadParams} {r : Register} {dst : Nat}
    (hdst : (if p.isTargetFloat then vectorRegisterBits r else intRegisterBits r) = .ok dst) :
    dst < 32 := by
  split_ifs at hdst
  · exact vectorRegisterBits_lt hdst
  · exact intRegisterBits_lt hdst

/-- C4: for a load with access size s in {1, 2, 4, 8} and a constant offset imm that is
non-negative, a multiple of s and at most 4095 units, the encoder selects exactly one
instruction, the load in the scaled unsigned-imm12 form with imm12 = imm / s (also when imm
is at most 255, where the unscaled form would fit as well); it is emitted as 4 bytes whose
word has the bits of the unsigned-offset form, imm / s in the imm12 field, the base in Rn and
the target in Rt. -/
theorem encodeMemoryToRegister_scaled (tmp : Register) (n : nodeImpl) (p : loadParams)
    (base dst : Nat) (hp : loadParamsOf n.instruction = some p)
    (hdst : (if p.isTargetFloat then vectorRegisterBits n.dstReg
      else intRegisterBits n.dstReg) = .ok dst)
    (hbase : intRegisterBits n.srcReg = .ok base) (hreg2 : n.srcReg2 = .NilRegister)
    (h0 : 0 ≤ n.srcConst) (hmul : n.srcConst % p.datasize = 0)
    (hmax : n.srcConst / p.datasize ≤ 4095) :
    (p.datasize = 1 ∨ p.datasize = 2 ∨ p.datasize = 4 ∨ p.datasize = 8) ∧
    selectMemoryToRegister tmp n =
      .ok [.LoadUnsignedImm12 p.size p.v p.opc (n.srcConst / p.datasize).toNat base dst] ∧
    ∃ w, encodeMemoryToRegister tmp n = .ok (wordBytes w) ∧ (wordBytes w).length = 4 ∧
      isUnsignedImm12Form w = true ∧ (bitField w 10 12 : Int) = n.srcConst / p.datasize ∧
      bitField w 5 5 = base ∧ bitField w 0 5 = dst ∧ bitField w 30 2 = p.size ∧
      bitField w 26 1 = p.v ∧ bitField w 22 2 = p.opc := by
  obtain ⟨hs, hv, ho, hd⟩ := loadParamsOf_bounds hp
  have hsel : selectMemoryToRegister tmp n =
      .ok [.LoadUnsignedImm12 p.size p.v p.opc (n.srcConst / p.datasize).toNat base dst] := by
    rw [selectMemoryToRegister_const hp hdst hbase hreg2]
    simp [selectLoadWithConstOffset, h0, hmul, hmax]
  refine ⟨hd, hsel, (MachineInst.LoadUnsignedImm12 p.size p.v p.opc
    (n.srcConst / p.datasize).toNat base dst).word, ?_, rfl, ?_⟩
  · simp only [encodeMemoryToRegister, hsel]
    simp only [Except.map, List.flatMap_cons, List.flatMap_nil, List.append_nil]
  · have hb := intRegisterBits_lt hbase
    have hdl := dst_lt hdst
    have hq : 0 ≤ n.srcConst / p.datasize := by
      rcases hd with h | h | h | h <;> rw [h] <;> omega
    obtain ⟨m, hm⟩ : ∃ m : Nat, n.srcConst / p.datasize = m := ⟨_, (Int.toNat_of_nonneg hq).symm⟩
    have hm2 : m ≤ 4095 := by omega
    simp only [hm, Int.toNat_ofNat, MachineInst.word, isUnsignedImm12Form, bitField]
    norm_num
    refine ⟨⟨?_, ?_⟩, ?_, ?_, ?_, ?_, ?_, ?_⟩ <;> omega

/-- C4 at the load of 8 bytes from offset 16: one instruction in the scaled form, imm12 = 2. -/
theorem encodeMemoryToRegister_scaled_witness :
    selectMemoryToRegister (.RegR 27)
        { instruction := .LDRD, srcReg := .RegR 5, srcConst := 16, dstReg := .RegR 11 } =
      .ok [.LoadUnsignedImm12 3 0 1 2 5 11] :=
  (encodeMemoryToRegister_scaled (.RegR 27)
    { instruction := .LDRD, srcReg := .RegR 5, srcConst := 16, dstReg := .RegR 11 }
    ⟨3, 0, 1, 3, false⟩ 5 11 rfl rfl rfl rfl (by decide) (by decide) (by decide)).2.1

/-- C5: for a load and a constant offset imm with -256 <= imm <= 255 that is negative or not
a multiple of the access size, the encoder selects exactly one instruction, the load in the
unscaled signed-imm9 form; it is emitted as 4 bytes whose word has the bits of the unscaled
form and imm, as a 9-bit two's complement number, in the imm9 field. -/
theorem encodeMemoryToRegister_unscaled (tmp : Register) (n : nodeImpl) (p : loadParams)
    (base dst : Nat) (hp : loadParamsOf n.instruction = some p)
    (hdst : (if p.isTargetFloat then vectorRegisterBits n.dstReg
      else intRegisterBits n.dstReg) = .ok dst)
    (hbase : intRegisterBits n.srcReg = .ok base) (hreg2 : n.srcReg2 = .NilRegister)
    (hlo : -256 ≤ n.srcConst) (hhi : n.srcConst ≤ 255)
    (hns : n.srcConst < 0 ∨ n.srcConst % p.datasize ≠ 0) :
    selectMemoryToRegister tmp n =
      .ok [.LoadUnscaledImm9 p.size p.v p.opc n.srcConst base dst] ∧
    ∃ w, encodeMemoryToRegister tmp n = .ok (wordBytes w) ∧ (wordBytes w).length = 4 ∧
      isUnscaledImm9Form w = true ∧
      (bitField w 12 9 : Int) = (if 0 ≤ n.srcConst then n.srcConst else n.srcConst + 512) ∧
      bitField w 5 5 = base ∧ bitField w 0 5 = dst ∧ bitField w 30 2 = p.size ∧
      bitField w 26 1 = p.v ∧ bitField w 22 2 = p.opc := by
  obtain ⟨hs, hv, ho, hd⟩ := loadParamsOf_bounds hp
  have hsel : selectMemoryToRegister tmp n =
      .ok [.LoadUnscaledImm9 p.size p.v p.opc n.srcConst base dst] := by
    rw [selectMemoryToRegister_const hp hdst hbase hreg2]
    have hc : ¬ (0 ≤ n.srcConst ∧ n.srcConst % p.datasize = 0 ∧ n.srcConst / p.datasize ≤ 4095) := by
      rintro ⟨h1, h2, -⟩
      rcases hns with h | h
      · omega
      · exact h h2
    unfold selectLoadWithConstOffset
    simp only
    rw [if_neg hc, if_pos ⟨hlo, hhi⟩]
  refine ⟨hsel, (MachineInst.LoadUnscaledImm9 p.size p.v p.opc n.srcConst base dst).word,
    ?_, rfl, ?_⟩
  · simp only [encodeMemoryToRegister, hsel]
    simp only [Except.map, List.flatMap_cons, List.flatMap_nil, List.append_nil]
  · have hb := intRegisterBits_lt hbase
    have hdl := dst_lt hdst
    obtain ⟨m, hm, hm2⟩ : ∃ m : Nat, (n.srcConst % 512).toNat = m ∧
        (m : Int) = (if 0 ≤ n.srcConst then n.srcConst else n.srcConst + 512) := by
      refine ⟨_, rfl, ?_⟩
      split_ifs <;> omega
    have hm3 : m < 512 := by split_ifs at hm2 <;> omega
    simp only [MachineInst.word, isUnscaledImm9Form, bitField, hm, ← hm2]
    norm_num
    refine ⟨⟨⟨⟨?_, ?_⟩, ?_⟩, ?_⟩, ?_, ?_, ?_, ?_, ?_, ?_⟩ <;> omega

/-- C5 at the load of 8 bytes from offset -1: one instruction in the unscaled form. -/
theorem encodeMemoryToRegister_unscaled_witness :
    selectMemoryToRegister (.RegR 27)
        { instruction := .LDRD, srcReg := .RegR 5, srcConst := -1, dstReg := .RegR 11 } =
      .ok [.LoadUnscaledImm9 3 0 1 (-1) 5 11] :=
  (encodeMemoryToRegister_unscaled (.RegR 27)
    { instruction := .LDRD, srcReg := .RegR 5, srcConst := -1, dstReg := .RegR 11 }
    ⟨3, 0, 1, 3, false⟩ 5 11 rfl rfl rfl rfl (by decide) (by decide) (Or.inl (by decide))).1

/-- C7 fails as stated: the offset 1 << 27 of an 8-byte load fits in a signed 32-bit immediate
and fits neither the scaled nor the signed-imm9 form, yet the encoder does not synthesise the
address with an addition: it loads the offset from a literal into the temporary register and
uses the register-offset form, with the bytes the test table expects. -/
theorem encodeMemoryToRegister_offset_1_shl_27_literal :
    (-(2 : Int) ^ 31 ≤ 134217728 ∧ (134217728 : Int) < 2 ^ 31) ∧
    ¬ ((0 : Int) ≤ 134217728 ∧ (134217728 : Int) % 8 = 0 ∧ (134217728 : Int) / 8 ≤ 4095) ∧
    ¬ ((-256 : Int) ≤ 134217728 ∧ (134217728 : Int) ≤ 255) ∧
    selectMemoryToRegister (.RegR 27)
        (nodeImpl.mk .LDRD (.RegR 5) .NilRegister 134217728 (.RegR 11)) =
      .ok [.LoadLiteral32 0 27, .LoadRegisterOffset 3 0 1 27 5 11] ∧
    encodeMemoryToRegister (.RegR 27)
        (nodeImpl.mk .LDRD (.RegR 5) .NilRegister 134217728 (.RegR 11)) =
      .ok [0x1b, 0x0, 0x0, 0x18, 0xab, 0x68, 0x7b, 0xf8] ∧
    (nodeImpl.mk .LDRD (.RegR 5) .NilRegister 134217728 (.RegR 11),
      [0x1b, 0x0, 0x0, 0x18, 0xab, 0x68, 0x7b, 0xf8]) ∈ testsLDRD_0 := by
  refine ⟨by decide, by decide, by decide, rfl, rfl, ?_⟩
  decide

/-- C7 as amended: for a load with access size s and a constant offset that is non-negative,
below 2^31, a multiple of s and too large for the scaled form, let lo be the offset modulo
4096 * s and hi the rest. When hi is at most 4095 * 4096 the address is synthesised as
ADD tmp, base, #hi (imm12 shifted by 12) followed by a scaled load of lo; when hi is larger,
the offset is loaded from a literal into tmp and a register-offset load follows. So the
literal form is used inside the 32-bit range, from 2^24 on. -/
theorem encodeMemoryToRegister_literal_threshold (tmp : Register) (n : nodeImpl) (p : loadParams)
    (base dst : Nat) (hp : loadParamsOf n.instruction = some p)
    (hdst : (if p.isTargetFloat then vectorRegisterBits n.dstReg
      else intRegisterBits n.dstReg) = .ok dst)
    (hbase : intRegisterBits n.srcReg = .ok base) (hreg2 : n.srcReg2 = .NilRegister)
    (h0 : 0 ≤ n.srcConst) (h31 : n.srcConst < 2 ^ 31) (hmul : n.srcConst % p.datasize = 0)
    (hns : 4095 < n.srcConst / p.datasize) :
    let lo := n.srcConst % (4096 * p.datasize)
    let hi := n.srcConst - lo
    (hi ≤ 4095 * 4096 →
      selectMemoryToRegister tmp n =
        .ok [.AddShifted12 (hi / 4096).toNat base (registerBits tmp),
          .LoadUnsignedImm12 p.size p.v p.opc (lo / p.datasize).toNat (registerBits tmp) dst]) ∧
    (4095 * 4096 < hi →
      selectMemoryToRegister tmp n =
        .ok [.LoadLiteral32 0 (registerBits tmp),
          .LoadRegisterOffset p.size p.v p.opc (registerBits tmp) base dst]) ∧
    (n.srcConst < 2 ^ 24 → hi ≤ 4095 * 4096) ∧
    (2 ^ 24 + 4095 * p.datasize < n.srcConst → 4095 * 4096 < hi) := by
  intro lo hi
  obtain ⟨-, -, -, hd⟩ := loadParamsOf_bounds hp
  have hlo : n.srcConst / p.datasize % 4096 * p.datasize = lo := by
    simp only [lo]
    rcases hd with h | h | h | h <;> rw [h] at hmul ⊢ <;> omega
  have hc1 : ¬ (0 ≤ n.srcConst ∧ n.srcConst % p.datasize = 0 ∧ n.srcConst / p.datasize ≤ 4095) := by
    rintro ⟨-, -, h⟩; omega
  have hc2 : ¬ (-256 ≤ n.srcConst ∧ n.srcConst ≤ 255) := by
    rintro ⟨-, h⟩
    rcases hd with h' | h' | h' | h' <;> rw [h'] at hns <;> omega
  have hhi : 0 ≤ hi ∧ hi % 4096 = 0 := by
    simp only [hi, lo]
    rcases hd with h | h | h | h <;> rw [h] <;> omega
  rw [selectMemoryToRegister_const hp hdst hbase hreg2]
  unfold selectLoadWithConstOffset
  simp only
  rw [if_neg hc1, if_neg hc2, hlo]
  refine ⟨?_, ?_, ?_, ?_⟩
  · intro h
    have : hi / 4096 ≤ 4095 := by omega
    rw [if_pos ⟨hhi.1, hhi.2, this⟩]
  · intro h
    have : ¬ (0 ≤ hi ∧ hi % 4096 = 0 ∧ hi / 4096 ≤ 4095) := by
      rintro ⟨-, -, h3⟩; omega
    rw [if_neg this]
  · intro h
    simp only [hi, lo]
    rcases hd with h' | h' | h' | h' <;> rw [h'] <;> omega
  · simp only [hi, lo]
    rcases hd with h' | h' | h' | h' <;> rw [h'] <;> intro h <;> omega

/-- The amended C7 at the offsets 1048584 and (1 << 31) - 8 of an 8-byte load: the first is
synthesised with an addition, the second uses the literal form. -/
theorem encodeMemoryToRegister_literal_threshold_witness :
    selectMemoryToRegister (.RegR 27) (nodeImpl.mk .LDRD (.RegR 5) .NilRegister 1048584 (.RegR 11)) =
      .ok [.AddShifted12 256 5 27, .LoadUnsignedImm12 3 0 1 1 27 11] ∧
    selectMemoryToRegister (.RegR 27)
        (nodeImpl.mk .LDRD (.RegR 5) .NilRegister 2147483640 (.RegR 11)) =
      .ok [.LoadLiteral32 0 27, .LoadRegisterOffset 3 0 1 27 5 11] :=
  ⟨(encodeMemoryToRegister_literal_threshold (.RegR 27)
      (nodeImpl.mk .LDRD (.RegR 5) .NilRegister 1048584 (.RegR 11)) ⟨3, 0, 1, 3, false⟩ 5 11
      rfl rfl rfl rfl (by decide) (by decide) (by decide) (by decide)).1 (by decide),
    (encodeMemoryToRegister_literal_threshold (.RegR 27)
      (nodeImpl.mk .LDRD (.RegR 5) .NilRegister 2147483640 (.RegR 11)) ⟨3, 0, 1, 3, false⟩ 5 11
      rfl rfl rfl rfl (by decide) (by decide) (by decide) (by decide)).2.1 (by decide)⟩

/-- The two rows of the ok case and the four offsets of the error case of
`TestAssemblerImpl_encodeReadInstructionAddress` are reproduced. -/
theorem finalizeADRInstructionNode_tests :
    finalizeADRInstructionNode 23 0 (adrTestDistance 1) = .ok [0x77, 0x0, 0x0, 0x10] ∧
    finalizeADRInstructionNode 23 0 (adrTestDistance 5000) = .ok [0x57, 0x71, 0x2, 0x10] ∧
    finalizeADRInstructionNode 27 0 (2 ^ 20) =
      .error "BUG: too large offset for ADR: 0x100000" ∧
    finalizeADRInstructionNode 27 0 (2 ^ 64 - (2 ^ 20 + 1)) =
      .error "BUG: too large offset for ADR: 0xffffffffffefffff" ∧
    finalizeADRInstructionNode 27 0 (2 ^ 63 - 1) =
      .error "BUG: too large offset for ADR: 0x7fffffffffffffff" ∧
    finalizeADRInstructionNode 27 0 (2 ^ 63) =
      .error "BUG: too large offset for ADR: 0x8000000000000000" := by
  refine ⟨rfl, rfl, ?_, ?_, ?_, ?_⟩ <;> rfl

theorem adr_word_fields (lo hi rd : Nat) (hlo : lo < 4) (hhi : hi < 2 ^ 19) (hrd : rd < 32) :
    isADRForm (0x10000000 + lo * 2 ^ 29 + hi * 2 ^ 5 + rd) = true ∧
      bitField (0x10000000 + lo * 2 ^ 29 + hi * 2 ^ 5 + rd) 0 5 = rd ∧
      bitField (0x10000000 + lo * 2 ^ 29 + hi * 2 ^ 5 + rd) 5 19 = hi ∧
      bitField (0x10000000 + lo * 2 ^ 29 + hi * 2 ^ 5 + rd) 29 2 = lo := by
  simp only [isADRForm, bitField]
  norm_num at hhi ⊢
  refine ⟨⟨?_, ?_⟩, ?_, ?_, ?_⟩ <;> omega

/-- C8: finalizing an `ADR` whose target lies at a distance d (target offset minus `ADR`
offset in `uint64`, read as a signed 64-bit number) with d >= 2^20 or d < -2^20 fails with
the error "BUG: too large offset for ADR: " followed by the distance in hexadecimal, and
nothing is emitted; for d in [-2^20, 2^20) it succeeds with the one 4-byte `ADR` whose 21-bit
immediate (immhi above immlo) is d in two's complement. -/
theorem finalizeADRInstructionNode_range (rd adr target : Nat) (hrd : rd < 32) :
    ((2 ^ 20 ≤ asInt64 (uint64Sub target adr) ∨ asInt64 (uint64Sub target adr) < -2 ^ 20) →
      finalizeADRInstructionNode rd adr target =
        .error ("BUG: too large offset for ADR: " ++ hexString (uint64Sub target adr))) ∧
    ((-2 ^ 20 ≤ asInt64 (uint64Sub target adr) ∧ asInt64 (uint64Sub target adr) < 2 ^ 20) →
      ∃ w, finalizeADRInstructionNode rd adr target = .ok (wordBytes w) ∧
        (wordBytes w).length = 4 ∧ isADRForm w = true ∧ bitField w 0 5 = rd ∧
        ((bitField w 5 19 * 4 + bitField w 29 2 : Nat) : Int) =
          (if 0 ≤ asInt64 (uint64Sub target adr) then asInt64 (uint64Sub target adr)
            else asInt64 (uint64Sub target adr) + 2 ^ 21)) := by
  have hoff : uint64Sub target adr < 2 ^ 64 := Nat.mod_lt _ (by norm_num)
  have hfin : finalizeADRInstructionNode rd adr target =
      if asInt64 (uint64Sub target adr) ≥ 2 ^ 20 ∨ asInt64 (uint64Sub target adr) < -2 ^ 20 then
        .error ("BUG: too large offset for ADR: " ++ hexString (uint64Sub target adr))
      else .ok (wordBytes (0x10000000 + uint64Sub target adr % 4 * 2 ^ 29 +
        uint64Sub target adr / 4 % 2 ^ 19 * 2 ^ 5 + rd)) := rfl
  generalize uint64Sub target adr = offset at hoff hfin ⊢
  have hd : asInt64 offset = if offset < 2 ^ 63 then (offset : Int) else (offset : Int) - 2 ^ 64 :=
    rfl
  generalize asInt64 offset = d at hd hfin ⊢
  constructor
  · intro h
    rw [hfin, if_pos]
    rcases h with h | h
    · exact Or.inl h
    · exact Or.inr h
  · intro h
    have hneg : ¬ (d ≥ 2 ^ 20 ∨ d < -2 ^ 20) := by
      rintro (h1 | h1) <;> omega
    obtain ⟨f1, f2, f3, f4⟩ := adr_word_fields (offset % 4) (offset / 4 % 2 ^ 19) rd
      (Nat.mod_lt _ (by norm_num)) (Nat.mod_lt _ (by norm_num)) hrd
    refine ⟨0x10000000 + offset % 4 * 2 ^ 29 + offset / 4 % 2 ^ 19 * 2 ^ 5 + rd, ?_, rfl,
      f1, f2, ?_⟩
    · rw [hfin, if_neg hneg]
    · rw [f3, f4, hd]
      rw [hd] at h
      norm_num at hoff h ⊢
      split_ifs at h ⊢ <;> omega

/-- C8 at the distances of the test: 12 and 20008 give an `ADR` with that immediate, and a
target 2^20 bytes ahead gives the error. -/
theorem finalizeADRInstructionNode_range_witness :
    23 < 32 ∧
    finalizeADRInstructionNode 23 0 (2 ^ 20) =
      .error ("BUG: too large offset for ADR: " ++ hexString (2 ^ 20)) ∧
    (∃ w, finalizeADRInstructionNode 23 0 12 = .ok (wordBytes w) ∧
      (wordBytes w).length = 4 ∧ isADRForm w = true ∧ bitField w 0 5 = 23 ∧
      ((bitField w 5 19 * 4 + bitField w 29 2 : Nat) : Int) = 12) :=
  ⟨by decide,
    (finalizeADRInstructionNode_range 23 0 (2 ^ 20) (by decide)).1
      (Or.inl (by decide)),
    (finalizeADRInstructionNode_range 23 0 12 (by decide)).2
      ⟨by decide, by decide⟩⟩


/-! ### The lowered code of the tests -/

theorem loadBytes_lt (mem : Nat → Nat) (addr : Nat) : ∀ n, loadBytes mem addr n < 2 ^ (8 * n) := by
  intro n
  induction n generalizing addr with
  | zero => simp [loadBytes]
  | succ n ih =>
    have := ih (addr + 1)
    have h256 : mem (addr % 2 ^ 64) % 256 < 256 := Nat.mod_lt _ (by norm_num)
    simp only [loadBytes]
    have e : 2 ^ (8 * (n + 1)) = 256 * 2 ^ (8 * n) := by
      rw [Nat.mul_succ, Nat.pow_add]; norm_num [Nat.mul_comm]
    rw [e]
    omega


/-- C9: in the code of `memory_load_basic`, for every 32-bit Wasm address off (the low half
of x2) and every memory length len read from the module context, the bounds check passes
exactly when off + 4 <= len, the sum taken without wrap-around: then the function returns the
4 bytes at base + off and stores nothing; otherwise it leaves through the exit sequence with
the exit code 4 stored in the execution context, and the only load made is that of the
length, so the access to the linear memory is not executed. -/
theorem memoryLoadBasic_bounds_check (regs : AReg → Nat) (mem : Nat → Nat)
    (codeAddr : Nat → Nat) :
    let off := regs (.x 2) % 2 ^ 32
    let mc := regs (.x 1) % 2 ^ 64
    let ec := regs (.x 0) % 2 ^ 64
    let len := loadBytes mem (mc + 0x10) 4
    let base := loadBytes mem (mc + 0x8) 8
    (off + 4 ≤ len →
      ∃ st, runListing memoryLoadBasicAfterLowering 32 0 (entryState regs mem codeAddr) =
          .returned st ∧
        st.read (.x 0) = loadBytes mem ((base + off) % 2 ^ 64) 4 ∧
        st.stores = [] ∧
        st.loads = [⟨(mc + 0x10) % 2 ^ 64, 4, len⟩, ⟨(mc + 0x8) % 2 ^ 64, 8, base⟩,
          ⟨(base + off) % 2 ^ 64, 4, loadBytes mem ((base + off) % 2 ^ 64) 4⟩]) ∧
    (¬ (off + 4 ≤ len) →
      ∃ st, runListing memoryLoadBasicAfterLowering 32 0 (entryState regs mem codeAddr) =
          .exited st ec ∧ (Outcome.exited st ec).exitCode = some 4 ∧
        st.loads = [⟨(mc + 0x10) % 2 ^ 64, 4, len⟩] ∧
        st.stores.head? = some ⟨ec, 4, 4⟩) := by
  intro off mc ec len base
  have hlen : len < 2 ^ 32 := loadBytes_lt mem (mc + 0x10) 4
  have hoff : off < 2 ^ 32 := Nat.mod_lt _ (by norm_num)
  have hv : loadBytes mem ((base + off) % 2 ^ 64) 4 < 2 ^ 32 := loadBytes_lt mem _ 4
  have e1 : ∀ x : Nat, x % 18446744073709551616 % 4294967296 = x % 4294967296 := by
    intro x; omega
  have key : (regs (.x 2) % 4294967296 + 4) % 18446744073709551616 ≤
      loadBytes mem (regs (.x 1) % 18446744073709551616 + 16) 4 % 18446744073709551616 ↔
      off + 4 ≤ len := by
    simp only [off, len, mc] at hlen hoff ⊢
    norm_num at hlen hoff ⊢
    omega
  generalize hr : runListing memoryLoadBasicAfterLowering 32 0 (entryState regs mem codeAddr) = r
  simp [runListing, memoryLoadBasicAfterLowering, entryState, AState.read, AState.write,
      AState.load, AState.store, labelIndex] at hr
  simp only [e1] at hr
  subst hr
  constructor
  · intro h
    rw [if_pos (key.mpr h)]
    refine ⟨_, rfl, ?_, rfl, ?_⟩
    · simp only [off, base, mc] at hv ⊢
      norm_num at hv ⊢
      simp [AState.read]
      omega
    · simp only [off, base, mc, len]
      norm_num
  · intro h
    rw [if_neg (mt key.mp h)]
    refine ⟨_, rfl, ?_, ?_, ?_⟩
    · simp [Outcome.exitCode, ec]
    · simp only [mc, len]
      norm_num
    · simp [ec]

/-- C9 at a memory of 65536 bytes: the address 0xFFFC passes the check and 0xFFFD leaves with
the exit code 4. -/
theorem memoryLoadBasic_bounds_check_witness :
    (∃ st, runListing memoryLoadBasicAfterLowering 32 0
        (entryState (exampleRegs 0xFFFC) exampleMem (fun _ => 0)) = .returned st ∧
      st.loads = [⟨0x20010, 4, 65536⟩, ⟨0x20008, 8, 0⟩, ⟨0xFFFC, 4, 0⟩]) ∧
    (∃ st, runListing memoryLoadBasicAfterLowering 32 0
        (entryState (exampleRegs 0xFFFD) exampleMem (fun _ => 0)) = .exited st 0x10000 ∧
      (Outcome.exited st 0x10000).exitCode = some 4 ∧ st.loads = [⟨0x20010, 4, 65536⟩]) :=
  ⟨(((memoryLoadBasic_bounds_check (exampleRegs 0xFFFC) exampleMem (fun _ => 0)).1
      (by decide)).imp fun _ h => ⟨h.1, h.2.2.2⟩),
    (((memoryLoadBasic_bounds_check (exampleRegs 0xFFFD) exampleMem (fun _ => 0)).2
      (by decide)).imp fun _ h => ⟨h.1, h.2.1, h.2.2.1⟩)⟩

/-- C10 fails as stated: the exit sequence of the `unreachable` of `block_br_if` does not
write the exit code 1 into the execution context; it writes 3. -/
theorem unreachable_exit_code_not_1 :
    (runListing blockBrIfAfterLowering 32 0
        (entryState (exampleRegs 0) exampleMem (fun _ => 0))).exitCode = some 3 ∧
    (runListing blockBrIfAfterLowering 32 0
        (entryState (exampleRegs 0) exampleMem (fun _ => 0))).exitCode ≠ some 1 := by
  constructor
  · rfl
  · intro h
    have h3 : (runListing blockBrIfAfterLowering 32 0
        (entryState (exampleRegs 0) exampleMem (fun _ => 0))).exitCode = some 3 := rfl
    rw [h3] at h
    cases h

/-- C10 as amended: from every state, the code of `block_br_if` leaves through the exit
sequence of its `unreachable`, and the exit code written into the execution context, the
32-bit word at its offset 0, is 3. -/
theorem blockBrIf_exit_code (regs : AReg → Nat) (mem : Nat → Nat) (codeAddr : Nat → Nat) :
    ∃ st, runListing blockBrIfAfterLowering 32 0 (entryState regs mem codeAddr) =
        .exited st (regs (.x 0) % 2 ^ 64) ∧
      (Outcome.exited st (regs (.x 0) % 2 ^ 64)).exitCode = some 3 ∧
      st.stores.head? = some ⟨regs (.x 0) % 2 ^ 64, 4, 3⟩ ∧ st.loads = [] := by
  generalize hr : runListing blockBrIfAfterLowering 32 0 (entryState regs mem codeAddr) = r
  simp [runListing, blockBrIfAfterLowering, entryState, AState.read, AState.write,
      AState.load, AState.store, labelIndex] at hr
  subst hr
  refine ⟨_, rfl, ?_, ?_, rfl⟩
  · simp [Outcome.exitCode]
  · simp


/-! ### Exit codes and branch inversion -/

/-- The enumeration is numbered without gaps: the exit code at place `k` has the value `k`,
and every exit code is in the enumeration. -/
theorem ExitCode.all_toNat :
    ExitCode.all.map ExitCode.toNat = List.range exitCodeMax ∧
    ∀ c : ExitCode, c ∈ ExitCode.all := by
  refine ⟨by decide, ?_⟩
  intro c
  cases c <;> decide

/-- The values that the listings of `backend_test.go` store before an exit sequence: 3 in
`block_br_if`, 4 in `memory_load_basic` and `memory_stores`, 0xb and 0xc in
`float_conversions`. -/
theorem ExitCode.listing_values :
    ExitCode.toNat .ExitCodeUnreachable = 0x3 ∧
    ExitCode.toNat .ExitCodeMemoryOutOfBounds = 0x4 ∧
    ExitCode.toNat .ExitCodeIntegerOverflow = 0xb ∧
    ExitCode.toNat .ExitCodeInvalidConversionToInteger = 0xc := by
  decide

/-- C15: `InvertBrx` turns a `Brnz` instruction into `Brz` and a `Brz` instruction into
`Brnz`, leaving condition and target alone; so on every conditional branch it succeeds, and
applying it twice gives the instruction back. -/
theorem InvertBrx_involution (i : ssaInstruction)
    (h : i.opcode = .OpcodeBrz ∨ i.opcode = .OpcodeBrnz) :
    (i.opcode = .OpcodeBrnz → i.InvertBrx = some ⟨.OpcodeBrz, i.v, i.blk⟩) ∧
    (i.opcode = .OpcodeBrz → i.InvertBrx = some ⟨.OpcodeBrnz, i.v, i.blk⟩) ∧
    i.InvertBrx.bind ssaInstruction.InvertBrx = some i := by
  obtain ⟨op, v, blk⟩ := i
  simp only at h
  rcases h with rfl | rfl <;> simp [ssaInstruction.InvertBrx]

theorem InvertBrx_involution_witness :
    (ssaInstruction.mk .OpcodeBrnz 0 0).InvertBrx = some (ssaInstruction.mk .OpcodeBrz 0 0) ∧
    (ssaInstruction.mk .OpcodeBrnz 0 0).InvertBrx.bind ssaInstruction.InvertBrx
      = some (ssaInstruction.mk .OpcodeBrnz 0 0) :=
  ⟨(InvertBrx_involution (ssaInstruction.mk .OpcodeBrnz 0 0) (Or.inr rfl)).1 rfl,
   (InvertBrx_involution (ssaInstruction.mk .OpcodeBrnz 0 0) (Or.inr rfl)).2.2⟩

/-! ### `decodeLimitsType` -/

theorem leb128DecodeUint32_correct : leb128DecodeUint32.Correct := by
  intro e m rest he
  obtain ⟨hne, hlen, hcont, hlast, hval, hm⟩ := he
  subst hval
  rcases e with _ | ⟨b0, _ | ⟨b1, _ | ⟨b2, _ | ⟨b3, _ | ⟨b4, _ | ⟨b5, t⟩⟩⟩⟩⟩⟩
  · exact absurd rfl hne
  · simp only [List.getLastD_cons, List.getLastD_nil] at hlast
    simp [leb128DecodeUint32, decodeUint32Loop, ReadByte, uleb128Value, hlast]
    simp [uleb128Value] at hm
    omega
  · simp [List.dropLast] at hcont
    simp at hlast
    simp [uleb128Value] at hm
    have h0 : ¬ b0 < 128 := by omega
    simp [leb128DecodeUint32, decodeUint32Loop, ReadByte, uleb128Value, hlast, h0]
    omega
  · simp [List.dropLast] at hcont
    simp at hlast
    simp [uleb128Value] at hm
    have h0 : ¬ b0 < 128 := by omega
    have h1 : ¬ b1 < 128 := by omega
    simp [leb128DecodeUint32, decodeUint32Loop, ReadByte, uleb128Value, hlast, h0, h1]
    omega
  · simp [List.dropLast] at hcont
    simp at hlast
    simp [uleb128Value] at hm
    have h0 : ¬ b0 < 128 := by omega
    have h1 : ¬ b1 < 128 := by omega
    have h2 : ¬ b2 < 128 := by omega
    simp [leb128DecodeUint32, decodeUint32Loop, ReadByte, uleb128Value, hlast, h0, h1, h2]
    omega
  · simp [List.dropLast] at hcont
    simp at hlast
    simp [uleb128Value] at hm
    have h0 : ¬ b0 < 128 := by omega
    have h1 : ¬ b1 < 128 := by omega
    have h2 : ¬ b2 < 128 := by omega
    have h3 : ¬ b3 < 128 := by omega
    have h4 : ¬ 16 ≤ b4 := by omega
    simp [leb128DecodeUint32, decodeUint32Loop, ReadByte, uleb128Value, hlast, h0, h1, h2, h3, h4]
    omega
  · simp at hlen

/-- C16: for every `uint32` number `m` and every valid unsigned LEB128 encoding `e` of it,
`decodeLimitsType` on the bytes `0x00 ++ e ++ rest` returns `min = m`, `max = nil` and no
error, and leaves the reader at `rest`: it has consumed `1 + len(e)` bytes. -/
theorem decodeLimitsType_min_only (DecodeUint32 : Uint32Decoder)
    (hdec : DecodeUint32.Correct) (ErrInvalidByte : String) (m : Nat) (e rest : List Nat)
    (he : IsUleb128 e m) :
    decodeLimitsType DecodeUint32 ErrInvalidByte (0x00 :: (e ++ rest))
      = (⟨m, none, none⟩, rest) ∧
    (0x00 :: (e ++ rest)).length
      - (decodeLimitsType DecodeUint32 ErrInvalidByte (0x00 :: (e ++ rest))).2.length
      = 1 + e.length := by
  have key : decodeLimitsType DecodeUint32 ErrInvalidByte (0x00 :: (e ++ rest))
      = (⟨m, none, none⟩, rest) := by
    simp [decodeLimitsType, ReadByte, hdec e m rest he]
  rw [key]
  refine ⟨rfl, ?_⟩
  simp only [List.length_cons, List.length_append]
  omega

theorem decodeLimitsType_min_only_witness :
    IsUleb128 [0xe5, 0x8e, 0x26] 624485 ∧
    decodeLimitsType leb128DecodeUint32 "invalid byte" (0x00 :: ([0xe5, 0x8e, 0x26] ++ [0xff]))
      = (⟨624485, none, none⟩, [0xff]) ∧
    (0x00 :: ([0xe5, 0x8e, 0x26] ++ [0xff])).length
      - (decodeLimitsType leb128DecodeUint32 "invalid byte"
          (0x00 :: ([0xe5, 0x8e, 0x26] ++ [0xff]))).2.length
      = 1 + [0xe5, 0x8e, 0x26].length :=
  ⟨by decide,
    decodeLimitsType_min_only leb128DecodeUint32 leb128DecodeUint32_correct "invalid byte"
      624485 [0xe5, 0x8e, 0x26] [0xff] (by decide)⟩

/-- C17: for `uint32` numbers `a`, `b` with valid unsigned LEB128 encodings `ea`, `eb`,
`decodeLimitsType` on the bytes `0x01 ++ ea ++ eb ++ rest` returns `min = a`, a non-nil `max`
that points to `b`, and no error, leaving the reader at `rest`. Whatever the decoder and the
input, `max` is non-nil only on this path: then the flag byte was `0x01` and the error is
nil. -/
theorem decodeLimitsType_min_max (DecodeUint32 : Uint32Decoder)
    (hdec : DecodeUint32.Correct) (ErrInvalidByte : String) (a b : Nat)
    (ea eb rest : List Nat) (ha : IsUleb128 ea a) (hb : IsUleb128 eb b) :
    decodeLimitsType DecodeUint32 ErrInvalidByte (0x01 :: (ea ++ (eb ++ rest)))
      = (⟨a, some b, none⟩, rest) ∧
    ∀ (dec : Uint32Decoder) (r : List Nat),
      (decodeLimitsType dec ErrInvalidByte r).1.max ≠ none →
        r.head? = some 0x01 ∧ (decodeLimitsType dec ErrInvalidByte r).1.err = none := by
  constructor
  · simp [decodeLimitsType, ReadByte, hdec ea a (eb ++ rest) ha, hdec eb b rest hb]
  · intro dec r hmax
    rcases r with _ | ⟨flag, r⟩
    · simp [decodeLimitsType, ReadByte] at hmax
    · by_cases h0 : flag = 0
      · subst h0
        exfalso
        apply hmax
        simp only [decodeLimitsType, ReadByte]
        simp only [if_true]
        split <;> rfl
      · by_cases h1 : flag = 1
        · subst h1
          refine ⟨rfl, ?_⟩
          revert hmax
          simp only [decodeLimitsType, ReadByte]
          simp only [OfNat.ofNat_ne_zero, one_ne_zero, if_false, if_true]
          split
          · intro hmax; exact absurd rfl hmax
          · split
            · intro hmax; exact absurd rfl hmax
            · intro _; rfl
        · exfalso
          apply hmax
          simp [decodeLimitsType, ReadByte, h0, h1]

theorem decodeLimitsType_min_max_witness :
    IsUleb128 [0x01] 1 ∧ IsUleb128 [0x80, 0x80, 0x04] 65536 ∧
    decodeLimitsType leb128DecodeUint32 "invalid byte"
        (0x01 :: ([0x01] ++ ([0x80, 0x80, 0x04] ++ [0x7f])))
      = (⟨1, some 65536, none⟩, [0x7f]) ∧
    ∀ (dec : Uint32Decoder) (r : List Nat),
      (decodeLimitsType dec "invalid byte" r).1.max ≠ none →
        r.head? = some 0x01 ∧ (decodeLimitsType dec "invalid byte" r).1.err = none :=
  ⟨by decide, by decide,
    decodeLimitsType_min_max leb128DecodeUint32 leb128DecodeUint32_correct "invalid byte"
      1 65536 [0x01] [0x80, 0x80, 0x04] [0x7f] (by decide) (by decide)⟩

theorem hasSize_iff (m : MemoryInstance) (offset byteCount : Nat) (ho : offset < 2 ^ 32)
    (hn : byteCount ≤ 2 ^ 64 - 2 ^ 32) :
    m.hasSize offset byteCount = true ↔ offset + byteCount ≤ m.Buffer.length := by
  have h : (offset + byteCount) % 2 ^ 64 = offset + byteCount :=
    Nat.mod_eq_of_lt (by omega)
  simp only [MemoryInstance.hasSize, decide_eq_true_eq]
  rw [h]

/-- The rows of `TestMemoryInstance_HasSize`, on any memory of one page. -/
theorem hasSize_tests (memory : MemoryInstance) (h : memory.Buffer.length = MemoryPageSize) :
    memory.hasSize 0 8 = true ∧
    memory.hasSize (memory.Size - 8) 8 = true ∧
    memory.hasSize 100 (memory.Size - 99) = false ∧
    memory.hasSize memory.Size 1 = false ∧
    memory.hasSize (4294967295 - 1) 4 = false ∧
    memory.hasSize 4294967295 1 = false := by
  simp [MemoryInstance.hasSize, MemoryInstance.Size, h, MemoryPageSize]

/-- C19: for a `uint32` offset and a byte count that does not wrap the `uint64` sum,
`hasSize(offset, n)` is true exactly when `offset + n <= len(Buffer)`, the sum taken in the
natural numbers; for a memory of one page, offset `MaxUint32 - 1` with 4 bytes and offset
`MaxUint32` with 1 byte are rejected, and offset `Size() - 8` with 8 bytes is accepted. -/
theorem hasSize_no_wrap (m : MemoryInstance) (offset n : Nat) (ho : offset < 2 ^ 32)
    (hn : n ≤ 2 ^ 64 - 2 ^ 32) :
    (m.hasSize offset n = true ↔ offset + n ≤ m.Buffer.length) ∧
    (m.Buffer.length = MemoryPageSize →
      m.hasSize (2 ^ 32 - 1 - 1) 4 = false ∧ m.hasSize (2 ^ 32 - 1) 1 = false ∧
        m.hasSize (m.Size - 8) 8 = true) := by
  refine ⟨hasSize_iff m offset n ho hn, ?_⟩
  intro h
  simp [MemoryInstance.hasSize, MemoryInstance.Size, h, MemoryPageSize]

theorem hasSize_no_wrap_witness :
    (onePageMemory.hasSize 65532 4 = true ↔ 65532 + 4 ≤ onePageMemory.Buffer.length) ∧
    (onePageMemory.hasSize (2 ^ 32 - 1 - 1) 4 = false ∧
      onePageMemory.hasSize (2 ^ 32 - 1) 1 = false ∧
      onePageMemory.hasSize (onePageMemory.Size - 8) 8 = true) :=
  ⟨(hasSize_no_wrap onePageMemory 65532 4 (by decide) (by decide)).1,
   (hasSize_no_wrap onePageMemory 65532 4 (by decide) (by decide)).2
     (List.length_replicate _ _)⟩

theorem length_littleEndianPutUint32 (b : List Nat) (offset v : Nat) :
    (littleEndianPutUint32 b offset v).length = b.length := by
  simp [littleEndianPutUint32]

theorem getD_littleEndianPutUint32 (b : List Nat) (offset v : Nat)
    (h : offset + 4 ≤ b.length) :
    (littleEndianPutUint32 b offset v).getD offset 0 = v % 256 ∧
    (littleEndianPutUint32 b offset v).getD (offset + 1) 0 = v / 2 ^ 8 % 256 ∧
    (littleEndianPutUint32 b offset v).getD (offset + 2) 0 = v / 2 ^ 16 % 256 ∧
    (littleEndianPutUint32 b offset v).getD (offset + 3) 0 = v / 2 ^ 24 % 256 := by
  have h0 : offset < b.length := by omega
  have h1 : offset + 1 < b.length := by omega
  have h2 : offset + 2 < b.length := by omega
  have h3 : offset + 3 < b.length := by omega
  simp [littleEndianPutUint32, List.getD_eq_getElem?_getD, List.getElem?_set, h0, h1, h2, h3]

theorem getD_littleEndianPutUint32_other (b : List Nat) (offset v k : Nat)
    (hk : k < offset ∨ offset + 4 ≤ k) :
    (littleEndianPutUint32 b offset v).getD k 0 = b.getD k 0 := by
  have h0 : ¬ offset = k := by omega
  have h1 : ¬ offset + 1 = k := by omega
  have h2 : ¬ offset + 2 = k := by omega
  have h3 : ¬ offset + 3 = k := by omega
  simp [littleEndianPutUint32, List.getD_eq_getElem?_getD, List.getElem?_set, h0, h1, h2, h3]

theorem littleEndian_roundtrip (b : List Nat) (offset v : Nat) (h : offset + 4 ≤ b.length)
    (hv : v < 2 ^ 32) :
    littleEndianUint32 (littleEndianPutUint32 b offset v) offset = v := by
  obtain ⟨e0, e1, e2, e3⟩ := getD_littleEndianPutUint32 b offset v h
  unfold littleEndianUint32
  rw [e0, e1, e2, e3]
  omega

/-- The rows of `TestMemoryInstance_ReadUint32Le`. -/
theorem ReadUint32Le_tests :
    (MemoryInstance.mk [0xff, 0xff, 0xff, 0xff] 0 0 0).ReadUint32Le 0 = (4294967295, true) ∧
    (MemoryInstance.mk [0xfe, 0xff, 0xff, 0xff] 0 0 0).ReadUint32Le 0 = (4294967295 - 1, true) ∧
    (MemoryInstance.mk [0x00, 0x1, 0x00, 0x00, 0x00] 0 0 0).ReadUint32Le 1 = (1, true) ∧
    (MemoryInstance.mk [0xff, 0xff, 0xff, 0xff] 0 0 0).ReadUint32Le 1 = (0, false) := by
  decide

/-- The rows of `TestMemoryInstance_WriteUint32Le`, run one after the other on a memory of
100 zero bytes: the result and, when it is true, the four bytes at the offset. -/
theorem WriteUint32Le_tests :
    (hundredByteMemory.WriteUint32Le 0 4294967295).1 = true ∧
    (((hundredByteMemory.WriteUint32Le 0 4294967295).2.Buffer.drop 0).take 4
      = [0xff, 0xff, 0xff, 0xff]) ∧
    (((hundredByteMemory.WriteUint32Le 0 4294967295).2.WriteUint32Le 0
      (4294967295 - 1)).1 = true) ∧
    (((((hundredByteMemory.WriteUint32Le 0 4294967295).2.WriteUint32Le 0
      (4294967295 - 1)).2.Buffer.drop 0).take 4) = [0xfe, 0xff, 0xff, 0xff]) ∧
    ((((hundredByteMemory.WriteUint32Le 0 4294967295).2.WriteUint32Le 0
      (4294967295 - 1)).2.WriteUint32Le (100 - 4) 1).1 = true) ∧
    ((((((hundredByteMemory.WriteUint32Le 0 4294967295).2.WriteUint32Le 0
      (4294967295 - 1)).2.WriteUint32Le (100 - 4) 1).2.Buffer.drop (100 - 4)).take 4)
      = [0x1, 0x00, 0x00, 0x00]) ∧
    (((((hundredByteMemory.WriteUint32Le 0 4294967295).2.WriteUint32Le 0
      (4294967295 - 1)).2.WriteUint32Le (100 - 4) 1).2.WriteUint32Le (100 - 4 + 1) 1).1
      = false) := by
  decide

/-- C20: for every memory, every `uint32` offset with `offset + 4 <= len(Buffer)` and every
`uint32` number `v`, `WriteUint32Le(offset, v)` returns true, the four bytes at the offset are
then `v` in little-endian order, no other byte and not the length has changed, and
`ReadUint32Le(offset)` on the memory written returns `(v, true)`; for every `uint32` offset
with `offset + 4 > len(Buffer)` both return false, the read with the number 0 and the write
without a change of the memory. -/
theorem WriteUint32Le_ReadUint32Le (m : MemoryInstance) (offset v : Nat)
    (ho : offset < 2 ^ 32) (hv : v < 2 ^ 32) :
    (offset + 4 ≤ m.Buffer.length →
      (m.WriteUint32Le offset v).1 = true ∧
      (m.WriteUint32Le offset v).2.ReadUint32Le offset = (v, true) ∧
      ((m.WriteUint32Le offset v).2.Buffer.drop offset).take 4
        = [v % 256, v / 2 ^ 8 % 256, v / 2 ^ 16 % 256, v / 2 ^ 24 % 256] ∧
      (m.WriteUint32Le offset v).2.Buffer.length = m.Buffer.length ∧
      ∀ k, k < offset ∨ offset + 4 ≤ k →
        (m.WriteUint32Le offset v).2.Buffer.getD k 0 = m.Buffer.getD k 0) ∧
    (m.Buffer.length < offset + 4 →
      m.WriteUint32Le offset v = (false, m) ∧ m.ReadUint32Le offset = (0, false)) := by
  constructor
  · intro h
    have hs : m.hasSize offset 4 = true := (hasSize_iff m offset 4 ho (by norm_num)).2 h
    have hw : m.WriteUint32Le offset v
        = (true, MemoryInstance.mk (littleEndianPutUint32 m.Buffer offset v) m.Min m.Cap m.Max) := by
      simp [MemoryInstance.WriteUint32Le, hs]
    have hl := length_littleEndianPutUint32 m.Buffer offset v
    have hs2 : (MemoryInstance.mk (littleEndianPutUint32 m.Buffer offset v) m.Min m.Cap m.Max).hasSize offset 4
        = true := (hasSize_iff _ offset 4 ho (by norm_num)).2 (by simpa [hl] using h)
    rw [hw]
    refine ⟨rfl, ?_, ?_, hl, ?_⟩
    · simp [MemoryInstance.ReadUint32Le, hs2, littleEndian_roundtrip m.Buffer offset v h hv]
    · obtain ⟨e0, e1, e2, e3⟩ := getD_littleEndianPutUint32 m.Buffer offset v h
      apply List.ext_getElem
      · simp [hl]; omega
      · intro i h1 h2
        simp only [List.length_cons, List.length_nil] at h2
        simp only [List.getElem_take, List.getElem_drop]
        rw [List.getD_eq_getElem _ _ (by omega)] at e0 e1 e2 e3
        interval_cases i
        · simpa using e0
        · simpa using e1
        · simpa using e2
        · simpa using e3
    · intro k hk
      exact getD_littleEndianPutUint32_other m.Buffer offset v k hk
  · intro h
    have hs : m.hasSize offset 4 = false := by
      rw [← Bool.not_eq_true, hasSize_iff m offset 4 ho (by norm_num)]
      omega
    simp [MemoryInstance.WriteUint32Le, MemoryInstance.ReadUint32Le, hs]

theorem WriteUint32Le_ReadUint32Le_witness :
    ((hundredByteMemory.WriteUint32Le 96 4294967294).1 = true ∧
      (hundredByteMemory.WriteUint32Le 96 4294967294).2.ReadUint32Le 96 = (4294967294, true) ∧
      ((hundredByteMemory.WriteUint32Le 96 4294967294).2.Buffer.drop 96).take 4
        = [0xfe, 0xff, 0xff, 0xff] ∧
      (hundredByteMemory.WriteUint32Le 96 4294967294).2.Buffer.length
        = hundredByteMemory.Buffer.length ∧
      ∀ k, k < 96 ∨ 96 + 4 ≤ k →
        (hundredByteMemory.WriteUint32Le 96 4294967294).2.Buffer.getD k 0
          = hundredByteMemory.Buffer.getD k 0) ∧
    (hundredByteMemory.WriteUint32Le 97 4294967294 = (false, hundredByteMemory) ∧
      hundredByteMemory.ReadUint32Le 97 = (0, false)) :=
  ⟨(WriteUint32Le_ReadUint32Le hundredByteMemory 96 4294967294 (by decide) (by decide)).1
      (by decide),
   (WriteUint32Le_ReadUint32Le hundredByteMemory 97 4294967294 (by decide) (by decide)).2
      (by decide)⟩

/-! ### Registers and bases of the argument and result passing -/

theorem stagingReg_cases {arg : ABIArg} (h : arg.RegOK) :
    isArgResultReg (stagingReg arg) = true ∨ stagingReg arg = x15VReg ∨
      stagingReg arg = v15VReg := by
  obtain ⟨idx, kind, reg, off, typ⟩ := arg
  cases kind
  · left
    simpa [stagingReg] using h rfl
  · right
    cases typ <;> simp [stagingReg]

theorem passArgInstrs_defs {resolve : OffsetResolver} (hres : resolve.WellBehaved)
    (c : VReg) (start : Int) (arg : ABIArg) (q : VReg) (hq1 : q ≠ c) (hq2 : q ≠ tmpRegVReg)
    (hq3 : q ≠ stagingReg arg) :
    ∀ d ∈ passArgInstrs resolve c start arg, q ∉ d.defs := by
  intro d hd
  simp only [passArgInstrs, List.mem_cons] at hd
  rcases hd with rfl | hd
  · have key : ∀ t, arg.Typ = t → q ∉ (argLoad c arg).defs := by
      intro t ht
      cases t <;> simp [argLoad, ht, instrData.defs, hq1, hq3]
    exact key _ rfl
  · split_ifs at hd with hk
    · obtain ⟨h1, -, h3⟩ := hres (int64 (start + arg.Offset)) arg.Typ.Bits spVReg
      simp only [List.mem_append, List.mem_singleton] at hd
      rcases hd with hd | rfl
      · obtain ⟨c, rfl⟩ := h1 d hd
        simp [instrData.defs, hq2]
      · rcases h3 with h3 | h3 | h3 <;> simp [instrData.defs, h3]
    · simp at hd

theorem passResultInstrs_defs {resolve : OffsetResolver} (hres : resolve.WellBehaved)
    (c : VReg) (start : Int) (r : ABIArg) (q : VReg) (hq1 : q ≠ c) (hq2 : q ≠ tmpRegVReg)
    (hq3 : q ≠ x15VReg) (hq4 : q ≠ v15VReg) :
    ∀ d ∈ passResultInstrs resolve c start r, q ∉ d.defs := by
  intro d hd
  simp only [passResultInstrs, List.mem_append, List.mem_singleton] at hd
  rcases hd with hd | rfl
  · split_ifs at hd with hk
    · obtain ⟨h1, -, h3⟩ := hres (int64 (start + r.Offset)) r.Typ.Bits spVReg
      simp only [List.mem_append, List.mem_singleton] at hd
      rcases hd with hd | rfl
      · obtain ⟨c, rfl⟩ := h1 d hd
        simp [instrData.defs, hq2]
      · have key : ∀ t, r.Typ = t → ∀ mode : addressMode,
            (mode.kind = .RegUnsignedImm12 ∨ mode.kind = .RegSignedImm9 ∨
              mode.kind = .RegReg) → q ∉ (resultStackLoad mode r).defs := by
          intro t ht mode hm
          cases t <;> rcases hm with hm | hm | hm <;>
            simp [resultStackLoad, stagingReg, hk, ht, instrData.defs, hm, hq3, hq4]
        exact key _ rfl _ h3
    · simp at hd
  · simp [resultStore, instrData.defs, hq1]

theorem passArgInstrs_base {resolve : OffsetResolver} (hres : resolve.WellBehaved)
    (c : VReg) (start : Int) (arg : ABIArg) :
    ∀ d ∈ passArgInstrs resolve c start arg,
      d.base = none ∨ d.base = some c ∨ d.base = some spVReg := by
  intro d hd
  simp only [passArgInstrs, List.mem_cons] at hd
  rcases hd with rfl | hd
  · obtain ⟨idx, kind, reg, off, typ⟩ := arg
    cases typ <;> simp [argLoad, instrData.base]
  · split_ifs at hd with hk
    · obtain ⟨h1, h2, -⟩ := hres (int64 (start + arg.Offset)) arg.Typ.Bits spVReg
      simp only [List.mem_append, List.mem_singleton] at hd
      rcases hd with hd | rfl
      · obtain ⟨c, rfl⟩ := h1 d hd
        simp [instrData.base]
      · simp [instrData.base, h2]
    · simp at hd

theorem passResultInstrs_base {resolve : OffsetResolver} (hres : resolve.WellBehaved)
    (c : VReg) (start : Int) (r : ABIArg) :
    ∀ d ∈ passResultInstrs resolve c start r,
      d.base = none ∨ d.base = some c ∨ d.base = some spVReg := by
  intro d hd
  simp only [passResultInstrs, List.mem_append, List.mem_singleton] at hd
  rcases hd with hd | rfl
  · split_ifs at hd with hk
    · obtain ⟨h1, h2, -⟩ := hres (int64 (start + r.Offset)) r.Typ.Bits spVReg
      simp only [List.mem_append, List.mem_singleton] at hd
      rcases hd with hd | rfl
      · obtain ⟨c, rfl⟩ := h1 d hd
        simp [instrData.base]
      · obtain ⟨idx, kind, reg, off, typ⟩ := r
        cases typ <;> simp [resultStackLoad, instrData.base, h2]
    · simp at hd
  · simp [resultStore, instrData.base]

theorem paramCursorReg_cases (a : abiImpl) :
    paramCursorReg a = x19VReg ∨ paramCursorReg a = x25VReg := by
  unfold paramCursorReg
  split_ifs
  · right; rfl
  · left; rfl

theorem stagingReg_ne_x20 {arg : ABIArg} (h : arg.RegOK) :
    x20VReg ≠ stagingReg arg ∧ spVReg ≠ stagingReg arg := by
  rcases stagingReg_cases h with h1 | h1 | h1
  · generalize stagingReg arg = s at h1
    cases s with
    | x n =>
      have : n < 8 := by simpa [isArgResultReg] using h1
      constructor
      · simp [x20VReg]; omega
      · simp [spVReg]
    | v n => constructor <;> simp [x20VReg, spVReg]
    | sp => simp [isArgResultReg] at h1
  · rw [h1]; constructor <;> simp [x20VReg, spVReg, x15VReg]
  · rw [h1]; constructor <;> simp [x20VReg, spVReg, v15VReg]

/-! ### Save and restore of FP, SP and LR -/

/-- C14: in the list built by `constructEntryPreamble` the last five instructions load FP,
SP (through the temporary register, then `mov sp, tmp`) and LR from the execution-context
offsets `OriginalFramePointer`, `OriginalStackPointer` and `GoReturnAddress` at which the
instructions 3 to 6 of the list stored them, and return; each of these accesses is 64 bits
wide in the unsigned-imm12 form with base x20, which the second instruction of the list sets
to x0 and no later instruction of the list writes; no instruction of the list has x0 as its
base. -/
theorem constructEntryPreamble_restore (resolve : OffsetResolver)
    (hres : resolve.WellBehaved) (offs : ExecutionContextOffsets) (m : machine) (a : abiImpl)
    (hregs : ∀ arg ∈ a.args, arg.RegOK) :
    ∃ mid : List instrData,
      (constructEntryPreamble resolve offs m a).1.instructionsFrom
          (constructEntryPreamble resolve offs m a).2
        = [.nop0,
           .mov64 x20VReg x0VReg,
           .store fpVReg ⟨.RegUnsignedImm12, x20VReg, none, offs.OriginalFramePointer⟩ 64,
           .mov64 tmpRegVReg spVReg,
           .store tmpRegVReg ⟨.RegUnsignedImm12, x20VReg, none, offs.OriginalStackPointer⟩ 64,
           .store lrVReg ⟨.RegUnsignedImm12, x20VReg, none, offs.GoReturnAddress⟩ 64]
          ++ mid ++
          [.uLoad fpVReg ⟨.RegUnsignedImm12, x20VReg, none, offs.OriginalFramePointer⟩ 64,
           .uLoad tmpRegVReg ⟨.RegUnsignedImm12, x20VReg, none, offs.OriginalStackPointer⟩ 64,
           .mov64 spVReg tmpRegVReg,
           .uLoad lrVReg ⟨.RegUnsignedImm12, x20VReg, none, offs.GoReturnAddress⟩ 64,
           .ret] ∧
      (∀ d ∈ mid, x20VReg ∉ d.defs) ∧
      (∀ d ∈ (constructEntryPreamble resolve offs m a).1.instructionsFrom
          (constructEntryPreamble resolve offs m a).2, d.base ≠ some x0VReg) := by
  rw [constructEntryPreamble_instructions]
  refine ⟨[.mov64 spVReg goAllocatedStackPtr]
      ++ ((if a.args.length > 2 ∧ a.rets.length > 0 then
            [.mov64 paramResultSliceCopied paramResultSlicePtr] else [])
      ++ (a.args.drop 2).flatMap
            (passArgInstrs resolve (paramCursorReg a) (int64 (-a.alignedArgResultStackSlotSize))))
      ++ [.callIndirect functionExecutable]
      ++ a.rets.flatMap
        (passResultInstrs resolve paramResultSlicePtr
          (int64 (a.argStackSize - a.alignedArgResultStackSlotSize))), ?_, ?_, ?_⟩
  · simp [preambleBeforeCall, preambleAfterCall, savedExecutionContextPtr,
      executionContextPtrReg]
  · intro d hd
    simp only [List.mem_append, List.mem_singleton, List.mem_flatMap] at hd
    rcases hd with (((rfl | hd | ⟨arg, harg, hd⟩) | rfl) | ⟨r, -, hd⟩)
    · simp [instrData.defs, spVReg, x20VReg]
    · split_ifs at hd
      · simp only [List.mem_singleton] at hd
        subst hd
        simp [instrData.defs, paramResultSliceCopied, x25VReg, x20VReg]
      · simp at hd
    · refine passArgInstrs_defs hres _ _ arg x20VReg ?_ (by decide)
        (stagingReg_ne_x20 (hregs arg (List.mem_of_mem_drop harg))).1 d hd
      rcases paramCursorReg_cases a with h | h <;> rw [h] <;> decide
    · simp [instrData.defs]
    · exact passResultInstrs_defs hres _ _ r x20VReg (by decide) (by decide) (by decide)
        (by decide) d hd
  · intro d hd
    simp only [preambleBeforeCall, preambleAfterCall, List.mem_append, List.mem_cons,
      List.mem_singleton, List.mem_flatMap, List.not_mem_nil, or_false] at hd
    rcases hd with ((hd | hd | ⟨arg, -, hd⟩) | rfl | ⟨r, -, hd⟩ | hd)
    · rcases hd with rfl | rfl | rfl | rfl | rfl | rfl | rfl <;>
        simp [instrData.base, savedExecutionContextPtr, x20VReg, x0VReg]
    · split_ifs at hd
      · simp only [List.mem_singleton] at hd
        subst hd
        simp [instrData.base]
      · simp at hd
    · rcases passArgInstrs_base hres _ _ arg d hd with h | h | h
      · simp [h]
      · rcases paramCursorReg_cases a with h2 | h2 <;> rw [h, h2] <;> decide
      · rw [h]; decide
    · simp [instrData.base]
    · rcases passResultInstrs_base hres _ _ r d hd with h | h | h <;> rw [h] <;> decide
    · rcases hd with rfl | rfl | rfl | rfl | rfl <;>
        simp [instrData.base, savedExecutionContextPtr, x20VReg, x0VReg]

set_option maxRecDepth 100000 in
theorem constructEntryPreamble_restore_witness :
    ∃ mid : List instrData,
      (constructEntryPreamble resolveAddressModeForOffset exampleOffsets ⟨[]⟩
          exampleABI).1.instructionsFrom
          (constructEntryPreamble resolveAddressModeForOffset exampleOffsets ⟨[]⟩ exampleABI).2
        = [.nop0,
           .mov64 x20VReg x0VReg,
           .store fpVReg ⟨.RegUnsignedImm12, x20VReg, none, 16⟩ 64,
           .mov64 tmpRegVReg spVReg,
           .store tmpRegVReg ⟨.RegUnsignedImm12, x20VReg, none, 24⟩ 64,
           .store lrVReg ⟨.RegUnsignedImm12, x20VReg, none, 32⟩ 64]
          ++ mid ++
          [.uLoad fpVReg ⟨.RegUnsignedImm12, x20VReg, none, 16⟩ 64,
           .uLoad tmpRegVReg ⟨.RegUnsignedImm12, x20VReg, none, 24⟩ 64,
           .mov64 spVReg tmpRegVReg,
           .uLoad lrVReg ⟨.RegUnsignedImm12, x20VReg, none, 32⟩ 64,
           .ret] ∧
      (∀ d ∈ mid, x20VReg ∉ d.defs) ∧
      (∀ d ∈ (constructEntryPreamble resolveAddressModeForOffset exampleOffsets ⟨[]⟩
          exampleABI).1.instructionsFrom
          (constructEntryPreamble resolveAddressModeForOffset exampleOffsets ⟨[]⟩ exampleABI).2,
        d.base ≠ some x0VReg) :=
  constructEntryPreamble_restore resolveAddressModeForOffset
    resolveAddressModeForOffset_wellBehaved exampleOffsets ⟨[]⟩ exampleABI exampleABI_regOK

/-! ### The stack areas of arguments and results -/

theorem int64_eq_self (z : Int) (h1 : -2 ^ 63 ≤ z) (h2 : z < 2 ^ 63) : int64 z = z := by
  unfold int64
  omega

theorem alignedArgResultStackSlotSize_range (a : abiImpl) :
    -2 ^ 63 ≤ a.alignedArgResultStackSlotSize ∧ a.alignedArgResultStackSlotSize < 2 ^ 63 := by
  simp only [abiImpl.alignedArgResultStackSlotSize, int64]
  constructor <;> omega

theorem alignedArgResultStackSlotSize_eq (a : abiImpl) (h0 : 0 ≤ a.argStackSize)
    (h1 : 0 ≤ a.retStackSize) (h2 : a.argStackSize + a.retStackSize < 2 ^ 62) :
    a.alignedArgResultStackSlotSize = (a.argStackSize + a.retStackSize + 15) / 16 * 16 ∧
    a.argStackSize + a.retStackSize ≤ a.alignedArgResultStackSlotSize ∧
    a.alignedArgResultStackSlotSize < a.argStackSize + a.retStackSize + 16 ∧
    a.alignedArgResultStackSlotSize % 16 = 0 := by
  simp only [abiImpl.alignedArgResultStackSlotSize, int64]
  refine ⟨?_, ?_, ?_, ?_⟩ <;> omega

theorem resolveAddressModeForOffset_exact : OffsetResolver.Exact resolveAddressModeForOffset := by
  intro offset dstBits rn
  unfold resolveAddressModeForOffset
  simp only
  split_ifs <;> simp [resolvedDisplacement]

theorem filter_flatMap_ite {α : Type} (p : instrData → Bool) (f : α → List instrData)
    (q : α → Bool) (g : α → instrData) (l : List α)
    (h : ∀ x, (f x).filter p = if q x then [g x] else []) :
    (l.flatMap f).filter p = (l.filter q).map g := by
  induction l with
  | nil => rfl
  | cons x xs ih =>
    simp only [List.flatMap_cons, List.filter_append, h, ih, List.filter_cons]
    cases q x <;> simp

theorem resolve_pending_isStackAccess {resolve : OffsetResolver} (hres : resolve.WellBehaved)
    (o : Int) (b : Nat) : (resolve o b spVReg).1.filter (·.isStackAccess) = [] := by
  rw [List.filter_eq_nil_iff]
  intro d hd
  obtain ⟨c, rfl⟩ := (hres o b spVReg).1 d hd
  simp [instrData.isStackAccess, instrData.base]

theorem filter_isStackAccess_passArgInstrs {resolve : OffsetResolver}
    (hres : resolve.WellBehaved) (c : VReg) (hc : c ≠ spVReg) (stackSlotSize : Int)
    (arg : ABIArg) :
    (passArgInstrs resolve c (int64 (-stackSlotSize)) arg).filter (·.isStackAccess)
      = if arg.isStack then [argStackStore resolve stackSlotSize arg] else [] := by
  have h1 : (argLoad c arg).isStackAccess = false := by
    have key : ∀ t, arg.Typ = t → (argLoad c arg).isStackAccess = false := by
      intro t ht
      cases t <;> simp [argLoad, ht, instrData.isStackAccess, instrData.base, hc]
    exact key _ rfl
  unfold passArgInstrs
  rw [List.filter_cons_of_neg (by simp [h1])]
  by_cases hk : arg.Kind = .ABIArgKindStack
  · have h2 := (hres (int64 (int64 (-stackSlotSize) + arg.Offset)) arg.Typ.Bits spVReg).2.1
    have h3 : (argStackStore resolve stackSlotSize arg).isStackAccess = true := by
      simp [argStackStore, instrData.isStackAccess, instrData.base, h2]
    simp only [hk, if_true, ABIArg.isStack, beq_self_eq_true, List.filter_append,
      resolve_pending_isStackAccess hres, List.nil_append]
    exact List.filter_cons_of_pos (by simpa [argStackStore] using h3)
  · simp [hk, ABIArg.isStack]

theorem filter_isStackAccess_passResultInstrs {resolve : OffsetResolver}
    (hres : resolve.WellBehaved) (c : VReg) (hc : c ≠ spVReg) (argStackSize stackSlotSize : Int)
    (r : ABIArg) :
    (passResultInstrs resolve c (int64 (argStackSize - stackSlotSize)) r).filter
        (·.isStackAccess)
      = if r.isStack then [resultStackLoadAt resolve argStackSize stackSlotSize r] else [] := by
  have h1 : (resultStore c r).isStackAccess = false := by
    simp [resultStore, instrData.isStackAccess, instrData.base, hc]
  unfold passResultInstrs
  by_cases hk : r.Kind = .ABIArgKindStack
  · have h2 := (hres (int64 (int64 (argStackSize - stackSlotSize) + r.Offset)) r.Typ.Bits
      spVReg).2.1
    have h3 : (resultStackLoadAt resolve argStackSize stackSlotSize r).isStackAccess = true := by
      have key : ∀ t, r.Typ = t →
          (resultStackLoadAt resolve argStackSize stackSlotSize r).isStackAccess = true := by
        intro t ht
        cases t <;>
          simp [resultStackLoadAt, resultStackLoad, ht, instrData.isStackAccess,
            instrData.base] <;> simpa [ht] using h2
      exact key _ rfl
    simp only [hk, if_true, ABIArg.isStack, List.filter_append,
      resolve_pending_isStackAccess hres, List.nil_append, beq_self_eq_true]
    have h4 : (resultStackLoad (resolve (int64 (int64 (argStackSize - stackSlotSize)
        + r.Offset)) r.Typ.Bits spVReg).2 r).isStackAccess = true := h3
    rw [List.filter_cons_of_pos h4, List.filter_cons_of_neg (by simp [h1])]
    rfl
  · simp [hk, ABIArg.isStack, h1]

theorem filter_isStackAccess_preamble {resolve : OffsetResolver} (hres : resolve.WellBehaved)
    (offs : ExecutionContextOffsets) (a : abiImpl) :
    (preambleBeforeCall resolve offs a ++ .callIndirect functionExecutable ::
        preambleAfterCall resolve offs a).filter (·.isStackAccess)
      = ((a.args.drop 2).filter (·.isStack)).map
          (argStackStore resolve a.alignedArgResultStackSlotSize)
        ++ (a.rets.filter (·.isStack)).map
          (resultStackLoadAt resolve a.argStackSize a.alignedArgResultStackSlotSize) := by
  have hc : paramCursorReg a ≠ spVReg := by
    rcases paramCursorReg_cases a with h | h <;> rw [h] <;> decide
  have h1 := filter_flatMap_ite (·.isStackAccess)
    (passArgInstrs resolve (paramCursorReg a) (int64 (-a.alignedArgResultStackSlotSize)))
    (·.isStack) (argStackStore resolve a.alignedArgResultStackSlotSize) (a.args.drop 2)
    (fun x => filter_isStackAccess_passArgInstrs hres _ hc _ x)
  have h2 := filter_flatMap_ite (·.isStackAccess)
    (passResultInstrs resolve paramResultSlicePtr
      (int64 (a.argStackSize - a.alignedArgResultStackSlotSize)))
    (·.isStack) (resultStackLoadAt resolve a.argStackSize a.alignedArgResultStackSlotSize)
    a.rets
    (fun x => filter_isStackAccess_passResultInstrs hres _ (by decide) _ _ x)
  have h3 : (if a.args.length > 2 ∧ a.rets.length > 0 then
      [instrData.mov64 paramResultSliceCopied paramResultSlicePtr] else []).filter
      (·.isStackAccess) = [] := by
    split_ifs <;> simp [instrData.isStackAccess, instrData.base]
  simp only [preambleBeforeCall, preambleAfterCall, List.filter_append, List.filter_cons, h1,
    h2, h3]
  simp [instrData.isStackAccess, instrData.base, savedExecutionContextPtr, x20VReg, spVReg]

/-- C13: in the list built by `constructEntryPreamble`, with `S` the value of
`alignedArgResultStackSlotSize()`, the accesses with base SP are, in order, one store for
every stack-passed argument, to the address mode resolved for the offset `-S + arg.Offset`
from SP, and one load for every stack-passed result, from the address mode resolved for
`-S + argStackSize + result.Offset`, each with the width of its type. When the stack
arguments lie in `[0, argStackSize)`, the stack results in `[0, retStackSize)` and `S` is at
least `argStackSize + retStackSize`, as rounding the sum up to 16 gives, every argument is
stored inside `[SP - S, SP - S + argStackSize)` and every result is loaded from inside
`[SP - S + argStackSize, SP - S + argStackSize + retStackSize)`, which ends at or below SP:
the result area begins where the argument area ends and both lie below SP. -/
theorem constructEntryPreamble_stack_areas (resolve : OffsetResolver)
    (hres : resolve.WellBehaved) (hexact : resolve.Exact) (offs : ExecutionContextOffsets)
    (m : machine) (a : abiImpl) (h0 : 0 ≤ a.argStackSize) (h1 : 0 ≤ a.retStackSize)
    (hS : a.argStackSize + a.retStackSize ≤ a.alignedArgResultStackSlotSize)
    (hargs : ∀ arg ∈ a.args.drop 2, arg.Kind = .ABIArgKindStack →
      0 ≤ arg.Offset ∧ arg.Offset + arg.Typ.Bits / 8 ≤ a.argStackSize)
    (hrets : ∀ r ∈ a.rets, r.Kind = .ABIArgKindStack →
      0 ≤ r.Offset ∧ r.Offset + r.Typ.Bits / 8 ≤ a.retStackSize) :
    ((constructEntryPreamble resolve offs m a).1.instructionsFrom
        (constructEntryPreamble resolve offs m a).2).filter (·.isStackAccess)
      = ((a.args.drop 2).filter (·.isStack)).map
          (argStackStore resolve a.alignedArgResultStackSlotSize)
        ++ (a.rets.filter (·.isStack)).map
          (resultStackLoadAt resolve a.argStackSize a.alignedArgResultStackSlotSize) ∧
    (∀ arg ∈ a.args.drop 2, arg.Kind = .ABIArgKindStack →
      argStackStore resolve a.alignedArgResultStackSlotSize arg
        = .store (stagingReg arg)
            (resolve (-a.alignedArgResultStackSlotSize + arg.Offset) arg.Typ.Bits spVReg).2
            arg.Typ.Bits ∧
      (resolve (-a.alignedArgResultStackSlotSize + arg.Offset) arg.Typ.Bits spVReg).2.rn
        = spVReg ∧
      resolvedDisplacement
          (resolve (-a.alignedArgResultStackSlotSize + arg.Offset) arg.Typ.Bits spVReg)
        = some (-a.alignedArgResultStackSlotSize + arg.Offset) ∧
      -a.alignedArgResultStackSlotSize ≤ -a.alignedArgResultStackSlotSize + arg.Offset ∧
      -a.alignedArgResultStackSlotSize + arg.Offset + arg.Typ.Bits / 8
        ≤ -a.alignedArgResultStackSlotSize + a.argStackSize) ∧
    (∀ r ∈ a.rets, r.Kind = .ABIArgKindStack →
      resultStackLoadAt resolve a.argStackSize a.alignedArgResultStackSlotSize r
        = resultStackLoad
            (resolve (-a.alignedArgResultStackSlotSize + a.argStackSize + r.Offset)
              r.Typ.Bits spVReg).2 r ∧
      (resolve (-a.alignedArgResultStackSlotSize + a.argStackSize + r.Offset)
        r.Typ.Bits spVReg).2.rn = spVReg ∧
      resolvedDisplacement
          (resolve (-a.alignedArgResultStackSlotSize + a.argStackSize + r.Offset)
            r.Typ.Bits spVReg)
        = some (-a.alignedArgResultStackSlotSize + a.argStackSize + r.Offset) ∧
      -a.alignedArgResultStackSlotSize + a.argStackSize
        ≤ -a.alignedArgResultStackSlotSize + a.argStackSize + r.Offset ∧
      -a.alignedArgResultStackSlotSize + a.argStackSize + r.Offset + r.Typ.Bits / 8
        ≤ -a.alignedArgResultStackSlotSize + a.argStackSize + a.retStackSize) ∧
    -a.alignedArgResultStackSlotSize + a.argStackSize + a.retStackSize ≤ 0 := by
  obtain ⟨hlo, hhi⟩ := alignedArgResultStackSlotSize_range a
  refine ⟨?_, ?_, ?_, by omega⟩
  · rw [constructEntryPreamble_instructions]
    exact filter_isStackAccess_preamble hres offs a
  · intro arg harg hk
    obtain ⟨ho, hb⟩ := hargs arg harg hk
    have e1 : int64 (-a.alignedArgResultStackSlotSize) = -a.alignedArgResultStackSlotSize :=
      int64_eq_self _ (by omega) (by omega)
    have e2 : int64 (-a.alignedArgResultStackSlotSize + arg.Offset)
        = -a.alignedArgResultStackSlotSize + arg.Offset :=
      int64_eq_self _ (by omega) (by omega)
    have hx := hexact (-a.alignedArgResultStackSlotSize + arg.Offset) arg.Typ.Bits spVReg
    refine ⟨by simp [argStackStore, e1, e2], hx.1, hx.2, by omega, by omega⟩
  · intro r hr hk
    obtain ⟨ho, hb⟩ := hrets r hr hk
    have e1 : int64 (a.argStackSize - a.alignedArgResultStackSlotSize)
        = a.argStackSize - a.alignedArgResultStackSlotSize :=
      int64_eq_self _ (by omega) (by omega)
    have e2 : int64 (a.argStackSize - a.alignedArgResultStackSlotSize + r.Offset)
        = -a.alignedArgResultStackSlotSize + a.argStackSize + r.Offset := by
      rw [int64_eq_self _ (by omega) (by omega)]
      omega
    have hx := hexact (-a.alignedArgResultStackSlotSize + a.argStackSize + r.Offset)
      r.Typ.Bits spVReg
    refine ⟨by simp [resultStackLoadAt, e1, e2], hx.1, hx.2, by omega, by omega⟩

theorem stackABI_layout :
    (0 : Int) ≤ stackABI.argStackSize ∧ (0 : Int) ≤ stackABI.retStackSize ∧
    stackABI.argStackSize + stackABI.retStackSize ≤ stackABI.alignedArgResultStackSlotSize ∧
    stackABI.alignedArgResultStackSlotSize = 48 ∧
    (∀ arg ∈ stackABI.args.drop 2, arg.Kind = .ABIArgKindStack →
      0 ≤ arg.Offset ∧ arg.Offset + arg.Typ.Bits / 8 ≤ stackABI.argStackSize) ∧
    (∀ r ∈ stackABI.rets, r.Kind = .ABIArgKindStack →
      0 ≤ r.Offset ∧ r.Offset + r.Typ.Bits / 8 ≤ stackABI.retStackSize) := by
  decide

set_option maxRecDepth 100000 in
theorem constructEntryPreamble_stack_areas_witness :
    ((constructEntryPreamble resolveAddressModeForOffset exampleOffsets ⟨[]⟩
        stackABI).1.instructionsFrom
        (constructEntryPreamble resolveAddressModeForOffset exampleOffsets ⟨[]⟩
          stackABI).2).filter (·.isStackAccess)
      = [.store x15VReg ⟨.RegSignedImm9, spVReg, none, -48⟩ 64,
         .store v15VReg ⟨.RegSignedImm9, spVReg, none, -40⟩ 128,
         .fpuLoad v15VReg ⟨.RegSignedImm9, spVReg, none, -24⟩ 32,
         .uLoad x15VReg ⟨.RegSignedImm9, spVReg, none, -16⟩ 64] ∧
    -stackABI.alignedArgResultStackSlotSize + stackABI.argStackSize + stackABI.retStackSize
      ≤ 0 :=
  ⟨(constructEntryPreamble_stack_areas resolveAddressModeForOffset
      resolveAddressModeForOffset_wellBehaved resolveAddressModeForOffset_exact exampleOffsets
      ⟨[]⟩ stackABI stackABI_layout.1 stackABI_layout.2.1 stackABI_layout.2.2.1
      stackABI_layout.2.2.2.2.1 stackABI_layout.2.2.2.2.2).1.trans (by rfl),
   (constructEntryPreamble_stack_areas resolveAddressModeForOffset
      resolveAddressModeForOffset_wellBehaved resolveAddressModeForOffset_exact exampleOffsets
      ⟨[]⟩ stackABI stackABI_layout.1 stackABI_layout.2.1 stackABI_layout.2.2.1
      stackABI_layout.2.2.2.2.1 stackABI_layout.2.2.2.2.2).2.2.2⟩

/-! ### The locations of arguments and results -/

/-- The model of `setABIArgs` gives the 40 results of `call_many_returns` the locations of
the listing, and a return space of 0xc0 bytes, the distance below SP of the first stack
result in the caller (`ldr w150?, [sp, #-0xc0]`). -/
theorem setABIArgs_callManyReturns :
    (setABIArgs callManyReturnsResults).1.map ABIArg.location = callManyReturnsListing ∧
    (setABIArgs callManyReturnsResults).2 = 0xc0 ∧
    (setABIArgs callManyReturnsParams).1.map ABIArg.location
      = [.reg (.x 0), .reg (.x 1), .reg (.x 2), .reg (.x 3), .reg (.v 0), .reg (.v 1)] := by
  decide

theorem setABIArgsFrom_append (pre post : List ssaType) (i : Nat) (st : ABIState) :
    setABIArgsFrom (pre ++ post) i st
      = ((setABIArgsFrom pre i st).1
          ++ (setABIArgsFrom post (i + pre.length) (setABIArgsFrom pre i st).2).1,
         (setABIArgsFrom post (i + pre.length) (setABIArgsFrom pre i st).2).2) := by
  induction pre generalizing i st with
  | nil => simp [setABIArgsFrom]
  | cons t ts ih =>
    have e : i + 1 + ts.length = i + (ts.length + 1) := by omega
    simp [setABIArgsFrom, ih, e]

theorem setABIArgsFrom_length (types : List ssaType) (i : Nat) (st : ABIState) :
    (setABIArgsFrom types i st).1.length = types.length := by
  induction types generalizing i st with
  | nil => rfl
  | cons t ts ih => simp [setABIArgsFrom, ih]

theorem setABIArgsFrom_nextX (types : List ssaType) (i : Nat) (st : ABIState)
    (h : st.nextX ≤ 8) :
    (setABIArgsFrom types i st).2.nextX = min 8 (st.nextX + (types.filter (·.IsInt)).length) := by
  induction types generalizing i st with
  | nil => simp [setABIArgsFrom]; omega
  | cons t ts ih =>
    simp only [setABIArgsFrom, List.filter_cons]
    by_cases ht : t.IsInt = true
    · by_cases hx : st.nextX ≥ 8
      · have h2 : (setABIArg st i t).2.nextX = st.nextX := by
          simp [setABIArg, ht, xArgRetRegs, hx]
        rw [ih _ _ (by rw [h2]; exact h), h2]
        simp [ht]
        omega
      · have h2 : (setABIArg st i t).2.nextX = st.nextX + 1 := by
          simp [setABIArg, ht, xArgRetRegs, hx]
        rw [ih _ _ (by rw [h2]; omega), h2]
        simp [ht]
        omega
    · have h2 : (setABIArg st i t).2.nextX = st.nextX := by
        simp only [setABIArg, ht]
        split_ifs <;> simp_all
      rw [ih _ _ (by rw [h2]; exact h), h2]
      simp [ht]

theorem setABIArgs_getElem? (types : List ssaType) (k : Nat) (typ : ssaType)
    (hk : types[k]? = some typ) :
    (setABIArgs types).1[k]?
      = some (setABIArg (setABIArgsFrom (types.take k) 0 ⟨0, 0, 0⟩).2 k typ).1 := by
  have hlt : k < types.length := by
    by_contra hcon
    rw [List.getElem?_eq_none (by omega)] at hk
    cases hk
  have hsplit : types = types.take k ++ typ :: types.drop (k + 1) := by
    have h1 : types[k] = typ := by
      rw [List.getElem?_eq_getElem hlt] at hk
      exact Option.some.inj hk
    rw [← h1, List.getElem_cons_drop, List.take_append_drop]
  have hlen : (types.take k).length = k := by
    rw [List.length_take]; omega
  unfold setABIArgs
  simp only
  conv_lhs => rw [hsplit]
  rw [setABIArgsFrom_append]
  simp only
  rw [List.getElem?_append_right (by rw [setABIArgsFrom_length, hlen])]
  simp [setABIArgsFrom_length, hlen, setABIArgsFrom]

theorem xArgRetRegs_getD : ∀ n, n < 8 → xArgRetRegs.getD n (.x 0) = .x n := by
  decide

/-- The first integer result of `call_many_returns` is passed in x0 and the second in x1,
while its first Wasm-level integer argument, the third of the argument list, is passed in
x2: integer results do not fill x2..x7 with x0 and x1 reserved. -/
theorem callManyReturns_results_in_x0_x1 :
    ((abiImpl.init ⟨callManyReturnsParams, callManyReturnsResults⟩).rets.map
        ABIArg.location).take 2 = [.reg (.x 0), .reg (.x 1)] ∧
    ((abiImpl.init ⟨callManyReturnsParams, callManyReturnsResults⟩).args.map
        ABIArg.location).take 3 = [.reg (.x 0), .reg (.x 1), .reg (.x 2)] ∧
    callManyReturnsListing.take 2 = [.reg (.x 0), .reg (.x 1)] := by
  decide

/-- C12: the results are assigned by the rule of the arguments, applied to the result types
from the first register on. The integer value number `i` of a list of types, counted from 0
among the integer values, is passed in the register x`i` when `i < 8`; integer results thus
fill x0..x7, none reserved (in the argument list x0 and x1 go to the two context pointers that
lead it). From the ninth on an integer value is passed on the stack, at the offset that the
values before it have used, in a slot of 8 bytes. -/
theorem setABIArgs_integer_locations (types : List ssaType) (k : Nat) (typ : ssaType)
    (hk : types[k]? = some typ) (hint : typ.IsInt = true) :
    (intIndex types k < 8 →
      (setABIArgs types).1[k]?
        = some ⟨k, .ABIArgKindReg, .x (intIndex types k), 0, typ⟩) ∧
    (8 ≤ intIndex types k →
      (setABIArgs types).1[k]?
        = some ⟨k, .ABIArgKindStack, .x 0, (setABIArgs (types.take k)).2, typ⟩ ∧
      (setABIArgs (types.take (k + 1))).2 = (setABIArgs (types.take k)).2 + 8) ∧
    (∀ sig : Signature, (abiImpl.init sig).rets = (setABIArgs sig.Results).1 ∧
      (abiImpl.init sig).args = (setABIArgs sig.Params).1) := by
  have hx := setABIArgsFrom_nextX (types.take k) 0 ⟨0, 0, 0⟩ (by decide)
  simp only [Nat.zero_add] at hx
  have hentry := setABIArgs_getElem? types k typ hk
  refine ⟨?_, ?_, fun sig => ⟨rfl, rfl⟩⟩
  · intro hlt
    have hx2 : (setABIArgsFrom (types.take k) 0 ⟨0, 0, 0⟩).2.nextX = intIndex types k := by
      rw [hx]; unfold intIndex at hlt ⊢; omega
    rw [hentry]
    simp only [setABIArg, hint, if_true, hx2, xArgRetRegs_getD _ hlt]
    have : ¬ (intIndex types k ≥ xArgRetRegs.length) := by
      simp [xArgRetRegs]; omega
    simp [this]
  · intro hge
    have hx2 : (setABIArgsFrom (types.take k) 0 ⟨0, 0, 0⟩).2.nextX = 8 := by
      rw [hx]; unfold intIndex at hge; omega
    have hstep : ∀ st : ABIState, st.nextX = 8 →
        setABIArg st k typ = (⟨k, .ABIArgKindStack, .x 0, st.stackOffset, typ⟩,
          ⟨st.nextX, st.nextV, st.stackOffset + 8⟩) := by
      intro st hst
      simp [setABIArg, hint, hst, xArgRetRegs]
    constructor
    · rw [hentry, hstep _ hx2]
      rfl
    · have hlt : k < types.length := by
        by_contra hcon
        rw [List.getElem?_eq_none (by omega)] at hk
        cases hk
      have h1 : types[k] = typ := by
        rw [List.getElem?_eq_getElem hlt] at hk
        exact Option.some.inj hk
      have htake : types.take (k + 1) = types.take k ++ [typ] := by
        rw [List.take_succ, List.getElem?_eq_getElem hlt, h1]
        rfl
      have hlen : (types.take k).length = k := by
        rw [List.length_take]; omega
      unfold setABIArgs
      simp only
      rw [htake, setABIArgsFrom_append]
      simp only [setABIArgsFrom, Nat.zero_add, hlen]
      rw [hstep _ hx2]

theorem setABIArgs_integer_locations_witness :
    (setABIArgs callManyReturnsResults).1[5]? = some ⟨5, .ABIArgKindReg, .x 3, 0, .TypeI64⟩ ∧
    ((setABIArgs callManyReturnsResults).1[32]?
        = some ⟨32, .ABIArgKindStack, .x 0, (setABIArgs (callManyReturnsResults.take 32)).2,
            .TypeI32⟩ ∧
      (setABIArgs (callManyReturnsResults.take (32 + 1))).2
        = (setABIArgs (callManyReturnsResults.take 32)).2 + 8) :=
  ⟨(setABIArgs_integer_locations callManyReturnsResults 5 .TypeI64 (by decide) rfl).1
      (by decide),
   (setABIArgs_integer_locations callManyReturnsResults 32 .TypeI32 (by decide) rfl).2.1
      (by decide)⟩

/-! ### Limits without an ordering check -/

/-- C26: `decodeLimitsType` makes no ordering check between the two limits: on the bytes
`0x01 0x02 0x01` it returns `min = 2` with `max` pointing to 1 and a nil error, and for every
pair of numbers with valid encodings, in whatever order, it returns them as `min` and `max`
with a nil error. -/
theorem decodeLimitsType_no_order_check (DecodeUint32 : Uint32Decoder)
    (hdec : DecodeUint32.Correct) (ErrInvalidByte : String) :
    decodeLimitsType DecodeUint32 ErrInvalidByte [0x01, 0x02, 0x01]
      = (⟨2, some 1, none⟩, []) ∧
    (∃ r : List Nat, ∃ mn mx : Nat,
      decodeLimitsType DecodeUint32 ErrInvalidByte r = (⟨mn, some mx, none⟩, []) ∧ mx < mn) ∧
    ∀ (a b : Nat) (ea eb rest : List Nat), IsUleb128 ea a → IsUleb128 eb b →
      decodeLimitsType DecodeUint32 ErrInvalidByte (0x01 :: (ea ++ (eb ++ rest)))
        = (⟨a, some b, none⟩, rest) := by
  have h2 : IsUleb128 [0x02] 2 := by decide
  have h1 : IsUleb128 [0x01] 1 := by decide
  have key : ∀ (a b : Nat) (ea eb rest : List Nat), IsUleb128 ea a → IsUleb128 eb b →
      decodeLimitsType DecodeUint32 ErrInvalidByte (0x01 :: (ea ++ (eb ++ rest)))
        = (⟨a, some b, none⟩, rest) := by
    intro a b ea eb rest ha hb
    simp [decodeLimitsType, ReadByte, hdec ea a (eb ++ rest) ha, hdec eb b rest hb]
  have e := key 2 1 [0x02] [0x01] [] h2 h1
  exact ⟨e, ⟨[0x01, 0x02, 0x01], 2, 1, e, by decide⟩, key⟩

theorem decodeLimitsType_no_order_check_witness :
    decodeLimitsType leb128DecodeUint32 "invalid byte" [0x01, 0x02, 0x01]
      = (⟨2, some 1, none⟩, []) ∧
    decodeLimitsType leb128DecodeUint32 "invalid byte" (0x01 :: ([0x80, 0x01] ++ ([0x00] ++ [])))
      = (⟨128, some 0, none⟩, []) :=
  ⟨(decodeLimitsType_no_order_check leb128DecodeUint32 leb128DecodeUint32_correct
      "invalid byte").1,
   (decodeLimitsType_no_order_check leb128DecodeUint32 leb128DecodeUint32_correct
      "invalid byte").2.2 128 0 [0x80, 0x01] [0x00] [] (by decide) (by decide)⟩

/-! ### `unlink` -/

/-- C27: `unlink` never returns `EPERM` (the two constants being different numbers): when the
error of the system call unwraps to `EPERM` the result is `EISDIR`, and every other
unwrapped errno, 0 of a success included, is returned unchanged; the file system is the one
the system call left. -/
theorem unlink_never_EPERM {FS E : Type} (syscallUnlink : FS → String → E × FS)
    (UnwrapOSError : E → Nat) (EPERM EISDIR : Nat) (hne : EISDIR ≠ EPERM) (fs : FS)
    (name : String) :
    (unlink syscallUnlink UnwrapOSError EPERM EISDIR fs name).1 ≠ EPERM ∧
    (UnwrapOSError (syscallUnlink fs name).1 = EPERM →
      (unlink syscallUnlink UnwrapOSError EPERM EISDIR fs name).1 = EISDIR) ∧
    (UnwrapOSError (syscallUnlink fs name).1 ≠ EPERM →
      (unlink syscallUnlink UnwrapOSError EPERM EISDIR fs name).1
        = UnwrapOSError (syscallUnlink fs name).1) ∧
    (unlink syscallUnlink UnwrapOSError EPERM EISDIR fs name).2 = (syscallUnlink fs name).2 := by
  unfold unlink
  by_cases h : UnwrapOSError (syscallUnlink fs name).1 = EPERM
  · simp [h, hne]
  · simp [h]

/-! ### The register mask -/

/-- C29: with registers as bytes, `registerFromMaskShift(registerMaskShift(r)) = r` for every
register `r`, and `registerMaskShift(registerFromMaskShift(s)) = s` for every `s` from 0 to
255; `registerMaskShift` is never negative, and a register below `RegAX` has the shift
`256 - (RegAX - r)`. -/
theorem registerMaskShift_inverse (RegAX : Nat) (hAX : RegAX < 256) (r : Nat) (hr : r < 256) :
    registerFromMaskShift RegAX (registerMaskShift RegAX r) = r ∧
    (∀ s : Int, 0 ≤ s → s ≤ 255 →
      registerMaskShift RegAX (registerFromMaskShift RegAX s) = s) ∧
    0 ≤ registerMaskShift RegAX r ∧ registerMaskShift RegAX r ≤ 255 ∧
    (r < RegAX → registerMaskShift RegAX r = 256 - ((RegAX : Int) - r)) := by
  unfold registerMaskShift registerFromMaskShift
  refine ⟨by omega, ?_, by omega, by omega, by omega⟩
  intro s h0 h1
  omega

theorem registerMaskShift_inverse_witness :
    registerFromMaskShift 1 (registerMaskShift 1 0) = 0 ∧
    registerMaskShift 1 (registerFromMaskShift 1 255) = 255 ∧
    registerMaskShift 1 0 = 256 - ((1 : Int) - 0) :=
  ⟨(registerMaskShift_inverse 1 (by decide) 0 (by decide)).1,
   (registerMaskShift_inverse 1 (by decide) 0 (by decide)).2.1 255 (by decide) (by decide),
   (registerMaskShift_inverse 1 (by decide) 0 (by decide)).2.2.2.2 (by decide)⟩

/-! ### Constant expressions -/

/-- C30: for every constant expression `encodeConstantExpression` returns the byte `Opcode`,
then `Data` unchanged, then the one byte `OpcodeEnd`; the result has `len(Data) + 2` bytes;
and two expressions with the same encoding have the same `Opcode` and the same `Data`. -/
theorem encodeConstantExpression_spec (OpcodeEnd : Nat) (expr : ConstantExpression) :
    encodeConstantExpression OpcodeEnd expr = expr.Opcode :: (expr.Data ++ [OpcodeEnd]) ∧
    (encodeConstantExpression OpcodeEnd expr).length = expr.Data.length + 2 ∧
    ∀ other : ConstantExpression,
      encodeConstantExpression OpcodeEnd expr = encodeConstantExpression OpcodeEnd other →
        expr.Opcode = other.Opcode ∧ expr.Data = other.Data ∧ expr = other := by
  refine ⟨by simp [encodeConstantExpression], by simp [encodeConstantExpression], ?_⟩
  intro other h
  obtain ⟨o1, d1⟩ := expr
  obtain ⟨o2, d2⟩ := other
  simp only [encodeConstantExpression, List.nil_append, List.singleton_append,
    List.cons_append, List.cons.injEq] at h
  obtain ⟨h1, h2⟩ := h
  have h3 : d1 = d2 := List.append_cancel_right h2
  subst h1 h3
  exact ⟨rfl, rfl, rfl⟩

theorem encodeConstantExpression_spec_witness :
    encodeConstantExpression 0x0B ⟨0x41, [0x2a]⟩ = [0x41, 0x2a, 0x0B] ∧
    (encodeConstantExpression 0x0B ⟨0x41, [0x2a]⟩).length = 3 ∧
    ((⟨0x41, [0x2a]⟩ : ConstantExpression).Opcode = 0x41 ∧
      (⟨0x41, [0x2a]⟩ : ConstantExpression).Data = [0x2a] ∧
      (⟨0x41, [0x2a]⟩ : ConstantExpression) = ⟨0x41, [0x2a]⟩) :=
  ⟨(encodeConstantExpression_spec 0x0B ⟨0x41, [0x2a]⟩).1,
   (encodeConstantExpression_spec 0x0B ⟨0x41, [0x2a]⟩).2.1,
   (encodeConstantExpression_spec 0x0B ⟨0x41, [0x2a]⟩).2.2 ⟨0x41, [0x2a]⟩ rfl⟩

theorem unlink_never_EPERM_witness :
    (unlink exampleSyscallUnlink id 19 9 ["dir", "a"] "dir").1 ≠ 19 ∧
    (unlink exampleSyscallUnlink id 19 9 ["dir", "a"] "dir").1 = 9 ∧
    (unlink exampleSyscallUnlink id 19 9 ["dir", "a"] "a").1 = 0 ∧
    (unlink exampleSyscallUnlink id 19 9 ["dir", "a"] "a").2 = ["dir"] :=
  ⟨(unlink_never_EPERM exampleSyscallUnlink id 19 9 (by decide) ["dir", "a"] "dir").1,
   (unlink_never_EPERM exampleSyscallUnlink id 19 9 (by decide) ["dir", "a"] "dir").2.1
     (by decide),
   (unlink_never_EPERM exampleSyscallUnlink id 19 9 (by decide) ["dir", "a"] "a").2.2.1
     (by decide),
   (unlink_never_EPERM exampleSyscallUnlink id 19 9 (by decide) ["dir", "a"] "a").2.2.2⟩

/-! ### `Grow` -/

theorem PageSize_append_replicate (m : MemoryInstance) (delta : Nat) (hd : delta < 2 ^ 32)
    (mn c mx : Nat) :
    (MemoryInstance.mk (m.Buffer ++ List.replicate (MemoryPagesToBytesNum delta) 0)
        mn c mx).PageSize
      = (m.PageSize + delta) % 2 ^ 32 := by
  have h1 : MemoryPagesToBytesNum delta = delta * 65536 := by
    unfold MemoryPagesToBytesNum MemoryPageSize
    omega
  simp only [MemoryInstance.PageSize, memoryBytesNumToPages, MemoryPageSize, List.length_append,
    List.length_replicate, h1]
  omega

theorem Grow_ok (m : MemoryInstance) (delta : Nat) (hd : delta < 2 ^ 32)
    (hnw : m.PageSize + delta < 2 ^ 32) (h : m.PageSize + delta ≤ m.Max) :
    (m.Grow delta).1 = (m.PageSize, true) ∧
    (m.Grow delta).2.PageSize = m.PageSize + delta ∧
    (m.Grow delta).2.Max = m.Max := by
  have e : (m.PageSize + delta) % 2 ^ 32 = m.PageSize + delta := Nat.mod_eq_of_lt hnw
  unfold MemoryInstance.Grow
  simp only [e]
  by_cases h0 : delta = 0
  · simp [h0]
  · have hle : ¬ (m.PageSize + delta > m.Max) := by omega
    simp only [h0, if_false, hle]
    split_ifs
    · exact ⟨rfl, by rw [PageSize_append_replicate m delta hd, e], rfl⟩
    · exact ⟨rfl, by rw [PageSize_append_replicate m delta hd, e], rfl⟩

theorem Grow_fail (m : MemoryInstance) (delta : Nat)
    (hnw : m.PageSize + delta < 2 ^ 32) (h : m.Max < m.PageSize + delta)
    (hp : m.PageSize ≤ m.Max) :
    m.Grow delta = ((0, false), m) := by
  have e : (m.PageSize + delta) % 2 ^ 32 = m.PageSize + delta := Nat.mod_eq_of_lt hnw
  have h0 : delta ≠ 0 := by omega
  unfold MemoryInstance.Grow
  simp only [e]
  simp [h0, h]

/-- The calls of `TestMemoryInstance_Grow_Size`, on any memory of no pages with `Max = 10`
(with or without the capacity of `Max`). -/
theorem Grow_tests (m : MemoryInstance) (h0 : m.PageSize = 0) (hmax : m.Max = 10) :
    (m.Grow 5).1 = (0, true) ∧ (m.Grow 5).2.PageSize = 5 ∧
    ((m.Grow 5).2.Grow 0).1 = (5, true) ∧ ((m.Grow 5).2.Grow 0).2.PageSize = 5 ∧
    (((m.Grow 5).2.Grow 0).2.Grow 4).1 = (5, true) ∧
    (((m.Grow 5).2.Grow 0).2.Grow 4).2.PageSize = 9 ∧
    ((((m.Grow 5).2.Grow 0).2.Grow 4).2.Grow 2).1.2 = false ∧
    ((((m.Grow 5).2.Grow 0).2.Grow 4).2.Grow 2).2.PageSize = 9 ∧
    (((((m.Grow 5).2.Grow 0).2.Grow 4).2.Grow 2).2.Grow 1).1 = (9, true) ∧
    (((((m.Grow 5).2.Grow 0).2.Grow 4).2.Grow 2).2.Grow 1).2.PageSize = m.Max := by
  obtain ⟨a1, a2, a3⟩ := Grow_ok m 5 (by norm_num) (by omega) (by omega)
  rw [h0] at a1 a2
  simp only [Nat.zero_add] at a2
  have b : (m.Grow 5).2.Grow 0 = (((m.Grow 5).2.PageSize, true), (m.Grow 5).2) := by
    simp [MemoryInstance.Grow]
  obtain ⟨c1, c2, c3⟩ := Grow_ok (m.Grow 5).2 4 (by norm_num) (by omega) (by omega)
  have d := Grow_fail ((m.Grow 5).2.Grow 4).2 2 (by omega) (by omega) (by omega)
  obtain ⟨e1, e2, e3⟩ := Grow_ok ((m.Grow 5).2.Grow 4).2 1 (by norm_num) (by omega) (by omega)
  rw [b]
  simp only [a1, a2, c1, c2, d, e1, e2, hmax, c3, a3]
  simp

theorem Float32bits_frombits (v : Nat) (hv : v < 2 ^ 32) : Float32bits (Float32frombits v) = v := by
  simp only [Float32bits, Float32frombits]
  omega

theorem Float32frombits_bits (f : float32) : Float32frombits (Float32bits f) = f := by
  obtain ⟨⟨s, hs⟩, ⟨e, he⟩, ⟨m, hm⟩⟩ := f
  simp only [Float32bits, Float32frombits, float32.mk.injEq, Fin.mk.injEq]
  refine ⟨?_, ?_, ?_⟩ <;> omega

theorem Float64bits_frombits (v : Nat) (hv : v < 2 ^ 64) : Float64bits (Float64frombits v) = v := by
  simp only [Float64bits, Float64frombits]
  omega

theorem Float64frombits_bits (f : float64) : Float64frombits (Float64bits f) = f := by
  obtain ⟨⟨s, hs⟩, ⟨e, he⟩, ⟨m, hm⟩⟩ := f
  simp only [Float64bits, Float64frombits, float64.mk.injEq, Fin.mk.injEq]
  refine ⟨?_, ?_, ?_⟩ <;> omega

theorem reinterpretOperand_register (kind : OperationKind) (v old : Nat) :
    reinterpretOperand kind false v old
      = ⟨old, .onRegister
          (match kind with
            | .OperationKindF32ReinterpretFromI32 => .registerTypeGeneralPurpose
            | .OperationKindF64ReinterpretFromI64 => .registerTypeGeneralPurpose
            | _ => .registerTypeVector)
          (if kind.is32Bit then v % 2 ^ 32 else v % 2 ^ 64)⟩ := by
  have h32 := Float32bits_frombits _ (Nat.mod_lt v (show 0 < 2 ^ 32 by norm_num))
  have h64 := Float64bits_frombits _ (Nat.mod_lt v (show 0 < 2 ^ 64 by norm_num))
  cases kind <;>
    simp only [reinterpretOperand, OperationKind.is32Bit, Bool.false_eq_true, if_false,
      if_true, h32, h64]

/-- The assertions of `TestCompiler_compileReinterpret`, for the four kinds, the operand in a
register and on the stack, and the nine values of the test. -/
theorem compileReinterpret_tests :
    ∀ kind ∈ [OperationKind.OperationKindF32ReinterpretFromI32,
        .OperationKindF64ReinterpretFromI64, .OperationKindI32ReinterpretFromF32,
        .OperationKindI64ReinterpretFromF64],
      ∀ originOnStack ∈ [false, true], ∀ v ∈ reinterpretTestValues,
      if kind.is32Bit then
        (compileReturnFunction true
          (compileReinterpret kind (reinterpretOperand kind originOnStack v 0))).stackTopAsUint32
          = v % 2 ^ 32
      else
        (compileReturnFunction false
          (compileReinterpret kind (reinterpretOperand kind originOnStack v 0))).stackTopAsUint64
          = v := by
  decide

/-- C22: reinterpretation keeps the bit pattern. For each of the four kinds, with the operand
in a register or on the value stack, and for every pattern `v`, the code of one reinterpret
leaves the low 32 bits of the stack top equal to those of `v` for a kind of 32 bits, and the
64 bits equal to `v` for a kind of 64 bits; so does the code of a reinterpret followed by
the reinterpret back. On values, the bits of the float made from a pattern of 32 or of 64
bits are that pattern, and the float made from the bits of a float is that float. -/
theorem compileReinterpret_preserves (kind : OperationKind) (originOnStack : Bool)
    (v old : Nat) (hv : v < 2 ^ 64) :
    (kind.is32Bit = true →
      (compileReturnFunction true
        (compileReinterpret kind (reinterpretOperand kind originOnStack v old))).stackTopAsUint32
        = v % 2 ^ 32 ∧
      (compileReturnFunction true
        (compileReinterpret kind.inverse
          (compileReinterpret kind
            (reinterpretOperand kind originOnStack v old)))).stackTopAsUint32
        = v % 2 ^ 32) ∧
    (kind.is32Bit = false →
      (compileReturnFunction false
        (compileReinterpret kind (reinterpretOperand kind originOnStack v old))).stackTopAsUint64
        = v ∧
      (compileReturnFunction false
        (compileReinterpret kind.inverse
          (compileReinterpret kind
            (reinterpretOperand kind originOnStack v old)))).stackTopAsUint64
        = v) ∧
    (∀ w, w < 2 ^ 32 → Float32bits (Float32frombits w) = w) ∧
    (∀ f : float32, Float32frombits (Float32bits f) = f) ∧
    (∀ w, w < 2 ^ 64 → Float64bits (Float64frombits w) = w) ∧
    (∀ f : float64, Float64frombits (Float64bits f) = f) := by
  refine ⟨?_, ?_, Float32bits_frombits, Float32frombits_bits, Float64bits_frombits,
    Float64frombits_bits⟩
  · intro h32
    cases originOnStack
    · rw [reinterpretOperand_register]
      cases kind <;> simp [OperationKind.is32Bit] at h32 <;>
        simp [compileReinterpret, compileReturnFunction, OperationKind.inverse,
          compilerEnvironment.stackTopAsUint32, OperationKind.is32Bit] <;> omega
    · cases kind <;> simp [OperationKind.is32Bit] at h32 <;>
        simp [reinterpretOperand, compileReinterpret, compileReturnFunction,
          compilerEnvironment.stackTopAsUint32] <;> omega
  · intro h64
    cases originOnStack
    · rw [reinterpretOperand_register]
      cases kind <;> simp [OperationKind.is32Bit] at h64 <;>
        simp [compileReinterpret, compileReturnFunction, OperationKind.inverse,
          compilerEnvironment.stackTopAsUint64, OperationKind.is32Bit] <;> omega
    · cases kind <;> simp [OperationKind.is32Bit] at h64 <;>
        simp [reinterpretOperand, compileReinterpret, compileReturnFunction,
          compilerEnvironment.stackTopAsUint64] <;> omega

theorem compileReinterpret_preserves_witness :
    ((compileReturnFunction true
        (compileReinterpret .OperationKindI32ReinterpretFromF32
          (reinterpretOperand .OperationKindI32ReinterpretFromF32 false 0x7fc00001
            5))).stackTopAsUint32
        = 0x7fc00001 % 2 ^ 32 ∧
      (compileReturnFunction true
        (compileReinterpret (OperationKind.inverse .OperationKindI32ReinterpretFromF32)
          (compileReinterpret .OperationKindI32ReinterpretFromF32
            (reinterpretOperand .OperationKindI32ReinterpretFromF32 false 0x7fc00001
              5)))).stackTopAsUint32
        = 0x7fc00001 % 2 ^ 32) ∧
    ((compileReturnFunction false
        (compileReinterpret .OperationKindF64ReinterpretFromI64
          (reinterpretOperand .OperationKindF64ReinterpretFromI64 true (2 ^ 64 - 1)
            5))).stackTopAsUint64
        = 2 ^ 64 - 1 ∧
      (compileReturnFunction false
        (compileReinterpret (OperationKind.inverse .OperationKindF64ReinterpretFromI64)
          (compileReinterpret .OperationKindF64ReinterpretFromI64
            (reinterpretOperand .OperationKindF64ReinterpretFromI64 true (2 ^ 64 - 1)
              5)))).stackTopAsUint64
        = 2 ^ 64 - 1) :=
  ⟨(compileReinterpret_preserves .OperationKindI32ReinterpretFromF32 false 0x7fc00001 5
      (by decide)).1 rfl,
   (compileReinterpret_preserves .OperationKindF64ReinterpretFromI64 true (2 ^ 64 - 1) 5
      (by decide)).2.1 rfl⟩

/-! ### Closing a module while calls are in flight -/

theorem linkInstr_spec (m : machine) (prev next : Nat) :
    (linkInstr m prev next).2 = next ∧
    (linkInstr m prev next).1.instrs.length = m.instrs.length ∧
    (∀ i, m.instrs[prev]? = some i →
      ∃ j, (linkInstr m prev next).1.instrs[prev]? = some j ∧ j.next = some next ∧
        j.data = i.data ∧ (prev ≠ next → j.prev = i.prev)) ∧
    (∀ i, m.instrs[next]? = some i →
      ∃ j, (linkInstr m prev next).1.instrs[next]? = some j ∧ j.prev = some prev ∧
        j.data = i.data ∧ (prev ≠ next → j.next = i.next)) ∧
    (∀ k, k ≠ prev → k ≠ next →
      (linkInstr m prev next).1.instrs[k]? = m.instrs[k]?) := by
  refine ⟨rfl, by simp [linkInstr, machine.modify], ?_, ?_, ?_⟩
  · intro i hi
    by_cases hpn : prev = next
    · subst hpn
      simp [linkInstr, machine.modify, List.getElem?_modify, hi]
    · have : ¬ next = prev := fun h => hpn h.symm
      simp [linkInstr, machine.modify, List.getElem?_modify, hi, this]
  · intro i hi
    by_cases hpn : prev = next
    · subst hpn
      simp [linkInstr, machine.modify, List.getElem?_modify, hi]
    · simp [linkInstr, machine.modify, List.getElem?_modify, hi, hpn]
  · intro k hk1 hk2
    have h1 : ¬ prev = k := fun h => hk1 h.symm
    have h2 : ¬ next = k := fun h => hk2 h.symm
    simp [linkInstr, machine.modify, List.getElem?_modify, h1, h2]

theorem entryPreambleInstrs_last (resolve : OffsetResolver) (offs : ExecutionContextOffsets)
    (a : abiImpl) :
    (entryPreambleInstrs resolve offs a).getD ((entryPreambleInstrs resolve offs a).length - 1)
      .zero = .ret := by
  have key : ∀ (X : List instrData) (p q r s : instrData),
      (X ++ [p, q, r, s, .ret]).getD ((X ++ [p, q, r, s, .ret]).length - 1) .zero = .ret := by
    intro X p q r s
    rw [List.getD_eq_getElem?_getD, List.getElem?_append_right (by simp)]
    have : (X ++ [p, q, r, s, instrData.ret]).length - 1 - X.length = 4 := by
      simp
    rw [this]
    rfl
  unfold entryPreambleInstrs
  exact key _ _ _ _ _

/-- C28: `linkInstr(prev, next)` sets `prev.next = next` and `next.prev = prev`, changes no
other field and no other node, and returns `next`. The list that `constructEntryPreamble`
returns is a consistent doubly-linked list: its nodes are the nodes of the pool from the
root on; the `prev` of the root is nil; the last node is the `ret` and its `next` is nil; for
every node `n` with a successor `n.next.prev = n`, and for every node `n` with a predecessor
`n.prev.next = n`. -/
theorem constructEntryPreamble_links (resolve : OffsetResolver)
    (offs : ExecutionContextOffsets) (m : machine) (a : abiImpl) :
    (∀ (p : machine) (prev next : Nat),
      (linkInstr p prev next).2 = next ∧
      (linkInstr p prev next).1.instrs.length = p.instrs.length ∧
      (∀ i, p.instrs[prev]? = some i →
        ∃ j, (linkInstr p prev next).1.instrs[prev]? = some j ∧ j.next = some next ∧
          j.data = i.data ∧ (prev ≠ next → j.prev = i.prev)) ∧
      (∀ i, p.instrs[next]? = some i →
        ∃ j, (linkInstr p prev next).1.instrs[next]? = some j ∧ j.prev = some prev ∧
          j.data = i.data ∧ (prev ≠ next → j.next = i.next)) ∧
      (∀ k, k ≠ prev → k ≠ next → (linkInstr p prev next).1.instrs[k]? = p.instrs[k]?)) ∧
    (constructEntryPreamble resolve offs m a).2
      < (constructEntryPreamble resolve offs m a).1.instrs.length ∧
    (∃ r, (constructEntryPreamble resolve offs m a).1.instrs[
        (constructEntryPreamble resolve offs m a).2]? = some r ∧ r.prev = none) ∧
    (∃ last, (constructEntryPreamble resolve offs m a).1.instrs[
        (constructEntryPreamble resolve offs m a).1.instrs.length - 1]? = some last ∧
      last.data = .ret ∧ last.next = none) ∧
    (∀ k node s, (constructEntryPreamble resolve offs m a).2 ≤ k →
      (constructEntryPreamble resolve offs m a).1.instrs[k]? = some node →
      node.next = some s →
      ∃ succ, (constructEntryPreamble resolve offs m a).1.instrs[s]? = some succ ∧
        succ.prev = some k) ∧
    (∀ k node q, (constructEntryPreamble resolve offs m a).2 ≤ k →
      (constructEntryPreamble resolve offs m a).1.instrs[k]? = some node →
      node.prev = some q →
      ∃ pred, (constructEntryPreamble resolve offs m a).1.instrs[q]? = some pred ∧
        pred.next = some k) := by
  refine ⟨fun p prev next => linkInstr_spec p prev next, ?_⟩
  obtain ⟨cur, hb, -⟩ := built_constructEntryPreamble resolve offs m a
  have hlast := entryPreambleInstrs_last resolve offs a
  generalize entryPreambleInstrs resolve offs a = L at hb hlast
  generalize (constructEntryPreamble resolve offs m a).2 = root at hb ⊢
  generalize (constructEntryPreamble resolve offs m a).1 = mc at hb ⊢
  have hlen := hb.len
  have hpos := hb.pos
  simp only at hlen hpos
  refine ⟨by omega, ?_, ?_, ?_, ?_⟩
  · have h0 := hb.node 0 hpos
    simp only [Nat.add_zero] at h0
    exact ⟨_, h0, by simp⟩
  · have h1 := hb.node (L.length - 1) (by omega)
    have e : root + (L.length - 1) = mc.instrs.length - 1 := by omega
    simp only [e] at h1
    refine ⟨_, h1, hlast, ?_⟩
    have : ¬ (L.length - 1 + 1 < L.length) := by omega
    simp [this]
  · intro k node s hk hnode hnext
    have hklt : k < mc.instrs.length := by
      by_contra hcon
      rw [List.getElem?_eq_none (by omega)] at hnode
      cases hnode
    have h1 := hb.node (k - root) (by omega)
    have e : root + (k - root) = k := by omega
    simp only [e] at h1
    rw [hnode] at h1
    have h2 := Option.some.inj h1
    rw [h2] at hnext
    simp only at hnext
    split_ifs at hnext with hlt
    have hs : s = k + 1 := (Option.some.inj hnext).symm
    have h3 := hb.node (k - root + 1) hlt
    have e2 : root + (k - root + 1) = s := by omega
    simp only [e2] at h3
    refine ⟨_, h3, ?_⟩
    have : ¬ (k - root + 1 = 0) := by omega
    simp only [this, if_false]
    congr 1
    omega
  · intro k node q hk hnode hprev
    have hklt : k < mc.instrs.length := by
      by_contra hcon
      rw [List.getElem?_eq_none (by omega)] at hnode
      cases hnode
    have h1 := hb.node (k - root) (by omega)
    have e : root + (k - root) = k := by omega
    simp only [e] at h1
    rw [hnode] at h1
    have h2 := Option.some.inj h1
    rw [h2] at hprev
    simp only at hprev
    split_ifs at hprev with h0
    have hq : q = k - 1 := (Option.some.inj hprev).symm
    have h3 := hb.node (k - root - 1) (by omega)
    have e2 : root + (k - root - 1) = q := by omega
    simp only [e2] at h3
    refine ⟨_, h3, ?_⟩
    have : k - root - 1 + 1 < L.length := by omega
    simp only [this, if_true]
    congr 1
    omega

set_option maxRecDepth 100000 in
theorem constructEntryPreamble_links_witness :
    (∃ r, (constructEntryPreamble resolveAddressModeForOffset exampleOffsets ⟨[]⟩
        exampleABI).1.instrs[
        (constructEntryPreamble resolveAddressModeForOffset exampleOffsets ⟨[]⟩
          exampleABI).2]? = some r ∧ r.prev = none) ∧
    (∃ succ, (constructEntryPreamble resolveAddressModeForOffset exampleOffsets ⟨[]⟩
        exampleABI).1.instrs[1]? = some succ ∧ succ.prev = some 0) ∧
    (linkInstr ⟨[⟨none, none, .zero⟩, ⟨none, none, .zero⟩]⟩ 0 1).2 = 1 :=
  ⟨(constructEntryPreamble_links resolveAddressModeForOffset exampleOffsets ⟨[]⟩
      exampleABI).2.2.1,
   (constructEntryPreamble_links resolveAddressModeForOffset exampleOffsets ⟨[]⟩
      exampleABI).2.2.2.2.1 0 ⟨none, some 1, .nop0⟩ 1 (Nat.le_of_eq rfl) (by rfl) rfl,
   ((constructEntryPreamble_links resolveAddressModeForOffset exampleOffsets ⟨[]⟩
      exampleABI).1 ⟨[⟨none, none, .zero⟩, ⟨none, none, .zero⟩]⟩ 0 1).1⟩

/-! ### The staging registers -/

theorem passArgInstrs_defs_mem {resolve : OffsetResolver} (hres : resolve.WellBehaved)
    (c : VReg) (start : Int) (arg : ABIArg) :
    ∀ d ∈ passArgInstrs resolve c start arg, ∀ q ∈ d.defs,
      q = c ∨ q = tmpRegVReg ∨ q = stagingReg arg := by
  intro d hd q hq
  by_contra hcon
  push_neg at hcon
  exact passArgInstrs_defs hres c start arg q hcon.1 hcon.2.1 hcon.2.2 d hd hq

theorem passResultInstrs_defs_mem {resolve : OffsetResolver} (hres : resolve.WellBehaved)
    (c : VReg) (start : Int) (r : ABIArg) :
    ∀ d ∈ passResultInstrs resolve c start r, ∀ q ∈ d.defs,
      q = c ∨ q = tmpRegVReg ∨ q = x15VReg ∨ q = v15VReg := by
  intro d hd q hq
  by_contra hcon
  push_neg at hcon
  exact passResultInstrs_defs hres c start r q hcon.1 hcon.2.1 hcon.2.2.1 hcon.2.2.2 d hd hq

theorem stagingReg_stack {arg : ABIArg} (hk : arg.Kind = .ABIArgKindStack) :
    ((arg.Typ = .TypeI32 ∨ arg.Typ = .TypeI64) → stagingReg arg = x15VReg) ∧
    ((arg.Typ = .TypeF32 ∨ arg.Typ = .TypeF64 ∨ arg.Typ = .TypeV128) →
      stagingReg arg = v15VReg) ∧
    (stagingReg arg = x15VReg ∨ stagingReg arg = v15VReg) := by
  obtain ⟨idx, kind, reg, off, typ⟩ := arg
  simp only at hk
  subst hk
  cases typ <;> simp [stagingReg, x15VReg, v15VReg]

/-- C24: a stack-passed argument or result is staged through x15 when its type is I32 or I64
and through v15 when it is F32, F64 or V128; these are none of x0..x7, v0..v7, x19, x20,
x24, x25, x26. The instructions that `goEntryPreamblePassArg` links for a stack argument
write only the staging register, the slice cursor and the temporary register of the offset
resolver, and those that `goEntryPreamblePassResult` links for a stack result only x15 or
v15, x19 and the temporary register: none of them writes an argument or result register, so
no register argument loaded before and no register result still to be stored is
overwritten. -/
theorem goEntryPreamble_staging (resolve : OffsetResolver) (hres : resolve.WellBehaved)
    (arg : ABIArg) (hk : arg.Kind = .ABIArgKindStack) (c : VReg)
    (hc : c = x19VReg ∨ c = x25VReg) (start : Int) (mc : machine × Nat) (root : Nat)
    (L : List instrData) (hb : Built mc root L) :
    ((arg.Typ = .TypeI32 ∨ arg.Typ = .TypeI64) → stagingReg arg = x15VReg) ∧
    ((arg.Typ = .TypeF32 ∨ arg.Typ = .TypeF64 ∨ arg.Typ = .TypeV128) →
      stagingReg arg = v15VReg) ∧
    isArgResultReg (stagingReg arg) = false ∧
    stagingReg arg ∉ [x19VReg, x20VReg, x24VReg, x25VReg, x26VReg] ∧
    (∃ new, (goEntryPreamblePassArg resolve mc.1 mc.2 c arg start).1.instructionsFrom root
        = L ++ new ∧
      (∀ d ∈ new, ∀ q ∈ d.defs, q = c ∨ q = tmpRegVReg ∨ q = stagingReg arg) ∧
      (∀ d ∈ new, ∀ q ∈ d.defs,
        isArgResultReg q = false ∧ q ∉ [x20VReg, x24VReg, x26VReg]) ∧
      ∀ other : ABIArg, other.Kind = .ABIArgKindReg → other.RegOK →
        ∀ d ∈ new, other.Reg ∉ d.defs) ∧
    (∃ new, (goEntryPreamblePassResult resolve mc.1 mc.2 x19VReg arg start).1.instructionsFrom
        root = L ++ new ∧
      (∀ d ∈ new, ∀ q ∈ d.defs,
        q = x19VReg ∨ q = tmpRegVReg ∨ q = x15VReg ∨ q = v15VReg) ∧
      (∀ d ∈ new, ∀ q ∈ d.defs,
        isArgResultReg q = false ∧ q ∉ [x20VReg, x24VReg, x25VReg, x26VReg]) ∧
      ∀ other : ABIArg, other.Kind = .ABIArgKindReg → other.RegOK →
        ∀ d ∈ new, other.Reg ∉ d.defs) := by
  obtain ⟨h1, h2, h3⟩ := stagingReg_stack hk
  have hnot : isArgResultReg (stagingReg arg) = false ∧
      stagingReg arg ∉ [x19VReg, x20VReg, x24VReg, x25VReg, x26VReg] := by
    rcases h3 with h | h <;> rw [h] <;> decide
  have hA : ∀ d ∈ passArgInstrs resolve c start arg, ∀ q ∈ d.defs,
      isArgResultReg q = false ∧ q ∉ [x20VReg, x24VReg, x26VReg] := by
    intro d hd q hq
    rcases passArgInstrs_defs_mem hres c start arg d hd q hq with h | h | h
    · rcases hc with hc | hc <;> rw [h, hc] <;> decide
    · rw [h]; decide
    · rcases h3 with h4 | h4 <;> rw [h, h4] <;> decide
  have hR : ∀ d ∈ passResultInstrs resolve x19VReg start arg, ∀ q ∈ d.defs,
      isArgResultReg q = false ∧ q ∉ [x20VReg, x24VReg, x25VReg, x26VReg] := by
    intro d hd q hq
    rcases passResultInstrs_defs_mem hres x19VReg start arg d hd q hq with h | h | h | h <;>
      rw [h] <;> decide
  refine ⟨h1, h2, hnot.1, hnot.2, ⟨passArgInstrs resolve c start arg, ?_, ?_, hA, ?_⟩,
    ⟨passResultInstrs resolve x19VReg start arg, ?_, ?_, hR, ?_⟩⟩
  · exact instructionsFrom_of_built (built_goEntryPreamblePassArg resolve hb c arg start)
  · exact passArgInstrs_defs_mem hres c start arg
  · intro other hok hreg d hd hmem
    have := (hA d hd _ hmem).1
    rw [hreg hok] at this
    cases this
  · exact instructionsFrom_of_built (built_goEntryPreamblePassResult resolve hb x19VReg arg start)
  · exact passResultInstrs_defs_mem hres x19VReg start arg
  · intro other hok hreg d hd hmem
    have := (hR d hd _ hmem).1
    rw [hreg hok] at this
    cases this

theorem goEntryPreamble_staging_witness :
    stagingReg ⟨3, .ABIArgKindStack, .x 0, 0, .TypeI32⟩ = x15VReg ∧
    isArgResultReg (stagingReg ⟨3, .ABIArgKindStack, .x 0, 0, .TypeI32⟩) = false ∧
    stagingReg ⟨3, .ABIArgKindStack, .x 0, 0, .TypeI32⟩
      ∉ [x19VReg, x20VReg, x24VReg, x25VReg, x26VReg] :=
  ⟨(goEntryPreamble_staging resolveAddressModeForOffset
      resolveAddressModeForOffset_wellBehaved ⟨3, .ABIArgKindStack, .x 0, 0, .TypeI32⟩ rfl
      x25VReg (Or.inr rfl) (-16) (machine.mk []).allocateNop 0 [.nop0]
      (built_allocateNop ⟨[]⟩)).1 (Or.inl rfl),
   (goEntryPreamble_staging resolveAddressModeForOffset
      resolveAddressModeForOffset_wellBehaved ⟨3, .ABIArgKindStack, .x 0, 0, .TypeI32⟩ rfl
      x25VReg (Or.inr rfl) (-16) (machine.mk []).allocateNop 0 [.nop0]
      (built_allocateNop ⟨[]⟩)).2.2.1,
   (goEntryPreamble_staging resolveAddressModeForOffset
      resolveAddressModeForOffset_wellBehaved ⟨3, .ABIArgKindStack, .x 0, 0, .TypeI32⟩ rfl
      x25VReg (Or.inr rfl) (-16) (machine.mk []).allocateNop 0 [.nop0]
      (built_allocateNop ⟨[]⟩)).2.2.2.1⟩

/-! ### The width of the slots of 32-bit values -/

theorem sliceSlotSize_pos (t : ssaType) : 0 < sliceSlotSize t := by
  unfold sliceSlotSize
  split_ifs <;> norm_num

theorem bytes_le_sliceSlotSize (t : ssaType) : ((t.Bits / 8 : Nat) : Int) ≤ sliceSlotSize t := by
  cases t <;> simp [ssaType.Bits, sliceSlotSize]

theorem sliceLayoutFrom_lower (isStore : Bool) (l : List ABIArg) :
    ∀ (start : Int), ∀ acc ∈ sliceLayoutFrom isStore start l,
      ∃ o, acc.offset = some o ∧ start ≤ o := by
  induction l with
  | nil => intro start acc h; simp [sliceLayoutFrom] at h
  | cons p rest ih =>
    intro start acc h
    simp only [sliceLayoutFrom, List.mem_cons] at h
    rcases h with rfl | h
    · exact ⟨start, rfl, le_refl _⟩
    · obtain ⟨o, ho, hle⟩ := ih _ acc h
      have := sliceSlotSize_pos p.Typ
      exact ⟨o, ho, by omega⟩

theorem sliceLayoutFrom_isStore (isStore : Bool) (l : List ABIArg) :
    ∀ (start : Int), ∀ acc ∈ sliceLayoutFrom isStore start l, acc.isStore = isStore := by
  induction l with
  | nil => intro start acc h; simp [sliceLayoutFrom] at h
  | cons p rest ih =>
    intro start acc h
    simp only [sliceLayoutFrom, List.mem_cons] at h
    rcases h with rfl | h
    · rfl
    · exact ih _ acc h

theorem slotOffset_zero (l : List ABIArg) : slotOffset l 0 = 0 := by
  simp [slotOffset]

theorem slotOffset_succ (p : ABIArg) (rest : List ABIArg) (k : Nat) :
    slotOffset (p :: rest) (k + 1) = sliceSlotSize p.Typ + slotOffset rest k := by
  simp [slotOffset]

theorem slotOffset_nonneg (l : List ABIArg) : ∀ k, 0 ≤ slotOffset l k := by
  induction l with
  | nil => intro k; simp [slotOffset]
  | cons p rest ih =>
    intro k
    cases k with
    | zero => simp [slotOffset]
    | succ k =>
      rw [slotOffset_succ]
      have := sliceSlotSize_pos p.Typ
      have := ih k
      omega

theorem sliceLayoutFrom_mem (isStore : Bool) (l : List ABIArg) :
    ∀ (start : Int) (k : Nat) (p : ABIArg), l[k]? = some p →
      (⟨isStore, some (start + slotOffset l k), p.Typ.Bits, stagingReg p⟩ : sliceAccess)
        ∈ sliceLayoutFrom isStore start l := by
  induction l with
  | nil => intro start k p h; simp at h
  | cons q rest ih =>
    intro start k p h
    cases k with
    | zero =>
      simp only [List.getElem?_cons_zero, Option.some.injEq] at h
      subst h
      simp [sliceLayoutFrom, slotOffset_zero]
    | succ k =>
      simp only [List.getElem?_cons_succ] at h
      have := ih (start + sliceSlotSize q.Typ) k p h
      simp only [sliceLayoutFrom, List.mem_cons]
      right
      rw [slotOffset_succ]
      rwa [add_assoc] at this

theorem sliceLayoutFrom_upper_untouched (isStore : Bool) (l : List ABIArg) :
    ∀ (start : Int) (k : Nat) (p : ABIArg), l[k]? = some p → p.Typ.Bits = 32 →
      ∀ acc ∈ sliceLayoutFrom isStore start l, ∀ byte : Int,
        start + slotOffset l k + 4 ≤ byte → byte < start + slotOffset l k + 8 →
        ¬ acc.touches byte := by
  induction l with
  | nil => intro start k p h; simp at h
  | cons q rest ih =>
    intro start k p h h32 acc hacc byte hlo hhi
    simp only [sliceLayoutFrom, List.mem_cons] at hacc
    cases k with
    | zero =>
      simp only [List.getElem?_cons_zero, Option.some.injEq] at h
      subst h
      rw [slotOffset_zero] at hlo hhi
      have hslot : sliceSlotSize q.Typ = 8 := by
        cases hq : q.Typ <;> simp [hq, ssaType.Bits] at h32 <;> simp [sliceSlotSize]
      rcases hacc with rfl | hacc
      · simp only [sliceAccess.touches, h32]
        omega
      · obtain ⟨o, ho, hle⟩ := sliceLayoutFrom_lower isStore rest _ acc hacc
        simp only [sliceAccess.touches, ho]
        omega
    | succ k =>
      simp only [List.getElem?_cons_succ] at h
      rw [slotOffset_succ] at hlo hhi
      rcases hacc with rfl | hacc
      · have h1 := bytes_le_sliceSlotSize q.Typ
        have h2 := slotOffset_nonneg rest k
        simp only [sliceAccess.touches]
        omega
      · exact ih (start + sliceSlotSize q.Typ) k p h h32 acc hacc byte (by omega) (by omega)

theorem sliceRun_entryPreamble {resolve : OffsetResolver} (hres : resolve.WellBehaved)
    (offs : ExecutionContextOffsets) (a : abiImpl) (hregs : ∀ arg ∈ a.args, arg.RegOK) :
    (sliceRun initialSliceState
      (preambleBeforeCall resolve offs a ++ .callIndirect functionExecutable ::
        preambleAfterCall resolve offs a)).2
      = sliceLayoutFrom false 0 (a.args.drop 2) ++ sliceLayoutFrom true 0 a.rets := by
  obtain ⟨hinv, h0, ⟨d, hd⟩, hacc⟩ := sliceRun_preambleBeforeCall hres offs a hregs
  rw [sliceRun_append, sliceRun_cons_skip (sliceStep_call hinv _),
    sliceRun_preambleAfterCall hres offs a hinv hd, hacc]
  have hlay : sliceLayoutFrom true d a.rets = sliceLayoutFrom true 0 a.rets := by
    by_cases hr : 0 < a.rets.length
    · have := h0 hr
      rw [hd] at this
      rw [Option.some.inj this]
    · have : a.rets = [] := List.length_eq_zero.mp (by omega)
      simp [this, sliceLayoutFrom]
  rw [hlay]

/-- C25: for every result of the type I32 or F32 the store that `goEntryPreamblePassResult`
links into the result slice is 32 bits wide and advances the cursor x19 by 8 bytes; run from
the entry state, it writes the first 4 bytes of the slot of the result, and no store of the
preamble writes one of the upper 4 bytes of that slot. For every parameter of the type I32
or F32 the load that `goEntryPreamblePassArg` links is 32 bits wide and advances the cursor
by 8 bytes; it reads the first 4 bytes of the slot of the parameter, and no load of the
preamble reads one of the upper 4 bytes of that slot. -/
theorem constructEntryPreamble_slot_width (resolve : OffsetResolver)
    (hres : resolve.WellBehaved) (offs : ExecutionContextOffsets) (m : machine) (a : abiImpl)
    (hregs : ∀ arg ∈ a.args, arg.RegOK) :
    (∀ k r, a.rets[k]? = some r → (r.Typ = .TypeI32 ∨ r.Typ = .TypeF32) →
      (((constructEntryPreamble resolve offs m a).1.instructionsFrom
          (constructEntryPreamble resolve offs m a).2).filter (·.isPostIndexStore))[k]?
        = some (.store (stagingReg r) ⟨.PostIndex, x19VReg, none, 8⟩ 32) ∧
      (⟨true, some (slotOffset a.rets k), 32, stagingReg r⟩ : sliceAccess)
        ∈ (sliceRun initialSliceState
            ((constructEntryPreamble resolve offs m a).1.instructionsFrom
              (constructEntryPreamble resolve offs m a).2)).2 ∧
      ∀ acc ∈ (sliceRun initialSliceState
            ((constructEntryPreamble resolve offs m a).1.instructionsFrom
              (constructEntryPreamble resolve offs m a).2)).2,
        acc.isStore = true → ∀ byte : Int,
          slotOffset a.rets k + 4 ≤ byte → byte < slotOffset a.rets k + 8 →
          ¬ acc.touches byte) ∧
    (∀ k p, (a.args.drop 2)[k]? = some p → (p.Typ = .TypeI32 ∨ p.Typ = .TypeF32) →
      (((constructEntryPreamble resolve offs m a).1.instructionsFrom
          (constructEntryPreamble resolve offs m a).2).filter (·.isPostIndexLoad))[k]?
        = some (if p.Typ = .TypeI32
            then .uLoad (stagingReg p) ⟨.PostIndex, paramCursorReg a, none, 8⟩ 32
            else .fpuLoad (stagingReg p) ⟨.PostIndex, paramCursorReg a, none, 8⟩ 32) ∧
      (⟨false, some (slotOffset (a.args.drop 2) k), 32, stagingReg p⟩ : sliceAccess)
        ∈ (sliceRun initialSliceState
            ((constructEntryPreamble resolve offs m a).1.instructionsFrom
              (constructEntryPreamble resolve offs m a).2)).2 ∧
      ∀ acc ∈ (sliceRun initialSliceState
            ((constructEntryPreamble resolve offs m a).1.instructionsFrom
              (constructEntryPreamble resolve offs m a).2)).2,
        acc.isStore = false → ∀ byte : Int,
          slotOffset (a.args.drop 2) k + 4 ≤ byte → byte < slotOffset (a.args.drop 2) k + 8 →
          ¬ acc.touches byte) := by
  rw [constructEntryPreamble_instructions, sliceRun_entryPreamble hres offs a hregs,
    filter_isPostIndexStore_preamble hres, filter_isPostIndexLoad_preamble hres]
  constructor
  · intro k r hk ht
    have h32 : r.Typ.Bits = 32 := by rcases ht with h | h <;> rw [h] <;> rfl
    have hmem := sliceLayoutFrom_mem true a.rets 0 k r hk
    rw [h32, zero_add] at hmem
    refine ⟨?_, List.mem_append_right _ hmem, ?_⟩
    · rw [List.getElem?_map, hk]
      rcases ht with h | h <;>
        simp [resultStore, paramResultSlicePtr, sliceSlotSize, h, ssaType.Bits]
    · intro acc hacc hst byte hlo hhi
      rcases List.mem_append.mp hacc with h | h
      · rw [sliceLayoutFrom_isStore false _ 0 acc h] at hst
        cases hst
      · exact sliceLayoutFrom_upper_untouched true a.rets 0 k r hk h32 acc h byte
          (by omega) (by omega)
  · intro k p hk ht
    have h32 : p.Typ.Bits = 32 := by rcases ht with h | h <;> rw [h] <;> rfl
    have hmem := sliceLayoutFrom_mem false (a.args.drop 2) 0 k p hk
    rw [h32, zero_add] at hmem
    refine ⟨?_, List.mem_append_left _ hmem, ?_⟩
    · rw [List.getElem?_map, hk]
      rcases ht with h | h <;> simp [argLoad, sliceSlotSize, h]
    · intro acc hacc hst byte hlo hhi
      rcases List.mem_append.mp hacc with h | h
      · exact sliceLayoutFrom_upper_untouched false (a.args.drop 2) 0 k p hk h32 acc h byte
          (by omega) (by omega)
      · rw [sliceLayoutFrom_isStore true _ 0 acc h] at hst
        cases hst

theorem stagingABI_regOK : ∀ arg ∈ stagingABI.args, arg.RegOK := by
  intro arg h
  simp only [stagingABI, List.mem_cons, List.mem_singleton, List.not_mem_nil, or_false] at h
  rcases h with rfl | rfl | rfl | rfl | rfl <;> simp [ABIArg.RegOK, isArgResultReg]

set_option maxRecDepth 100000 in
theorem constructEntryPreamble_slot_width_witness :
    ((((constructEntryPreamble resolveAddressModeForOffset exampleOffsets ⟨[]⟩
          stagingABI).1.instructionsFrom
          (constructEntryPreamble resolveAddressModeForOffset exampleOffsets ⟨[]⟩
            stagingABI).2).filter (·.isPostIndexStore))[1]?
        = some (.store x15VReg ⟨.PostIndex, x19VReg, none, 8⟩ 32) ∧
      (⟨true, some 8, 32, x15VReg⟩ : sliceAccess)
        ∈ (sliceRun initialSliceState
            ((constructEntryPreamble resolveAddressModeForOffset exampleOffsets ⟨[]⟩
              stagingABI).1.instructionsFrom
              (constructEntryPreamble resolveAddressModeForOffset exampleOffsets ⟨[]⟩
                stagingABI).2)).2) ∧
    (∀ acc ∈ (sliceRun initialSliceState
            ((constructEntryPreamble resolveAddressModeForOffset exampleOffsets ⟨[]⟩
              stagingABI).1.instructionsFrom
              (constructEntryPreamble resolveAddressModeForOffset exampleOffsets ⟨[]⟩
                stagingABI).2)).2,
        acc.isStore = true → ¬ acc.touches 13) ∧
    (((constructEntryPreamble resolveAddressModeForOffset exampleOffsets ⟨[]⟩
          stagingABI).1.instructionsFrom
          (constructEntryPreamble resolveAddressModeForOffset exampleOffsets ⟨[]⟩
            stagingABI).2).filter (·.isPostIndexLoad))[0]?
        = some (.uLoad (.x 2) ⟨.PostIndex, x25VReg, none, 8⟩ 32) :=
  ⟨⟨((constructEntryPreamble_slot_width resolveAddressModeForOffset
      resolveAddressModeForOffset_wellBehaved exampleOffsets ⟨[]⟩ stagingABI
      stagingABI_regOK).1 1 ⟨1, .ABIArgKindStack, .x 0, 0, .TypeI32⟩ rfl (Or.inl rfl)).1,
    ((constructEntryPreamble_slot_width resolveAddressModeForOffset
      resolveAddressModeForOffset_wellBehaved exampleOffsets ⟨[]⟩ stagingABI
      stagingABI_regOK).1 1 ⟨1, .ABIArgKindStack, .x 0, 0, .TypeI32⟩ rfl (Or.inl rfl)).2.1⟩,
   fun acc hacc hst =>
    ((constructEntryPreamble_slot_width resolveAddressModeForOffset
      resolveAddressModeForOffset_wellBehaved exampleOffsets ⟨[]⟩ stagingABI
      stagingABI_regOK).1 1 ⟨1, .ABIArgKindStack, .x 0, 0, .TypeI32⟩ rfl (Or.inl rfl)).2.2
      acc hacc hst 13 (by decide) (by decide),
   ((constructEntryPreamble_slot_width resolveAddressModeForOffset
      resolveAddressModeForOffset_wellBehaved exampleOffsets ⟨[]⟩ stagingABI
      stagingABI_regOK).2 0 ⟨2, .ABIArgKindReg, .x 2, 0, .TypeI32⟩ rfl (Or.inl rfl)).1⟩

end Wazero
